import Mathlib

/-!
# fiberhouse: the tiered caching subsystem

A shallow embedding of `frame/cache` (errors, `CacheOption`, the cache-aside
function `GetCached`), `frame/cache/cachelocal` (`LocalCache`),
`frame/cache/cacheremote` (`RedisDb`) and `frame/cache/cache2` (`Level2Cache`),
of the helpers of `frame/cache/helper.go` (circuit breaker, bloom filters), and
of `frame/globalmanager` (`GlobalManager`) and `frame/exception`.

Conventions of the embedding:

* a Go `error` is `Option GoError` (`none` is `nil`);
* a Go call that may abort is an `Outcome`: it either returns or panics;
* objects are passed as explicit state: an operation takes the state of the
  object and gives back the new state;
* `string` and `[]byte` payloads are byte sequences; both are `String` here
  and `fiberUtils.UnsafeString` / `fiberUtils.UnsafeBytes` are the identity;
* `time.Duration`, `Level` and `Strategy` are `Int`; `int64` arithmetic wraps
  through `wrap64`;
* external libraries (ristretto, the redis client, singleflight, ants, the
  bloom filter and circuit breaker behind their interfaces) are records of
  operations over an abstract state;
* goroutines of one call are run one after the other; `context.Context`
  deadlines and cancellation are outside the model.
-/

namespace Fiberhouse

/-! ## Errors (`cache_errors.go`) -/

/-- Go error values that occur in the cache packages. `cacheError` is
`*CacheError` (it unwraps to its cause), `wrapf` is `fmt.Errorf` with `%w`,
`errorf` is `errors.New` or `fmt.Errorf` without `%w`. -/
inductive GoError where
  | ErrKeyNotFound
  | ErrCacheClosed
  | ErrSerializationFailed
  | ErrDeserializationFailed
  | cacheError (Op Key : String) (Err : GoError)
  | ErrRejectedByBloomFilter (msg : String)
  | ErrCircuitBreakerOpen (msg : String)
  | ErrRedisNil (msg : String)
  | redisNil
  | ErrOpenState
  | ErrTooManyRequests
  | wrapf (text : String) (err : GoError)
  | errorf (text : String)
  deriving DecidableEq, Repr

/-- A Go call either returns a value or panics. -/
inductive Outcome (α : Type) where
  | returned (a : α)
  | panicked (msg : String)
  deriving DecidableEq, Repr

/-- The method `Error()` of each error value. -/
def GoError.Error : GoError → String
  | .ErrKeyNotFound => "cache: key not found"
  | .ErrCacheClosed => "cache: cache is closed"
  | .ErrSerializationFailed => "cache: serialization failed"
  | .ErrDeserializationFailed => "cache: deserialization failed"
  | .cacheError op key err =>
      if key ≠ "" then
        "cache " ++ op ++ " operation failed for key '" ++ key ++ "': " ++ err.Error
      else "cache " ++ op ++ " operation failed: " ++ err.Error
  | .ErrRejectedByBloomFilter msg => msg
  | .ErrCircuitBreakerOpen msg => msg
  | .ErrRedisNil msg => msg
  | .redisNil => "redis: nil"
  | .ErrOpenState => "circuit breaker is open"
  | .ErrTooManyRequests => "too many requests"
  | .wrapf text err => text ++ err.Error
  | .errorf text => text

def NewCacheError (op key : String) (err : GoError) : GoError :=
  .cacheError op key err

def NewErrCircuitBreakerOpen (text : String) : GoError :=
  .ErrCircuitBreakerOpen ("circuit breaker is open: " ++ text)

def NewErrRejectedByBloomFilter (key : String) : GoError :=
  .ErrRejectedByBloomFilter ("Cache key: '" ++ key ++ "' definitely does not exits")

def NewErrRedisNil (key : String) : GoError :=
  .ErrRedisNil ("Cache key: '" ++ key ++ "' is Nil in Redis")

/-- The call `errors.As(err, &target)` for a target of type
`ErrRejectedByBloomFilter`: the first value of that type on the unwrap chain. -/
def asErrRejectedByBloomFilter : GoError → Option GoError
  | .ErrRejectedByBloomFilter msg => some (.ErrRejectedByBloomFilter msg)
  | .cacheError _ _ err => asErrRejectedByBloomFilter err
  | .wrapf _ err => asErrRejectedByBloomFilter err
  | _ => none

/-- The call `errors.As(err, &target)` for a target of type
`ErrCircuitBreakerOpen`. -/
def asErrCircuitBreakerOpen : GoError → Option GoError
  | .ErrCircuitBreakerOpen msg => some (.ErrCircuitBreakerOpen msg)
  | .cacheError _ _ err => asErrCircuitBreakerOpen err
  | .wrapf _ err => asErrCircuitBreakerOpen err
  | _ => none

/-- The call `errors.As(err, &target)` for a target of type `ErrRedisNil`. -/
def asErrRedisNil : GoError → Option GoError
  | .ErrRedisNil msg => some (.ErrRedisNil msg)
  | .cacheError _ _ err => asErrRedisNil err
  | .wrapf _ err => asErrRedisNil err
  | _ => none

/-- The call `errors.Is(err, target)` for a sentinel target. -/
def errorsIs : GoError → GoError → Bool
  | .cacheError op key err, target =>
      (GoError.cacheError op key err == target) || errorsIs err target
  | .wrapf text err, target => (GoError.wrapf text err == target) || errorsIs err target
  | e, target => e == target

/-- The verb `%v` applied to a slice of errors. -/
def formatErrors (errs : List GoError) : String :=
  "[" ++ " ".intercalate (errs.map GoError.Error) ++ "]"

/-! ## Cache options (`cache_option.go`) -/

/-- Wrap-around of `int64` arithmetic. -/
def wrap64 (x : Int) : Int := (x + 2 ^ 63) % 2 ^ 64 - 2 ^ 63

/-- The global source of `math/rand`: the raw draws still to come. -/
abbrev Rand := List Nat

/-- The call `rand.Int63n(n)`: panics for `n <= 0`, else a value in `[0, n)`. -/
def Int63n (n : Int) (r : Rand) : Outcome Int × Rand :=
  if n ≤ 0 then (.panicked "invalid argument to Int63n", r)
  else (.returned ((r.headD 0 : Int) % n), r.tail)

abbrev Level := Int
abbrev Strategy := Int

def Local : Level := 1
def Remote : Level := 2
def Level2 : Level := 3

def WriteBoth : Strategy := 1
def WriteRemoteOnly : Strategy := 2
def AsyncWriteBoth : Strategy := 3
def AsyncWriteRemoteOnly : Strategy := 4

structure TTLConfig where
  BaseTTL : Int
  RandomRange : Int
  UseRandom : Bool
  deriving DecidableEq, Repr

/-- The interface `frame.JsonWrapper`, at the value type `R`. `Unmarshal`
takes the bytes and the value behind the pointer and gives the value it
leaves there. -/
structure JsonWrapper (R : Type) where
  Marshal : R → String × Option GoError
  Unmarshal : String → R → R × Option GoError

/-- A `context.Context` value: `none` is `nil`. -/
abbrev Context := Option Nat

/-- The application context `frame.IContext`, reduced to what the cache
packages read from it: the instance keys of the application. -/
structure IContext where
  LocalCacheKey : String
  RemoteCacheKey : String
  Level2CacheKey : String
  DefaultJsonCodecKey : String
  deriving DecidableEq, Repr

structure CacheOption (R : Type) where
  AppCtx : Option IContext
  enable : Bool
  ctx : Context
  cacheLevel : Level
  syncStrategy : Strategy
  singleFlight : Bool
  bloomFilter : Bool
  circuitBreaker : Bool
  cacheKey : String
  jsonWrapper : Option (JsonWrapper R)
  localTTLConfig : Option TTLConfig
  remoteTTLConfig : Option TTLConfig
  defaultInstanceKey : String

def NewCacheOption {R : Type} (appCtx : Option IContext) : CacheOption R :=
  { AppCtx := appCtx, enable := true, ctx := none, cacheLevel := 0,
    syncStrategy := WriteRemoteOnly, singleFlight := false, bloomFilter := false,
    circuitBreaker := false, cacheKey := "", jsonWrapper := none,
    localTTLConfig := some { BaseTTL := 0, RandomRange := 0, UseRandom := false },
    remoteTTLConfig := some { BaseTTL := 0, RandomRange := 0, UseRandom := false },
    defaultInstanceKey := "" }

namespace CacheOption

variable {R : Type}

def Reset (c : CacheOption R) : CacheOption R :=
  { c with
    ctx := none, bloomFilter := false, circuitBreaker := false, singleFlight := false,
    localTTLConfig := some { BaseTTL := 0, RandomRange := 0, UseRandom := false },
    remoteTTLConfig := some { BaseTTL := 0, RandomRange := 0, UseRandom := false },
    defaultInstanceKey := "", cacheKey := "", jsonWrapper := none,
    syncStrategy := WriteRemoteOnly, cacheLevel := 0, enable := true }

def GetSyncStrategy (c : CacheOption R) : Strategy := c.syncStrategy
def GetSingleFlightState (c : CacheOption R) : Bool := c.singleFlight
def GetBloomFilterState (c : CacheOption R) : Bool := c.bloomFilter
def GetCircuitBreakerState (c : CacheOption R) : Bool := c.circuitBreaker
def GetCacheKey (c : CacheOption R) : String := c.cacheKey
def GetContextCtx (c : CacheOption R) : Context := c.ctx
def GetContext (c : CacheOption R) : Option IContext := c.AppCtx
def GetCacheLevel (c : CacheOption R) : Level := c.cacheLevel
def IsCache (c : CacheOption R) : Bool := c.enable

/-- The method `GetJsonWrapper`: the codec of the option, or the instance
that `frame.GetMustInstance` finds under the default codec key of the
application (`jsonCodecs` is the lookup of the global manager; a missing
instance panics). The method also stores the instance it found in the option;
that store is not observable by the functions modelled here. -/
def GetJsonWrapper (c : CacheOption R) (jsonCodecs : String → Option (JsonWrapper R)) :
    Outcome (JsonWrapper R) :=
  match c.jsonWrapper with
  | some jw => .returned jw
  | none =>
    match c.AppCtx with
    | none => .panicked "invalid memory address or nil pointer dereference"
    | some app =>
      match jsonCodecs app.DefaultJsonCodecKey with
      | some jw => .returned jw
      | none => .panicked "instance not found"

def SetLocalTTL (c : CacheOption R) (ttl : Int) : CacheOption R :=
  { c with localTTLConfig := some { BaseTTL := ttl, RandomRange := 0, UseRandom := false } }

def SetLocalTTLWithRandom (c : CacheOption R) (baseTTL randomRange : Int) : CacheOption R :=
  { c with
    localTTLConfig := some { BaseTTL := baseTTL, RandomRange := randomRange, UseRandom := true } }

def SetRemoteTTL (c : CacheOption R) (ttl : Int) : CacheOption R :=
  { c with remoteTTLConfig := some { BaseTTL := ttl, RandomRange := 0, UseRandom := false } }

def SetRemoteTTLWithRandom (c : CacheOption R) (baseTTL randomRange : Int) : CacheOption R :=
  { c with
    remoteTTLConfig := some { BaseTTL := baseTTL, RandomRange := randomRange, UseRandom := true } }

def calculateRandomTTL (config : Option TTLConfig) (r : Rand) : Outcome Int × Rand :=
  match config with
  | none => (.returned 0, r)
  | some config =>
    if !config.UseRandom || config.RandomRange ≤ 0 then (.returned config.BaseTTL, r)
    else
      match Int63n (wrap64 (config.RandomRange * 2)) r with
      | (.panicked msg, r1) => (.panicked msg, r1)
      | (.returned n, r1) =>
        let randomOffset := wrap64 (n - config.RandomRange)
        let finalTTL := wrap64 (config.BaseTTL + randomOffset)
        if finalTTL ≤ 0 then (.returned config.BaseTTL, r1)
        else (.returned finalTTL, r1)

def GetLocalTTL (c : CacheOption R) (r : Rand) : Outcome Int × Rand :=
  match c.localTTLConfig with
  | none => (.returned 0, r)
  | some config =>
    if !config.UseRandom then (.returned config.BaseTTL, r)
    else calculateRandomTTL (some config) r

def GetRemoteTTL (c : CacheOption R) (r : Rand) : Outcome Int × Rand :=
  match c.remoteTTLConfig with
  | none => (.returned 0, r)
  | some config =>
    if !config.UseRandom then (.returned config.BaseTTL, r)
    else calculateRandomTTL (some config) r

def Valid (c : CacheOption R) : Option GoError :=
  if !([Local, Remote, Level2].contains c.cacheLevel) then
    some (.errorf ("invalid cache level: " ++ toString c.cacheLevel
      ++ ", must be one of [1, 2, 3]"))
  else if !([WriteBoth, WriteRemoteOnly, AsyncWriteBoth, AsyncWriteRemoteOnly].contains
      c.syncStrategy) then
    some (.errorf ("invalid sync strategy: " ++ toString c.syncStrategy
      ++ ", must be one of [1, 2, 3, 4]"))
  else if c.cacheKey = "" then some (.errorf "cache key is required")
  else if c.AppCtx.isNone then some (.errorf "AppCtx is required")
  else none

end CacheOption

/-- The package variables `optionsPool` and `optsOnce`: `New` is `none` until
the first `OptionPoolGet` creates the pool, then the context its constructor
captured; `free` holds the options put back. -/
structure OptionPool (R : Type) where
  New : Option (Option IContext)
  free : List (CacheOption R)

def OptionPoolGet {R : Type} (ctx : Option IContext) (p : OptionPool R) :
    CacheOption R × OptionPool R :=
  let captured := p.New.getD ctx
  match p.free with
  | co :: rest => (co, { New := some captured, free := rest })
  | [] => (NewCacheOption captured, { New := some captured, free := [] })

/-- The function `OptionPoolPut` for a non-nil option: `optionsPool.Put` on
the nil pool pointer panics. -/
def OptionPoolPut {R : Type} (co : CacheOption R) (p : OptionPool R) :
    Outcome Unit × OptionPool R :=
  match p.New with
  | none => (.panicked "invalid memory address or nil pointer dereference", p)
  | some _ => (.returned (), { p with free := co.Reset :: p.free })

/-- The method `Clone`; `ctx` is the variadic argument. -/
def CacheOption.Clone {R : Type} (c : CacheOption R) (ctx : List Context)
    (p : OptionPool R) : CacheOption R × OptionPool R :=
  let (coNew, p1) := OptionPoolGet c.AppCtx p
  let coNew := match ctx with
    | x :: _ => { coNew with ctx := x }
    | [] => coNew
  ({ coNew with
      enable := c.enable, cacheLevel := c.cacheLevel, syncStrategy := c.syncStrategy,
      singleFlight := c.singleFlight, bloomFilter := c.bloomFilter,
      circuitBreaker := c.circuitBreaker, cacheKey := c.cacheKey,
      jsonWrapper := c.jsonWrapper,
      localTTLConfig :=
        match c.localTTLConfig with
        | some t =>
          some { BaseTTL := t.BaseTTL, RandomRange := t.RandomRange, UseRandom := t.UseRandom }
        | none => coNew.localTTLConfig,
      remoteTTLConfig :=
        match c.remoteTTLConfig with
        | some t =>
          some { BaseTTL := t.BaseTTL, RandomRange := t.RandomRange, UseRandom := t.UseRandom }
        | none => coNew.remoteTTLConfig,
      defaultInstanceKey := c.defaultInstanceKey }, p1)

def CacheOption.Release {R : Type} (c : CacheOption R) (p : OptionPool R) :
    Outcome Unit × OptionPool R :=
  OptionPoolPut c p

/-! ## The cache interface (`cache_interface.go`) -/

/-- A Go `interface{}` value as the caches tell them apart: a `string`, a
`[]byte`, or a value of another type. -/
inductive AnyValue (R : Type) where
  | str (s : String)
  | bytes (b : String)
  | other (v : R)
  deriving DecidableEq, Repr

/-- The interface `Cache`: the methods of one implementation over the state
`σ` of the object. -/
structure Cache (σ R : Type) where
  Get : String → CacheOption R → σ → Outcome (String × Option GoError) × σ
  Set : String → AnyValue R → CacheOption R → σ → Outcome (Option GoError) × σ
  Delete : List String → σ → Outcome (Option GoError) × σ
  Close : σ → Outcome (Option GoError) × σ
  Wait : σ → Outcome (Option GoError) × σ
  GetLevel : σ → Level

/-! ## The cache-aside function (`cache_utility.go`) -/

/-- The instances that `frame.GetMustInstance` resolves by key name. -/
structure GlobalManager (σ R : Type) where
  caches : String → Option (Cache σ R)
  jsonCodecs : String → Option (JsonWrapper R)

/-- What `GetCached` calls, in the order of the calls. -/
inductive Call (R : Type) where
  | cacheGet (key : String)
  | cacheSet (key : String) (value : AnyValue R)
  | loader (ctx : Context)
  | fallback
  | marshal
  | unmarshal
  | logError (msg : String)
  deriving DecidableEq, Repr

/-- The call `frame.GetMustInstance[Cache](key)`. -/
def GetMustInstance {σ R : Type} (gm : GlobalManager σ R) (name : String) :
    Outcome (Cache σ R) :=
  match gm.caches name with
  | some c => .returned c
  | none => .panicked "instance not found"

/-- The key that the `switch` of `GetCached` (and of `Factory.GetCache`) looks
up for a cache level; `none` is the `default` branch. -/
def cacheInstanceKey (app : IContext) (level : Level) : Option String :=
  if level = Local then some app.LocalCacheKey
  else if level = Remote then some app.RemoteCacheKey
  else if level = Level2 then some app.Level2CacheKey
  else none

/-- The function `GetCached`. The loader is the function of the context it
is called with; `fallback` is the variadic argument, each function given by
the pair it returns. The result is the returned pair (or the panic), the state
of the caches and the calls made. -/
def GetCached {σ R : Type} [Inhabited R] (gm : GlobalManager σ R)
    (cacheOption : CacheOption R) (loader : Context → R × Option GoError)
    (fallback : List (R × Option GoError)) (s : σ) :
    Outcome (R × Option GoError) × σ × List (Call R) :=
  let zero : R := default
  match cacheOption.Valid with
  | some err => (.returned (zero, some err), s, [])
  | none =>
  if !cacheOption.IsCache then
    (.returned (loader cacheOption.GetContextCtx), s, [.loader cacheOption.GetContextCtx])
  else
  match cacheOption.GetContext with
  | none => (.panicked "invalid memory address or nil pointer dereference", s, [])
  | some app =>
  match cacheInstanceKey app cacheOption.GetCacheLevel with
  | none =>
    (.returned (zero, some (.errorf ("unsupported cache level: "
      ++ toString cacheOption.GetCacheLevel))), s, [])
  | some name =>
  match GetMustInstance gm name with
  | .panicked msg => (.panicked msg, s, [])
  | .returned cacheInstance =>
  let key := cacheOption.GetCacheKey
  match cacheInstance.Get key cacheOption s with
  | (.panicked msg, s1) => (.panicked msg, s1, [.cacheGet key])
  | (.returned (_, some err), s1) =>
    match asErrRejectedByBloomFilter err with
    | some errRejectedByBloomFilter =>
      (.returned (zero, some errRejectedByBloomFilter), s1, [.cacheGet key])
    | none =>
    match asErrCircuitBreakerOpen err with
    | some errCircuitBreakerOpen =>
      match fallback with
      | fb :: _ => (.returned fb, s1, [.cacheGet key, .fallback])
      | [] => (.returned (zero, some errCircuitBreakerOpen), s1, [.cacheGet key])
    | none =>
    let ctx := cacheOption.GetContextCtx
    match loader ctx with
    | (_, some lerr) => (.returned (zero, some lerr), s1, [.cacheGet key, .loader ctx])
    | (data, none) =>
    match cacheOption.GetJsonWrapper gm.jsonCodecs with
    | .panicked msg => (.panicked msg, s1, [.cacheGet key, .loader ctx])
    | .returned jw =>
    match jw.Marshal data with
    | (_, some merr) =>
      (.returned (zero, some merr), s1, [.cacheGet key, .loader ctx, .marshal])
    | (jsonBytes, none) =>
    let jsonData := jsonBytes
    match cacheInstance.Set key (.str jsonData) cacheOption s1 with
    | (.panicked msg, s2) =>
      (.panicked msg, s2, [.cacheGet key, .loader ctx, .marshal, .cacheSet key (.str jsonData)])
    | (.returned (some serr), s2) =>
      (.returned (data, none), s2,
        [.cacheGet key, .loader ctx, .marshal, .cacheSet key (.str jsonData),
         .logError ("failed to set cache for key " ++ key ++ ": " ++ serr.Error)])
    | (.returned none, s2) =>
      (.returned (data, none), s2,
        [.cacheGet key, .loader ctx, .marshal, .cacheSet key (.str jsonData)])
  | (.returned (jsonData, none), s1) =>
    match cacheOption.GetJsonWrapper gm.jsonCodecs with
    | .panicked msg => (.panicked msg, s1, [.cacheGet key])
    | .returned jw =>
    match jw.Unmarshal jsonData zero with
    | (_, some uerr) => (.returned (zero, some uerr), s1, [.cacheGet key, .unmarshal])
    | (data, none) => (.returned (data, none), s1, [.cacheGet key, .unmarshal])

/-! ## The local cache (`cachelocal/local_cache.go`) -/

/-- The methods of `ristretto.Cache[string, []byte]` that `LocalCache` calls,
over the state `ρ` of the store. -/
structure Ristretto (ρ : Type) where
  Get : String → ρ → Option String × ρ
  SetWithTTL : String → String → Int → Int → ρ → Bool × ρ
  Del : String → ρ → ρ
  Close : ρ → ρ
  Wait : ρ → ρ

structure LocalCache (ρ : Type) where
  client : ρ
  closed : Bool
  level : Level

/-- The constructor `NewLocalCache`, given what `ristretto.NewCache` returns. -/
def NewLocalCache {ρ : Type} (cached : ρ) (err : Option GoError) :
    Option (LocalCache ρ) × Option GoError :=
  match err with
  | some e => (none, some (NewCacheError "create" "" e))
  | none => (some { client := cached, closed := false, level := Local }, none)

namespace LocalCache

variable {ρ R : Type}

def GetLevel (lc : LocalCache ρ) : Level := lc.level

def Get (rs : Ristretto ρ) (key : String) (_co : CacheOption R) (lc : LocalCache ρ) :
    (String × Option GoError) × LocalCache ρ :=
  if lc.closed then (("", some .ErrCacheClosed), lc)
  else
    match rs.Get key lc.client with
    | (none, c1) => (("", some .ErrKeyNotFound), { lc with client := c1 })
    | (some value, c1) => ((value, none), { lc with client := c1 })

/-- The method `Set`; the state carries the source of `math/rand` next to the
cache, for the draw of `GetLocalTTL`. -/
def Set (rs : Ristretto ρ) (jsonCodecs : String → Option (JsonWrapper R)) (key : String)
    (value : AnyValue R) (co : CacheOption R) (lc : LocalCache ρ) (r : Rand) :
    Outcome (Option GoError) × LocalCache ρ × Rand :=
  if lc.closed then (.returned (some .ErrCacheClosed), lc, r)
  else
    let serialized : Outcome (String × Option GoError) :=
      match value with
      | .str v => .returned (v, none)
      | .bytes v => .returned (v, none)
      | .other v =>
        match co.GetJsonWrapper jsonCodecs with
        | .panicked msg => .panicked msg
        | .returned jw => .returned (jw.Marshal v)
    match serialized with
    | .panicked msg => (.panicked msg, lc, r)
    | .returned (_, some err) => (.returned (some (NewCacheError "serialize" key err)), lc, r)
    | .returned (serializedValue, none) =>
      let itemCost : Int := serializedValue.utf8ByteSize
      match co.GetLocalTTL r with
      | (.panicked msg, r1) => (.panicked msg, lc, r1)
      | (.returned ttl, r1) =>
        match rs.SetWithTTL key serializedValue itemCost ttl lc.client with
        | (false, c1) =>
          (.returned (some (NewCacheError "set" key (.errorf "failed to set cache item"))),
            { lc with client := c1 }, r1)
        | (true, c1) => (.returned none, { lc with client := c1 }, r1)

def Delete (rs : Ristretto ρ) (keys : List String) (lc : LocalCache ρ) :
    Option GoError × LocalCache ρ :=
  if lc.closed then (some .ErrCacheClosed, lc)
  else (none, { lc with client := keys.foldl (fun c key => rs.Del key c) lc.client })

def Close (rs : Ristretto ρ) (lc : LocalCache ρ) : Option GoError × LocalCache ρ :=
  if lc.closed then (none, lc)
  else (none, { lc with client := rs.Close lc.client, closed := true })

def Wait (rs : Ristretto ρ) (lc : LocalCache ρ) : Option GoError × LocalCache ρ :=
  if lc.closed then (some .ErrCacheClosed, lc)
  else (none, { lc with client := rs.Wait lc.client })

/-- The local cache behind the interface `Cache`. -/
def asCache (rs : Ristretto ρ) (jsonCodecs : String → Option (JsonWrapper R)) :
    Cache (LocalCache ρ × Rand) R where
  Get := fun key co s =>
    let (res, lc) := Get rs key co s.1
    (.returned res, lc, s.2)
  Set := fun key value co s => Set rs jsonCodecs key value co s.1 s.2
  Delete := fun keys s =>
    let (res, lc) := Delete rs keys s.1
    (.returned res, lc, s.2)
  Close := fun s =>
    let (res, lc) := Close rs s.1
    (.returned res, lc, s.2)
  Wait := fun s =>
    let (res, lc) := Wait rs s.1
    (.returned res, lc, s.2)
  GetLevel := fun s => GetLevel s.1

end LocalCache

/-! ## The remote cache (`cacheremote/redis_cache.go`) -/

/-- The commands of `*redis.Client` that `RedisDb` issues, over the state `ρ`
of the backend; an absent key is the error `redis.Nil`. -/
structure RedisClient (ρ : Type) where
  Get : String → ρ → (String × Option GoError) × ρ
  Set : String → String → Int → ρ → Option GoError × ρ
  Del : List String → ρ → Option GoError × ρ
  Close : ρ → Option GoError × ρ

/-- The interface `CacheBloomFilter` over the state `β` of the filter. -/
structure CacheBloomFilter (β : Type) where
  Add : String → β → β
  Test : String → β → Bool
  TestAndAdd : String → β → Bool × β
  Reset : β → β

/-- The interface `CacheCircuitBreaker` over the state `κ` of the breaker.
`Call` gets the protected function as a step on the backend state; the value
it returns is the `string` the callers assert it to be. -/
structure CacheCircuitBreaker (κ ρ : Type) where
  Call : (ρ → (String × Option GoError) × ρ) → κ → ρ → (String × Option GoError) × κ × ρ
  ConvertCircuitBreakerOpenError : GoError → GoError
  Allow : κ → Bool
  Reset : κ → κ

/-- The object `RedisDb`: `sf` tells whether the single-flight group is
non-nil; the filter and the breaker are `none` when protection is off. -/
structure RedisDb (ρ β κ : Type) where
  Client : ρ
  closed : Bool
  level : Level
  sf : Bool
  bloomFilter : Option β
  circuitBreaker : Option κ

namespace RedisDb

variable {ρ β κ R : Type}

def GetLevel (rd : RedisDb ρ β κ) : Level := rd.level

def Close (rc : RedisClient ρ) (rd : RedisDb ρ β κ) : Option GoError × RedisDb ρ β κ :=
  if rd.closed then (some .ErrCacheClosed, rd)
  else
    let (err, c1) := rc.Close rd.Client
    (err, { rd with closed := true, Client := c1 })

def getInternal (rc : RedisClient ρ) (cb : CacheCircuitBreaker κ ρ) (key : String)
    (co : CacheOption R) (rd : RedisDb ρ β κ) : (String × Option GoError) × RedisDb ρ β κ :=
  let direct : (String × Option GoError) × RedisDb ρ β κ :=
    match rc.Get key rd.Client with
    | ((_, some err), c1) =>
      if errorsIs err .redisNil then (("", some (NewErrRedisNil key)), { rd with Client := c1 })
      else (("", some err), { rd with Client := c1 })
    | ((s, none), c1) => ((s, none), { rd with Client := c1 })
  if co.GetCircuitBreakerState then
    match rd.circuitBreaker with
    | some k =>
      match cb.Call (rc.Get key) k rd.Client with
      | ((_, some err), k1, c1) =>
        (("", some err), { rd with Client := c1, circuitBreaker := some k1 })
      | ((value, none), k1, c1) =>
        ((value, none), { rd with Client := c1, circuitBreaker := some k1 })
    | none => direct
  else direct

def getWithBloomUpdate (rc : RedisClient ρ) (bf : CacheBloomFilter β)
    (cb : CacheCircuitBreaker κ ρ) (key : String) (co : CacheOption R)
    (rd : RedisDb ρ β κ) : (String × Option GoError) × RedisDb ρ β κ :=
  match getInternal rc cb key co rd with
  | ((res, none), rd1) =>
    ((res, none), { rd1 with bloomFilter := rd1.bloomFilter.map (bf.Add key) })
  | ((_, some err), rd1) =>
    match asErrRedisNil err with
    | some _ => (("", some (NewErrRejectedByBloomFilter key)), rd1)
    | none => (("", some err), rd1)

/-- The method `Get`. A call `rd.sf.Do(key, fn)` of the single-flight group
runs `fn` and returns its result. -/
def Get (rc : RedisClient ρ) (bf : CacheBloomFilter β) (cb : CacheCircuitBreaker κ ρ)
    (key : String) (co : CacheOption R) (rd : RedisDb ρ β κ) :
    (String × Option GoError) × RedisDb ρ β κ :=
  if rd.closed then (("", some .ErrCacheClosed), rd)
  else
    let bloomOn : Bool := co.GetBloomFilterState && rd.bloomFilter.isSome
    let rejected : Bool :=
      match rd.bloomFilter with
      | some b => co.GetBloomFilterState && !bf.Test key b
      | none => false
    if rejected then
      if co.GetSingleFlightState && rd.sf then
        match getWithBloomUpdate rc bf cb key co rd with
        | ((_, some err), rd1) => (("", some err), rd1)
        | ((value, none), rd1) => ((value, none), rd1)
      else getWithBloomUpdate rc bf cb key co rd
    else if co.GetSingleFlightState && rd.sf then
      match getInternal rc cb key co rd with
      | ((_, some err), rd1) => (("", some err), rd1)
      | ((value, none), rd1) =>
        if bloomOn then
          ((value, none), { rd1 with bloomFilter := rd1.bloomFilter.map (bf.Add key) })
        else ((value, none), rd1)
    else
      match getInternal rc cb key co rd with
      | ((res, none), rd1) =>
        if bloomOn then
          ((res, none), { rd1 with bloomFilter := rd1.bloomFilter.map (bf.Add key) })
        else ((res, none), rd1)
      | ((res, some err), rd1) => ((res, some err), rd1)

def serializeValue (jsonCodecs : String → Option (JsonWrapper R)) (value : AnyValue R)
    (co : CacheOption R) : Outcome (String × Option GoError) :=
  match value with
  | .str v => .returned (v, none)
  | .bytes v => .returned (v, none)
  | .other v =>
    match co.GetJsonWrapper jsonCodecs with
    | .panicked msg => .panicked msg
    | .returned jw =>
      match jw.Marshal v with
      | (_, some err) => .returned ("", some (NewCacheError "serialize" "" err))
      | (data, none) => .returned (data, none)

def setInternal (rc : RedisClient ρ) (key value : String) (co : CacheOption R)
    (rd : RedisDb ρ β κ) (r : Rand) : Outcome (Option GoError) × RedisDb ρ β κ × Rand :=
  match co.GetRemoteTTL r with
  | (.panicked msg, r1) => (.panicked msg, rd, r1)
  | (.returned ttl, r1) =>
    let (err, c1) := rc.Set key value ttl rd.Client
    (.returned err, { rd with Client := c1 }, r1)

def Set (rc : RedisClient ρ) (bf : CacheBloomFilter β)
    (jsonCodecs : String → Option (JsonWrapper R)) (key : String) (value : AnyValue R)
    (co : CacheOption R) (rd : RedisDb ρ β κ) (r : Rand) :
    Outcome (Option GoError) × RedisDb ρ β κ × Rand :=
  if rd.closed then (.returned (some .ErrCacheClosed), rd, r)
  else
    match serializeValue jsonCodecs value co with
    | .panicked msg => (.panicked msg, rd, r)
    | .returned (_, some err) => (.returned (some err), rd, r)
    | .returned (serializedValue, none) =>
      match setInternal rc key serializedValue co rd r with
      | (.panicked msg, rd1, r1) => (.panicked msg, rd1, r1)
      | (.returned (some err), rd1, r1) => (.returned (some err), rd1, r1)
      | (.returned none, rd1, r1) =>
        if co.GetBloomFilterState then
          (.returned none, { rd1 with bloomFilter := rd1.bloomFilter.map (bf.Add key) }, r1)
        else (.returned none, rd1, r1)

def Delete (rc : RedisClient ρ) (keys : List String) (rd : RedisDb ρ β κ) :
    Option GoError × RedisDb ρ β κ :=
  if rd.closed then (some .ErrCacheClosed, rd)
  else
    let (err, c1) := rc.Del keys rd.Client
    (err, { rd with Client := c1 })

def Wait (rd : RedisDb ρ β κ) : Option GoError × RedisDb ρ β κ :=
  if rd.closed then (some .ErrCacheClosed, rd) else (none, rd)

/-- The remote cache behind the interface `Cache`. -/
def asCache (rc : RedisClient ρ) (bf : CacheBloomFilter β) (cb : CacheCircuitBreaker κ ρ)
    (jsonCodecs : String → Option (JsonWrapper R)) : Cache (RedisDb ρ β κ × Rand) R where
  Get := fun key co s =>
    let (res, rd) := Get rc bf cb key co s.1
    (.returned res, rd, s.2)
  Set := fun key value co s => Set rc bf jsonCodecs key value co s.1 s.2
  Delete := fun keys s =>
    let (res, rd) := Delete rc keys s.1
    (.returned res, rd, s.2)
  Close := fun s =>
    let (res, rd) := Close rc s.1
    (.returned res, rd, s.2)
  Wait := fun s =>
    let (res, rd) := Wait s.1
    (.returned res, rd, s.2)
  GetLevel := fun s => GetLevel s.1

end RedisDb

/-! ## The two-level cache (`cache2/level2_cache.go`) -/

/-- A task submitted to a pool by `asyncSetLocal` or `asyncSetRemote`: the
variables its closure captured. -/
structure AsyncTask (R : Type) where
  key : String
  value : AnyValue R
  co : CacheOption R

/-- An `ants.Pool` in non-blocking mode: the submitted tasks that have not
finished, the capacity, and whether `Release` was called. -/
structure AntsPool (R : Type) where
  tasks : List (AsyncTask R)
  capacity : Nat
  released : Bool

def AntsPool.Submit {R : Type} (t : AsyncTask R) (p : AntsPool R) :
    Option GoError × AntsPool R :=
  if p.released then (some (.errorf "this pool has been closed"), p)
  else if p.capacity ≤ p.tasks.length then
    (some (.errorf "too many goroutines blocked on submit or Nonblocking is set"), p)
  else (none, { p with tasks := p.tasks ++ [t] })

def AntsPool.Running {R : Type} (p : AntsPool R) : Nat := p.tasks.length

def AntsPool.Release {R : Type} (p : AntsPool R) : AntsPool R := { p with released := true }

/-- The object `Level2Cache` with what it reaches: `localC` and `remoteC` are
the states of the caches behind `l2c.local` and `l2c.remote`, `stopCh` tells
whether the channel is closed, `optionsPool` is the option pool of package
`cache`. -/
structure Level2Cache (τL τR R : Type) where
  localC : τL
  remoteC : τR
  closed : Bool
  level : Level
  localPool : AntsPool R
  remotePool : AntsPool R
  stopCh : Bool
  optionsPool : OptionPool R

/-- The constructor `NewLevel2Cache`, when both pools are created. -/
def NewLevel2Cache {τL τR R : Type} (localC : τL) (remoteC : τR) (localSize remoteSize : Nat)
    (optionsPool : OptionPool R) : Level2Cache τL τR R :=
  { localC := localC, remoteC := remoteC, closed := false, level := Level2,
    localPool := { tasks := [], capacity := localSize, released := false },
    remotePool := { tasks := [], capacity := remoteSize, released := false },
    stopCh := false, optionsPool := optionsPool }

/-- What a `Level2Cache` method does to the two tiers, the pools and the
logger, in order. -/
inductive TierCall (R : Type) where
  | localGet (key : String)
  | remoteGet (key : String)
  | localSet (key : String) (value : AnyValue R)
  | remoteSet (key : String) (value : AnyValue R)
  | localDelete (keys : List String)
  | remoteDelete (keys : List String)
  | localClose
  | remoteClose
  | localWait
  | remoteWait
  | submitLocal (key : String)
  | submitRemote (key : String)
  | log (msg : String)
  deriving DecidableEq, Repr

namespace Level2Cache

variable {τL τR R : Type}

def GetLevel (l2c : Level2Cache τL τR R) : Level := l2c.level

def asyncSetLocal (key : String) (value : AnyValue R) (co : CacheOption R)
    (l2c : Level2Cache τL τR R) : Outcome Unit × Level2Cache τL τR R × List (TierCall R) :=
  if l2c.stopCh then
    match co.Release l2c.optionsPool with
    | (.panicked msg, p) => (.panicked msg, { l2c with optionsPool := p }, [])
    | (.returned _, p) => (.returned (), { l2c with optionsPool := p }, [])
  else
    match l2c.localPool.Submit { key := key, value := value, co := co } with
    | (none, pool) => (.returned (), { l2c with localPool := pool }, [.submitLocal key])
    | (some _, pool) =>
      match co.Release l2c.optionsPool with
      | (.panicked msg, p) =>
        (.panicked msg, { l2c with localPool := pool, optionsPool := p }, [])
      | (.returned _, p) =>
        (.returned (), { l2c with localPool := pool, optionsPool := p },
          [.log "AsyncSetLocal submit failed"])

def asyncSetRemote (key : String) (value : AnyValue R) (co : CacheOption R)
    (l2c : Level2Cache τL τR R) : Outcome Unit × Level2Cache τL τR R × List (TierCall R) :=
  if l2c.stopCh then
    match co.Release l2c.optionsPool with
    | (.panicked msg, p) => (.panicked msg, { l2c with optionsPool := p }, [])
    | (.returned _, p) => (.returned (), { l2c with optionsPool := p }, [])
  else
    match l2c.remotePool.Submit { key := key, value := value, co := co } with
    | (none, pool) => (.returned (), { l2c with remotePool := pool }, [.submitRemote key])
    | (some _, pool) =>
      match co.Release l2c.optionsPool with
      | (.panicked msg, p) =>
        (.panicked msg, { l2c with remotePool := pool, optionsPool := p }, [])
      | (.returned _, p) =>
        (.returned (), { l2c with remotePool := pool, optionsPool := p },
          [.log "AsyncSetRemote submit failed"])

/-- One worker of the local pool runs the oldest unfinished task to its end:
the write, the log line on an error, the deferred `co.Release()`. A panic of
the task is taken by the panic handler of the pool. -/
def runLocalTask (L : Cache τL R) (l2c : Level2Cache τL τR R) :
    Level2Cache τL τR R × List (TierCall R) :=
  match l2c.localPool.tasks with
  | [] => (l2c, [])
  | t :: rest =>
    let (res, ls) := L.Set t.key t.value t.co l2c.localC
    let (rel, p) := t.co.Release l2c.optionsPool
    let l2c1 := { l2c with localC := ls, optionsPool := p,
                           localPool := { l2c.localPool with tasks := rest } }
    match res, rel with
    | .returned none, .returned _ => (l2c1, [.localSet t.key t.value])
    | .returned (some _), .returned _ =>
      (l2c1, [.localSet t.key t.value, .log "AsyncSetLocal error"])
    | _, _ => (l2c1, [.localSet t.key t.value, .log "LocalPool goroutine panic"])

/-- One worker of the remote pool runs the oldest unfinished task to its end. -/
def runRemoteTask (Rm : Cache τR R) (l2c : Level2Cache τL τR R) :
    Level2Cache τL τR R × List (TierCall R) :=
  match l2c.remotePool.tasks with
  | [] => (l2c, [])
  | t :: rest =>
    let (res, rs) := Rm.Set t.key t.value t.co l2c.remoteC
    let (rel, p) := t.co.Release l2c.optionsPool
    let l2c1 := { l2c with remoteC := rs, optionsPool := p,
                           remotePool := { l2c.remotePool with tasks := rest } }
    match res, rel with
    | .returned none, .returned _ => (l2c1, [.remoteSet t.key t.value])
    | .returned (some _), .returned _ =>
      (l2c1, [.remoteSet t.key t.value, .log "AsyncSetRemote error"])
    | _, _ => (l2c1, [.remoteSet t.key t.value, .log "RemotePool goroutine panic"])

def runLocalTasks (L : Cache τL R) : Nat → Level2Cache τL τR R →
    Level2Cache τL τR R × List (TierCall R)
  | 0, l2c => (l2c, [])
  | n + 1, l2c =>
    let (l2c1, tr1) := runLocalTask L l2c
    let (l2c2, tr2) := runLocalTasks L n l2c1
    (l2c2, tr1 ++ tr2)

def runRemoteTasks (Rm : Cache τR R) : Nat → Level2Cache τL τR R →
    Level2Cache τL τR R × List (TierCall R)
  | 0, l2c => (l2c, [])
  | n + 1, l2c =>
    let (l2c1, tr1) := runRemoteTask Rm l2c
    let (l2c2, tr2) := runRemoteTasks Rm n l2c1
    (l2c2, tr1 ++ tr2)

def getInternal (L : Cache τL R) (Rm : Cache τR R) (key : String) (co : CacheOption R)
    (l2c : Level2Cache τL τR R) :
    Outcome (String × Option GoError) × Level2Cache τL τR R × List (TierCall R) :=
  match L.Get key co l2c.localC with
  | (.panicked msg, ls) => (.panicked msg, { l2c with localC := ls }, [.localGet key])
  | (.returned (value, none), ls) =>
    (.returned (value, none), { l2c with localC := ls }, [.localGet key])
  | (.returned (_, some _), ls) =>
    let l2c1 := { l2c with localC := ls }
    match Rm.Get key co l2c1.remoteC with
    | (.panicked msg, rs) =>
      (.panicked msg, { l2c1 with remoteC := rs }, [.localGet key, .remoteGet key])
    | (.returned (_, some err), rs) =>
      (.returned ("", some err), { l2c1 with remoteC := rs }, [.localGet key, .remoteGet key])
    | (.returned (value, none), rs) =>
      let l2c2 := { l2c1 with remoteC := rs }
      if co.GetSyncStrategy = AsyncWriteBoth ∨ co.GetSyncStrategy = AsyncWriteRemoteOnly then
        let (clone, p) := co.Clone [] l2c2.optionsPool
        match asyncSetLocal key (.str value) clone { l2c2 with optionsPool := p } with
        | (.panicked msg, l2c3, tr) =>
          (.panicked msg, l2c3, [.localGet key, .remoteGet key] ++ tr)
        | (.returned _, l2c3, tr) =>
          (.returned (value, none), l2c3, [.localGet key, .remoteGet key] ++ tr)
      else
        match L.Set key (.str value) co l2c2.localC with
        | (.panicked msg, ls2) =>
          (.panicked msg, { l2c2 with localC := ls2 },
            [.localGet key, .remoteGet key, .localSet key (.str value)])
        | (.returned (some _), ls2) =>
          (.returned (value, none), { l2c2 with localC := ls2 },
            [.localGet key, .remoteGet key, .localSet key (.str value),
             .log "getInternal: Set local error"])
        | (.returned none, ls2) =>
          (.returned (value, none), { l2c2 with localC := ls2 },
            [.localGet key, .remoteGet key, .localSet key (.str value)])

def Get (L : Cache τL R) (Rm : Cache τR R) (key : String) (co : CacheOption R)
    (l2c : Level2Cache τL τR R) :
    Outcome (String × Option GoError) × Level2Cache τL τR R × List (TierCall R) :=
  if l2c.closed then (.returned ("", some .ErrCacheClosed), l2c, [])
  else getInternal L Rm key co l2c

/-- The method `Set`. Under `WriteBoth` the two goroutines are run one after
the other, the local write first; the order of the errors in the message
follows that order. -/
def Set (L : Cache τL R) (Rm : Cache τR R) (key : String) (value : AnyValue R)
    (co : CacheOption R) (l2c : Level2Cache τL τR R) :
    Outcome (Option GoError) × Level2Cache τL τR R × List (TierCall R) :=
  if l2c.closed then (.returned (some .ErrCacheClosed), l2c, [])
  else if co.GetSyncStrategy = WriteBoth then
    match L.Set key value co l2c.localC with
    | (.panicked msg, ls) => (.panicked msg, { l2c with localC := ls }, [.localSet key value])
    | (.returned lerr, ls) =>
      match Rm.Set key value co l2c.remoteC with
      | (.panicked msg, rs) =>
        (.panicked msg, { l2c with localC := ls, remoteC := rs },
          [.localSet key value, .remoteSet key value])
      | (.returned rerr, rs) =>
        let errors := lerr.toList ++ rerr.toList
        if errors.length > 0 then
          (.returned (some (.errorf ("cache set errors: " ++ formatErrors errors))),
            { l2c with localC := ls, remoteC := rs },
            [.localSet key value, .remoteSet key value])
        else
          (.returned none, { l2c with localC := ls, remoteC := rs },
            [.localSet key value, .remoteSet key value])
  else if co.GetSyncStrategy = WriteRemoteOnly then
    match Rm.Set key value co l2c.remoteC with
    | (.panicked msg, rs) => (.panicked msg, { l2c with remoteC := rs }, [.remoteSet key value])
    | (.returned (some err), rs) =>
      (.returned (some err), { l2c with remoteC := rs }, [.remoteSet key value])
    | (.returned none, rs) => (.returned none, { l2c with remoteC := rs }, [.remoteSet key value])
  else if co.GetSyncStrategy = AsyncWriteBoth then
    let (clone1, p1) := co.Clone [] l2c.optionsPool
    match asyncSetLocal key value clone1 { l2c with optionsPool := p1 } with
    | (.panicked msg, l2c1, tr1) => (.panicked msg, l2c1, tr1)
    | (.returned _, l2c1, tr1) =>
      let (clone2, p2) := co.Clone [] l2c1.optionsPool
      match asyncSetRemote key value clone2 { l2c1 with optionsPool := p2 } with
      | (.panicked msg, l2c2, tr2) => (.panicked msg, l2c2, tr1 ++ tr2)
      | (.returned _, l2c2, tr2) => (.returned none, l2c2, tr1 ++ tr2)
  else if co.GetSyncStrategy = AsyncWriteRemoteOnly then
    let (clone, p) := co.Clone [] l2c.optionsPool
    match asyncSetRemote key value clone { l2c with optionsPool := p } with
    | (.panicked msg, l2c1, tr) => (.panicked msg, l2c1, tr)
    | (.returned _, l2c1, tr) => (.returned none, l2c1, tr)
  else
    (.returned (some (.errorf ("unsupported sync strategy: " ++ toString co.GetSyncStrategy))),
      l2c, [])

/-- The method `Delete`; the two goroutines are run one after the other. -/
def Delete (L : Cache τL R) (Rm : Cache τR R) (keys : List String)
    (l2c : Level2Cache τL τR R) :
    Outcome (Option GoError) × Level2Cache τL τR R × List (TierCall R) :=
  if l2c.closed then (.returned (some .ErrCacheClosed), l2c, [])
  else
    match L.Delete keys l2c.localC with
    | (.panicked msg, ls) => (.panicked msg, { l2c with localC := ls }, [.localDelete keys])
    | (.returned lerr, ls) =>
      match Rm.Delete keys l2c.remoteC with
      | (.panicked msg, rs) =>
        (.panicked msg, { l2c with localC := ls, remoteC := rs },
          [.localDelete keys, .remoteDelete keys])
      | (.returned rerr, rs) =>
        let errors := (lerr.map (GoError.wrapf "local delete error: ")).toList
          ++ (rerr.map (GoError.wrapf "remote delete error: ")).toList
        if errors.length > 0 then
          (.returned (some (.errorf ("cache delete errors: " ++ formatErrors errors))),
            { l2c with localC := ls, remoteC := rs }, [.localDelete keys, .remoteDelete keys])
        else
          (.returned none, { l2c with localC := ls, remoteC := rs },
            [.localDelete keys, .remoteDelete keys])

/-- The method `Close`. `nLocal` and `nRemote` are the numbers of pool tasks
that finish while the method waits for the pools (at most five seconds).
Closing the channel `stopCh` a second time panics. -/
def Close (L : Cache τL R) (Rm : Cache τR R) (nLocal nRemote : Nat)
    (l2c : Level2Cache τL τR R) :
    Outcome (Option GoError) × Level2Cache τL τR R × List (TierCall R) :=
  if l2c.closed then (.returned none, l2c, [])
  else if l2c.stopCh then (.panicked "close of closed channel", l2c, [])
  else
    let l2c1 := { l2c with stopCh := true }
    let (l2c2, tr1) := runLocalTasks L nLocal l2c1
    let (l2c3, tr2) := runRemoteTasks Rm nRemote l2c2
    let l2c4 := { l2c3 with localPool := l2c3.localPool.Release,
                            remotePool := l2c3.remotePool.Release }
    match L.Close l2c4.localC with
    | (.panicked msg, ls) =>
      (.panicked msg, { l2c4 with localC := ls }, tr1 ++ tr2 ++ [.localClose])
    | (.returned lerr, ls) =>
      match Rm.Close l2c4.remoteC with
      | (.panicked msg, rs) =>
        (.panicked msg, { l2c4 with localC := ls, remoteC := rs },
          tr1 ++ tr2 ++ [.localClose, .remoteClose])
      | (.returned rerr, rs) =>
        let errors := (lerr.map (GoError.wrapf "local cache close error: ")).toList
          ++ (rerr.map (GoError.wrapf "remote cache close error: ")).toList
        if errors.length > 0 then
          (.returned (some (.errorf ("close errors: " ++ formatErrors errors))),
            { l2c4 with localC := ls, remoteC := rs },
            tr1 ++ tr2 ++ [.localClose, .remoteClose])
        else
          (.returned none, { l2c4 with localC := ls, remoteC := rs },
            tr1 ++ tr2 ++ [.localClose, .remoteClose])

/-- The method `Wait`; the two goroutines are run one after the other and
their results are dropped. -/
def Wait (L : Cache τL R) (Rm : Cache τR R) (l2c : Level2Cache τL τR R) :
    Outcome (Option GoError) × Level2Cache τL τR R × List (TierCall R) :=
  if l2c.closed then (.returned (some .ErrCacheClosed), l2c, [])
  else
    match L.Wait l2c.localC with
    | (.panicked msg, ls) => (.panicked msg, { l2c with localC := ls }, [.localWait])
    | (.returned _, ls) =>
      match Rm.Wait l2c.remoteC with
      | (.panicked msg, rs) =>
        (.panicked msg, { l2c with localC := ls, remoteC := rs }, [.localWait, .remoteWait])
      | (.returned _, rs) =>
        (.returned none, { l2c with localC := ls, remoteC := rs }, [.localWait, .remoteWait])

/-- The two-level cache behind the interface `Cache`. -/
def asCache (L : Cache τL R) (Rm : Cache τR R) (nLocal nRemote : Nat) :
    Cache (Level2Cache τL τR R) R where
  Get := fun key co s => ((Get L Rm key co s).1, (Get L Rm key co s).2.1)
  Set := fun key value co s => ((Set L Rm key value co s).1, (Set L Rm key value co s).2.1)
  Delete := fun keys s => ((Delete L Rm keys s).1, (Delete L Rm keys s).2.1)
  Close := fun s => ((Close L Rm nLocal nRemote s).1, (Close L Rm nLocal nRemote s).2.1)
  Wait := fun s => ((Wait L Rm s).1, (Wait L Rm s).2.1)
  GetLevel := fun s => GetLevel s

end Level2Cache

/-! ## The circuit breaker (`helper.go`)

`CircuitBreakerWrap` wraps the generic breaker of the library `sony/gobreaker`,
which is not part of the repository sources. -/

namespace gobreaker

/-- Modelled from the spec: the counters `gobreaker.Counts` that the breaker
keeps for the current generation and hands to `ReadyToTrip`. -/
structure Counts where
  Requests : Nat
  TotalSuccesses : Nat
  TotalFailures : Nat
  ConsecutiveSuccesses : Nat
  ConsecutiveFailures : Nat
  deriving DecidableEq, Repr

/-- Modelled from the spec: the three states of the breaker, Closed, Half-Open
and Open. -/
inductive State where
  | StateClosed
  | StateHalfOpen
  | StateOpen
  deriving DecidableEq, Repr

/-- Modelled from the spec: the struct `gobreaker.Settings`, with the fields
that `NewCircuitBreakerWrap` reads; a nil `ReadyToTrip` is `none`. The callback
`OnStateChange` only reports a change and is left out. -/
structure Settings where
  Name : String
  MaxRequests : Nat
  Interval : Int
  Timeout : Int
  BucketPeriod : Int
  ReadyToTrip : Option (Counts → Bool)

/-- Modelled from the spec: the breaker `gobreaker.CircuitBreaker[string]`.
It trips from Closed to Open when `readyToTrip` holds for the counters after a
failure; Open rejects every call until `timeout` has passed since it opened,
then the breaker is Half-Open and lets `maxRequests` trial calls through; a
failed trial call opens it again, `maxRequests` consecutive successful trial
calls close it. `expiry` is `none` for the zero time. Times are nanoseconds. -/
structure CircuitBreaker where
  name : String
  maxRequests : Nat
  interval : Int
  timeout : Int
  readyToTrip : Counts → Bool
  state : State
  generation : Nat
  counts : Counts
  expiry : Option Int

def Counts.clear : Counts :=
  { Requests := 0, TotalSuccesses := 0, TotalFailures := 0, ConsecutiveSuccesses := 0,
    ConsecutiveFailures := 0 }

def Counts.onRequest (c : Counts) : Counts := { c with Requests := c.Requests + 1 }

def Counts.onSuccess (c : Counts) : Counts :=
  { c with TotalSuccesses := c.TotalSuccesses + 1,
           ConsecutiveSuccesses := c.ConsecutiveSuccesses + 1, ConsecutiveFailures := 0 }

def Counts.onFailure (c : Counts) : Counts :=
  { c with TotalFailures := c.TotalFailures + 1,
           ConsecutiveFailures := c.ConsecutiveFailures + 1, ConsecutiveSuccesses := 0 }

namespace CircuitBreaker

/-- Modelled from the spec: a new generation clears the counters and sets the
expiry: the end of the interval in Closed, the end of the cooldown in Open. -/
def toNewGeneration (cb : CircuitBreaker) (now : Int) : CircuitBreaker :=
  { cb with
    generation := cb.generation + 1, counts := Counts.clear,
    expiry :=
      match cb.state with
      | .StateClosed => if cb.interval = 0 then none else some (now + cb.interval)
      | .StateOpen => some (now + cb.timeout)
      | .StateHalfOpen => none }

/-- Modelled from the spec: a change of state starts a new generation. -/
def setState (cb : CircuitBreaker) (state : State) (now : Int) : CircuitBreaker :=
  if cb.state = state then cb else toNewGeneration { cb with state := state } now

/-- Modelled from the spec: the state at the time `now`: a Closed breaker whose
interval has passed starts a new generation, an Open breaker whose cooldown has
passed becomes Half-Open. -/
def currentState (cb : CircuitBreaker) (now : Int) : CircuitBreaker :=
  match cb.state with
  | .StateClosed =>
    match cb.expiry with
    | some e => if e < now then toNewGeneration cb now else cb
    | none => cb
  | .StateOpen =>
    match cb.expiry with
    | some e => if e < now then setState cb .StateHalfOpen now else cb
    | none => setState cb .StateHalfOpen now
  | .StateHalfOpen => cb

/-- Modelled from the spec: the admission of a call: Open rejects with
`ErrOpenState`, Half-Open rejects with `ErrTooManyRequests` once `maxRequests`
trial calls were let through. The result is the generation or the error. -/
def beforeRequest (cb : CircuitBreaker) (now : Int) : (Nat × Option GoError) × CircuitBreaker :=
  let cb1 := currentState cb now
  if cb1.state = .StateOpen then ((cb1.generation, some .ErrOpenState), cb1)
  else if cb1.state = .StateHalfOpen ∧ cb1.maxRequests ≤ cb1.counts.Requests then
    ((cb1.generation, some .ErrTooManyRequests), cb1)
  else ((cb1.generation, none), { cb1 with counts := cb1.counts.onRequest })

def onSuccess (cb : CircuitBreaker) (now : Int) : CircuitBreaker :=
  match cb.state with
  | .StateClosed => { cb with counts := cb.counts.onSuccess }
  | .StateHalfOpen =>
    let cb1 := { cb with counts := cb.counts.onSuccess }
    if cb1.maxRequests ≤ cb1.counts.ConsecutiveSuccesses then setState cb1 .StateClosed now
    else cb1
  | .StateOpen => cb

def onFailure (cb : CircuitBreaker) (now : Int) : CircuitBreaker :=
  match cb.state with
  | .StateClosed =>
    let cb1 := { cb with counts := cb.counts.onFailure }
    if cb1.readyToTrip cb1.counts then setState cb1 .StateOpen now else cb1
  | .StateHalfOpen => setState cb .StateOpen now
  | .StateOpen => cb

/-- Modelled from the spec: the bookkeeping after a call; a result that
belongs to an earlier generation is dropped. -/
def afterRequest (cb : CircuitBreaker) (before : Nat) (success : Bool) (now : Int) :
    CircuitBreaker :=
  let cb1 := currentState cb now
  if cb1.generation ≠ before then cb1
  else if success then onSuccess cb1 now else onFailure cb1 now

/-- Modelled from the spec: the method `Execute` at the time `now`: a rejected
call returns the zero value and the error without running `req`; an admitted
call runs `req` on the state `c` it works on and counts a nil error as a
success. The call returns at the instant it was made. -/
def Execute {ρ : Type} (now : Int) (req : ρ → (String × Option GoError) × ρ)
    (cb : CircuitBreaker) (c : ρ) : (String × Option GoError) × CircuitBreaker × ρ :=
  match beforeRequest cb now with
  | ((_, some err), cb1) => (("", some err), cb1, c)
  | ((generation, none), cb1) =>
    let ((result, err), c1) := req c
    ((result, err), afterRequest cb1 generation err.isNone now, c1)

end CircuitBreaker

/-- Modelled from the spec: the constructor `gobreaker.NewCircuitBreaker`,
called at the time `now`, with the defaults of the library for zero settings. -/
def NewCircuitBreaker (st : Settings) (now : Int) : CircuitBreaker :=
  CircuitBreaker.toNewGeneration
    { name := st.Name,
      maxRequests := if st.MaxRequests = 0 then 1 else st.MaxRequests,
      interval := if st.Interval ≤ 0 then 0 else st.Interval,
      timeout := if st.Timeout ≤ 0 then 60000000000 else st.Timeout,
      readyToTrip := st.ReadyToTrip.getD (fun counts => decide (5 < counts.ConsecutiveFailures)),
      state := .StateClosed, generation := 0, counts := Counts.clear, expiry := none } now

end gobreaker

structure CircuitBreakerWrap where
  cb : gobreaker.CircuitBreaker

/-- The default `ReadyToTrip` of `NewCircuitBreakerWrap`. The failure rate is a
quotient of two `float64` values converted from `uint32`; comparing it with
`0.5` is comparing `Requests` with twice `TotalFailures`. -/
def defaultReadyToTrip (counts : gobreaker.Counts) : Bool :=
  if 5 ≤ counts.ConsecutiveFailures then true
  else if counts.Requests < 10 then decide (10 ≤ counts.ConsecutiveFailures)
  else decide (counts.Requests ≤ 2 * counts.TotalFailures)

/-- The settings that `NewCircuitBreakerWrap` hands to the library: its
defaults, each overridden by a set field of the first variadic argument. -/
def wrapSettings (name : String) (st : List (Option gobreaker.Settings)) : gobreaker.Settings :=
  let defaultSettings : gobreaker.Settings :=
    { Name := name, MaxRequests := 3, Interval := 60 * 1000000000,
      Timeout := 30 * 1000000000, BucketPeriod := 10 * 1000000000,
      ReadyToTrip := some defaultReadyToTrip }
  match st with
  | some nst :: _ =>
    { Name := if nst.Name ≠ "" then nst.Name else defaultSettings.Name,
      MaxRequests := if 0 < nst.MaxRequests then nst.MaxRequests else defaultSettings.MaxRequests,
      Interval := if 0 < nst.Interval then nst.Interval else defaultSettings.Interval,
      Timeout := if 0 < nst.Timeout then nst.Timeout else defaultSettings.Timeout,
      BucketPeriod :=
        if 0 < nst.BucketPeriod then nst.BucketPeriod else defaultSettings.BucketPeriod,
      ReadyToTrip :=
        match nst.ReadyToTrip with
        | some f => some f
        | none => defaultSettings.ReadyToTrip }
  | _ => defaultSettings

/-- The constructor `NewCircuitBreakerWrap`, called at the time `now`. -/
def NewCircuitBreakerWrap (name : String) (st : List (Option gobreaker.Settings)) (now : Int) :
    CircuitBreakerWrap :=
  { cb := gobreaker.NewCircuitBreaker (wrapSettings name st) now }

namespace CircuitBreakerWrap

def ConvertCircuitBreakerOpenError (err : GoError) : GoError :=
  if errorsIs err .ErrTooManyRequests then NewErrCircuitBreakerOpen err.Error
  else if errorsIs err .ErrOpenState then NewErrCircuitBreakerOpen err.Error
  else err

/-- The method `Call` at the time `now`. -/
def Call {ρ : Type} (now : Int) (fn : ρ → (String × Option GoError) × ρ)
    (cbw : CircuitBreakerWrap) (c : ρ) : (String × Option GoError) × CircuitBreakerWrap × ρ :=
  match gobreaker.CircuitBreaker.Execute now fn cbw.cb c with
  | ((_, some err), cb1, c1) => (("", some (ConvertCircuitBreakerOpenError err)), { cb := cb1 }, c1)
  | ((res, none), cb1, c1) => ((res, none), { cb := cb1 }, c1)

def Allow (_cbw : CircuitBreakerWrap) : Bool := true

def Reset (cbw : CircuitBreakerWrap) : CircuitBreakerWrap := cbw

/-- The wrapper behind the interface `CacheCircuitBreaker`, for calls made at
the time `now`. -/
def asBreaker {ρ : Type} (now : Int) : CacheCircuitBreaker CircuitBreakerWrap ρ where
  Call := fun fn cbw c => Call now fn cbw c
  ConvertCircuitBreakerOpenError := ConvertCircuitBreakerOpenError
  Allow := Allow
  Reset := Reset

end CircuitBreakerWrap

/-! ## The bloom filters (`helper.go`) -/

/-- One step of the 32-bit FNV-1a hash of `hash/fnv`: xor the byte in, then
multiply by the prime, in `uint32`. -/
def fnv32aStep (h b : Nat) : Nat := ((h ^^^ b) * 16777619) % 2 ^ 32

/-- The value `Sum32()` of `fnv.New32a()` after writing the bytes. -/
def fnv32a (bytes : List Nat) : Nat := bytes.foldl fnv32aStep 2166136261

/-- The UTF-8 bytes of a character. -/
def utf8Bytes (c : Char) : List Nat :=
  let n := c.toNat
  if n < 128 then [n]
  else if n < 2048 then [192 + n / 64, 128 + n % 64]
  else if n < 65536 then [224 + n / 4096, 128 + n / 64 % 64, 128 + n % 64]
  else [240 + n / 262144, 128 + n / 4096 % 64, 128 + n / 64 % 64, 128 + n % 64]

/-- The bytes of a key. -/
def keyBytes (key : String) : List Nat := key.data.flatMap utf8Bytes

/-- The methods of `*bloom.BloomFilter` (library `bits-and-blooms/bloom`) that
the sharded filter calls, over the state `β` of one filter. -/
structure BloomFilter (β : Type) where
  Add : String → β → β
  Test : String → β → Bool
  TestAndAdd : String → β → Bool × β

/-- The struct `ShardedBloomFilter`: the filters of the shards and the mask. -/
structure ShardedBloomFilter (β : Type) where
  shards : List β
  mask : Nat

/-- The constructor `NewShardedBloomFilter`; `fresh` is the filter that
`bloom.NewWithEstimates(estPerShard, fpRate)` returns. The mask is
`uint32(shardCount - 1)`. -/
def NewShardedBloomFilter {β : Type} (shardCount : Int) (fresh : β) : ShardedBloomFilter β :=
  let shardCount := if shardCount ≤ 0 then 16 else shardCount
  { shards := List.replicate shardCount.toNat fresh,
    mask := ((shardCount - 1) % 2 ^ 32).toNat }

namespace ShardedBloomFilter

variable {β : Type}

def idx (sb : ShardedBloomFilter β) (key : String) : Nat :=
  fnv32a (keyBytes key) &&& sb.mask

/-- The method `Test`; indexing outside the slice of shards panics. -/
def Test (lib : BloomFilter β) (key : String) (sb : ShardedBloomFilter β) : Outcome Bool :=
  match sb.shards[sb.idx key]? with
  | some s => .returned (lib.Test key s)
  | none => .panicked "index out of range"

def Add (lib : BloomFilter β) (key : String) (sb : ShardedBloomFilter β) :
    Outcome Unit × ShardedBloomFilter β :=
  match sb.shards[sb.idx key]? with
  | some s => (.returned (), { sb with shards := sb.shards.set (sb.idx key) (lib.Add key s) })
  | none => (.panicked "index out of range", sb)

def TestAndAdd (lib : BloomFilter β) (key : String) (sb : ShardedBloomFilter β) :
    Outcome Bool × ShardedBloomFilter β :=
  match sb.shards[sb.idx key]? with
  | some s =>
    (.returned (lib.TestAndAdd key s).1,
      { sb with shards := sb.shards.set (sb.idx key) (lib.TestAndAdd key s).2 })
  | none => (.panicked "index out of range", sb)

/-- The method `Reset`, whose body is empty. -/
def Reset (sb : ShardedBloomFilter β) : ShardedBloomFilter β := sb

end ShardedBloomFilter

/-- A call that changes a bloom filter. -/
inductive BloomOp where
  | add (key : String)
  | testAndAdd (key : String)
  | reset
  deriving DecidableEq, Repr

/-- One call on the sharded filter: whether it returned, and the filter. -/
def ShardedBloomFilter.applyOp {β : Type} (lib : BloomFilter β) (op : BloomOp)
    (sb : ShardedBloomFilter β) : Outcome Unit × ShardedBloomFilter β :=
  match op with
  | .add key => sb.Add lib key
  | .testAndAdd key =>
    match sb.TestAndAdd lib key with
    | (.returned _, sb1) => (.returned (), sb1)
    | (.panicked msg, sb1) => (.panicked msg, sb1)
  | .reset => (.returned (), sb.Reset)

/-- A sequence of calls on the sharded filter, up to the first panic. -/
def ShardedBloomFilter.applyOps {β : Type} (lib : BloomFilter β) :
    List BloomOp → ShardedBloomFilter β → Outcome Unit × ShardedBloomFilter β
  | [], sb => (.returned (), sb)
  | op :: ops, sb =>
    match sb.applyOp lib op with
    | (.returned _, sb1) => applyOps lib ops sb1
    | (.panicked msg, sb1) => (.panicked msg, sb1)

/-- The struct `StableBloomFilter`: `cells` holds the `uint64` words, each with
32 counters of two bits. The eviction probability `p` is a `float64`; the
outcomes of the draws `rand.Float64() < p` are given to the methods as a list
of booleans (`true` evicts). -/
structure StableBloomFilter where
  buckets : Nat
  cellsPerBucket : Nat
  maxCount : Nat
  cells : List Nat

/-- The constructor `NewStableBloomFilter`, from the two `uint32` values that
its `float64` formulas give for the bucket count and for the cells per
bucket; the sizes are computed in `uint32`. -/
def NewStableBloomFilter (buckets cellsPerBucket : Nat) : StableBloomFilter :=
  let cellsPerBucket := if cellsPerBucket = 0 then 1 else cellsPerBucket
  let totalCells := (buckets * cellsPerBucket) % 2 ^ 32
  let cellsArraySize := ((totalCells + 31) % 2 ^ 32) / 32
  { buckets := buckets, cellsPerBucket := cellsPerBucket, maxCount := 3,
    cells := List.replicate cellsArraySize 0 }

namespace StableBloomFilter

/-- The four bytes of a `uint32`, lowest first. -/
def le32 (x : Nat) : List Nat :=
  [x % 256, (x >>> 8) % 256, (x >>> 16) % 256, (x >>> 24) % 256]

def hash (key : String) (seed : Nat) : Nat := fnv32a (keyBytes key ++ le32 seed)

/-- The method `selectCell`; a zero `cellsPerBucket` would divide by zero, but
the loops that call it do not run then. -/
def selectCell (sbf : StableBloomFilter) (bucket : Nat) (key : String) (seed : Nat) : Nat :=
  let cellHash := fnv32a (keyBytes key ++ (le32 seed ++ le32 bucket))
  let cellInBucket := cellHash % sbf.cellsPerBucket
  (bucket * sbf.cellsPerBucket + cellInBucket) % 2 ^ 32

/-- The method `shouldEvict`: the next outcome of the draw. -/
def shouldEvict (draws : List Bool) : Bool × List Bool := (draws.headD false, draws.tail)

/-- The method `getCellCount`; indexing outside `cells` panics. -/
def getCellCount (sbf : StableBloomFilter) (cellIndex : Nat) : Outcome Nat :=
  let arrayIndex := cellIndex / 32
  let bitOffset := (cellIndex % 32) * 2
  match sbf.cells[arrayIndex]? with
  | none => .panicked "index out of range"
  | some value =>
    let mask := (3 <<< bitOffset) % 2 ^ 64
    .returned (((value &&& mask) >>> bitOffset) % 256)

/-- The method `incrementCell`, one pass of its compare-and-swap loop. The
operator `&^` clears the bits of the mask: the word is and-ed with the
complement of the mask in `uint64`. -/
def incrementCell (sbf : StableBloomFilter) (cellIndex : Nat) (draws : List Bool) :
    Outcome Unit × StableBloomFilter × List Bool :=
  let arrayIndex := cellIndex / 32
  let bitOffset := (cellIndex % 32) * 2
  match sbf.cells[arrayIndex]? with
  | none => (.panicked "index out of range", sbf, draws)
  | some oldValue =>
    let mask := (3 <<< bitOffset) % 2 ^ 64
    let currentCount := ((oldValue &&& mask) >>> bitOffset) % 256
    let (newCount, draws1) :=
      if currentCount < sbf.maxCount then ((currentCount + 1) % 256, draws)
      else
        let (evict, draws1) := shouldEvict draws
        if evict then ((currentCount + 255) % 256, draws1) else (currentCount, draws1)
    let newValue := (oldValue &&& (2 ^ 64 - 1 - mask)) ||| ((newCount <<< bitOffset) % 2 ^ 64)
    (.returned (), { sbf with cells := sbf.cells.set arrayIndex newValue }, draws1)

/-- The cell that `Add` and `Test` derive for the seed `i` of a key; a zero
bucket count makes `hash % sbf.buckets` panic. -/
def cellFor (sbf : StableBloomFilter) (key : String) (i : Nat) : Outcome Nat :=
  if sbf.buckets = 0 then .panicked "integer divide by zero"
  else .returned (sbf.selectCell (hash key i % sbf.buckets) key i)

/-- The loop of `Add` over the seeds still to do. -/
def addLoop (key : String) : List Nat → StableBloomFilter → List Bool →
    Outcome Unit × StableBloomFilter × List Bool
  | [], sbf, draws => (.returned (), sbf, draws)
  | i :: rest, sbf, draws =>
    match sbf.cellFor key i with
    | .panicked msg => (.panicked msg, sbf, draws)
    | .returned cellIndex =>
      match sbf.incrementCell cellIndex draws with
      | (.panicked msg, sbf1, draws1) => (.panicked msg, sbf1, draws1)
      | (.returned _, sbf1, draws1) => addLoop key rest sbf1 draws1

def Add (sbf : StableBloomFilter) (key : String) (draws : List Bool) :
    Outcome Unit × StableBloomFilter × List Bool :=
  addLoop key (List.range sbf.cellsPerBucket) sbf draws

/-- The loop of `Test` over the seeds still to do. -/
def testLoop (sbf : StableBloomFilter) (key : String) : List Nat → Outcome Bool
  | [] => .returned true
  | i :: rest =>
    match sbf.cellFor key i with
    | .panicked msg => .panicked msg
    | .returned cellIndex =>
      match sbf.getCellCount cellIndex with
      | .panicked msg => .panicked msg
      | .returned count => if count = 0 then .returned false else testLoop sbf key rest

def Test (sbf : StableBloomFilter) (key : String) : Outcome Bool :=
  testLoop sbf key (List.range sbf.cellsPerBucket)

def Reset (sbf : StableBloomFilter) : StableBloomFilter :=
  { sbf with cells := sbf.cells.map (fun _ => 0) }

end StableBloomFilter

/-- A call that changes a stable bloom filter: `Add` with the outcomes of its
eviction draws, or `Reset`. -/
inductive StableOp where
  | add (key : String) (draws : List Bool)
  | reset
  deriving DecidableEq, Repr

/-- A sequence of calls on the stable filter, up to the first panic. -/
def StableBloomFilter.applyOps : List StableOp → StableBloomFilter →
    Outcome Unit × StableBloomFilter
  | [], sbf => (.returned (), sbf)
  | .add key draws :: ops, sbf =>
    match sbf.Add key draws with
    | (.returned _, sbf1, _) => applyOps ops sbf1
    | (.panicked msg, sbf1, _) => (.panicked msg, sbf1)
  | .reset :: ops, sbf => applyOps ops sbf.Reset

/-! ## The global object manager (`globalmanager/manager.go`)

An initializer works on a part of the world, of type `ω`, that is passed
through the calls; the instances it creates have type `ι`, and a nil instance
is `none`. The calls are made one after the other by one goroutine. -/

namespace globalmanager

/-- The type `InitializerFunc`: a call returns an instance and an error, or
panics with a value that prints as the message. -/
abbrev InitializerFunc (ι ω : Type) : Type := ω → Outcome (Option ι × Option GoError) × ω

/-- The method `Store` of `atomic.Value` (package `sync/atomic`): storing nil
panics. The first store fixes the dynamic type of the value; no call below
stores a second time into a value that holds something. -/
def atomicValueStore {ι : Type} (val : Option ι) : Outcome (Option ι) :=
  match val with
  | none => .panicked "sync/atomic: store of nil value into Value"
  | some x => .returned (some x)

/-- The struct `entry`. `once` tells whether the `sync.Once` that the pointer
holds has run; `instance_` is what the `atomic.Value` holds; `mu` tells
whether the mutex is locked. -/
structure entry (ι ω : Type) where
  initializer : InitializerFunc ι ω
  once : Bool
  instance_ : Option ι
  initialized : Int
  mu : Bool

/-- The struct `GlobalManager`: the entries of its `sync.Map`. -/
structure GlobalManager (ι ω : Type) where
  container : List (String × entry ι ω)

def NewGlobalManager {ι ω : Type} : GlobalManager ι ω := { container := [] }

/-- What a goroutine that locks a mutex it can never get ends in. -/
def deadlock : String := "fatal error: all goroutines are asleep - deadlock!"

namespace GlobalManager

variable {ι ω : Type}

/-- The call `gm.container.Load(name)`; every value of the map is an `*entry`. -/
def Load (gm : GlobalManager ι ω) (name : String) : Option (entry ι ω) :=
  gm.container.lookup name

/-- The entry of `name` after the writes a method made through its pointer. -/
def update (gm : GlobalManager ι ω) (name : String) (e : entry ι ω) : GlobalManager ι ω :=
  { container := gm.container.map (fun p => if p.1 = name then (p.1, e) else p) }

/-- The method `Register`; a nil initializer is `none`. -/
def Register (name : String) (initializer : Option (InitializerFunc ι ω))
    (gm : GlobalManager ι ω) : Bool × GlobalManager ι ω :=
  match initializer with
  | none => (false, gm)
  | some f =>
    match gm.Load name with
    | some _ => (false, gm)
    | none =>
      (true,
        { container :=
            (name, { initializer := f, once := false, instance_ := none, initialized := 0,
                     mu := false }) :: gm.container })

def IsRegistered (gm : GlobalManager ι ω) (name : String) : Bool := (gm.Load name).isSome

/-- The function given to `currentOnce.Do` in `Get`, with its deferred
`recover`: the error it leaves in `err` and the entry after it. -/
def onceBody (name : String) (entity : entry ι ω) (w : ω) :
    Option GoError × entry ι ω × ω :=
  let (o, w1) := entity.initializer w
  match o with
  | .panicked r =>
    (some (.errorf ("panic occurred while initializing global object '" ++ name ++ "': " ++ r)),
      { entity with once := true, initialized := -1 }, w1)
  | .returned (_, some err) =>
    (some (.errorf ("failed to initialize global object '" ++ name ++ "': " ++ err.Error)),
      { entity with once := true, initialized := -1 }, w1)
  | .returned (inst, none) =>
    match atomicValueStore inst with
    | .panicked r =>
      (some (.errorf
          ("panic occurred while initializing global object '" ++ name ++ "': " ++ r)),
        { entity with once := true, initialized := -1 }, w1)
    | .returned v => (none, { entity with once := true, instance_ := v, initialized := 1 }, w1)

/-- The method `Get`. Locking `entity.mu` while it is locked never returns. -/
def Get (name : String) (gm : GlobalManager ι ω) (w : ω) :
    Outcome (Option ι × Option GoError) × GlobalManager ι ω × ω :=
  match gm.Load name with
  | none =>
    (.returned (none, some (.errorf ("entry '" ++ name ++ "' not found for loading"))), gm, w)
  | some entity =>
    if entity.initialized = 1 then
      match entity.instance_ with
      | some inst => (.returned (some inst, none), gm, w)
      | none =>
        (.returned (none, some (.errorf ("instance '" ++ name
          ++ "' from GlobalManager is nil, but initialized flag is set to 1"))), gm, w)
    else if entity.initialized = -1 ∧ entity.mu = true then (.panicked deadlock, gm, w)
    else
      let entity :=
        if entity.initialized = -1 then { entity with once := false, initialized := 0 }
        else entity
      if entity.once then (.returned (entity.instance_, none), gm.update name entity, w)
      else
        let (err, entity1, w1) := onceBody name entity w
        (.returned (entity1.instance_, err), gm.update name entity1, w1)

/-- The method `Release`. `closable` is the type assertion of an instance to
`Closable`: the method `Close` of an instance that has one. -/
def Release (closable : ι → Option (ω → Option GoError × ω)) (name : String)
    (gm : GlobalManager ι ω) (w : ω) : Outcome (Option GoError) × GlobalManager ι ω × ω :=
  match gm.Load name with
  | none => (.returned (some (.errorf ("global object '" ++ name ++ "' key not found"))), gm, w)
  | some entity =>
    match entity.instance_.bind closable with
    | none => (.returned none, gm, w)
    | some close =>
      let (err, w1) := close w
      match err with
      | some e =>
        (.returned (some (.errorf
          ("unable to close object resource by key '" ++ name ++ "' : " ++ e.Error))), gm, w1)
      | none =>
        if entity.mu then (.panicked deadlock, gm, w1)
        else
          match atomicValueStore (none : Option ι) with
          | .panicked r => (.panicked r, gm.update name { entity with mu := true }, w1)
          | .returned v =>
            (.returned none,
              gm.update name
                { entity with instance_ := v, initialized := 0, once := false, mu := false },
              w1)

end GlobalManager

end globalmanager

/-! ## Business exceptions (`exception/exception_error.go`) -/

namespace exception

/-- A non-nil value of type `interface{}` given as data: an `error`, a string,
or a value of another type, which is only handed on. -/
inductive AnyData where
  | error (e : GoError)
  | str (s : String)
  | other (tag : Nat)
  deriving DecidableEq, Repr

/-- The struct `response.RespInfo`, which is the type `Exception`. -/
structure Exception where
  Code : Int
  Msg : String
  Data : Option AnyData
  deriving DecidableEq, Repr

/-- The type `ExceptionMap`, a `map[string]Exception`. -/
abbrev ExceptionMap : Type := List (String × Exception)

/-- The constants `constant.RegisterKeyPrefix`, `constant.UnknownErrCode` and
`constant.UnknownErrMsg`. -/
def RegisterKeyPrefix : String := "__key_"

def UnknownErrCode : Int := 500000

def UnknownErrMsg : String := "Don't worry, something went wrong, please try again later."

/-- The function `New`; `d` is the variadic argument. The object comes from
the pool of `response` and gets the three fields. -/
def New (c : Int) (m : String) (d : List (Option AnyData)) : Exception :=
  match d with
  | some (.error errData) :: _ => { Code := c, Msg := m, Data := some (.str errData.Error) }
  | data :: _ => { Code := c, Msg := m, Data := data }
  | [] => { Code := c, Msg := m, Data := none }

/-- The value a function panics with. -/
inductive Thrown where
  | exception (e : Exception)
  | error (e : GoError)
  | runtime (msg : String)
  deriving DecidableEq, Repr

/-- The exception map that `Get` and `Throw` load from the global manager, or
what they panic with when it is not there; `asMap` is the type assertion
`v.(ExceptionMap)`. -/
def loadExceptions {ι ω : Type} (asMap : ι → Option ExceptionMap)
    (gm : globalmanager.GlobalManager ι ω) (w : ω) :
    Except Thrown ExceptionMap × globalmanager.GlobalManager ι ω × ω :=
  let k := RegisterKeyPrefix ++ "exceptions"
  match gm.Get k w with
  | (.panicked r, gm1, w1) => (.error (.runtime r), gm1, w1)
  | (.returned (some v, none), gm1, w1) =>
    match asMap v with
    | some exceptions => (.ok exceptions, gm1, w1)
    | none =>
      (.error (.runtime "interface conversion: interface {} is not exception.ExceptionMap"),
        gm1, w1)
  | (.returned _, gm1, w1) =>
    (.error (.error (.errorf ("exceptions: " ++ k
      ++ " not found, please make sure you have registered exceptions in global manager"))),
      gm1, w1)

/-- The function `Get`: the exception it returns, or what it panics with. -/
def Get {ι ω : Type} (asMap : ι → Option ExceptionMap) (key : String)
    (gm : globalmanager.GlobalManager ι ω) (w : ω) :
    Except Thrown Exception × globalmanager.GlobalManager ι ω × ω :=
  match loadExceptions asMap gm w with
  | (.error t, gm1, w1) => (.error t, gm1, w1)
  | (.ok exceptions, gm1, w1) =>
    match exceptions.lookup key with
    | some respInfo => (.ok (New respInfo.Code respInfo.Msg [respInfo.Data]), gm1, w1)
    | none => (.ok (New UnknownErrCode UnknownErrMsg []), gm1, w1)

set_option linter.unusedVariables false in
/-- The function `Throw`, which always panics: what it panics with. The map
is indexed with `k`, the key of the map in the global manager. -/
def Throw {ι ω : Type} (asMap : ι → Option ExceptionMap) (key : String)
    (d : List (Option AnyData)) (gm : globalmanager.GlobalManager ι ω) (w : ω) :
    Thrown × globalmanager.GlobalManager ι ω × ω :=
  let k := RegisterKeyPrefix ++ "exceptions"
  match loadExceptions asMap gm w with
  | (.error t, gm1, w1) => (t, gm1, w1)
  | (.ok exceptions, gm1, w1) =>
    match exceptions.lookup k with
    | some respInfo =>
      let respInfo : Exception :=
        match d with
        | some (.error errData) :: _ => { respInfo with Data := some (.str errData.Error) }
        | d0 :: _ => { respInfo with Data := d0 }
        | [] => respInfo
      (.exception (New respInfo.Code respInfo.Msg [respInfo.Data]), gm1, w1)
    | none => (.exception (New UnknownErrCode UnknownErrMsg []), gm1, w1)

end exception

/-! ## Options as objects in memory (`cache_option.go`)

`Clone`, `Reset` and `Release` work on `*CacheOption` and `*TTLConfig`
pointers. Here an address is an index into the list of the objects of its
type; an address that holds no object behaves as a nil pointer. -/

/-- A `CacheOption` object in memory: the fields of the struct, the two TTL
configurations being addresses (`none` is nil). -/
structure OptionObject (R : Type) where
  AppCtx : Option IContext
  enable : Bool
  ctx : Context
  cacheLevel : Level
  syncStrategy : Strategy
  singleFlight : Bool
  bloomFilter : Bool
  circuitBreaker : Bool
  cacheKey : String
  jsonWrapper : Option (JsonWrapper R)
  localTTLConfig : Option Nat
  remoteTTLConfig : Option Nat
  defaultInstanceKey : String

/-- The memory: the `CacheOption` objects, the `TTLConfig` objects, and the
package variables `optionsPool` and `optsOnce` (`New` is `none` until the
first `OptionPoolGet` creates the pool, then the context its constructor
captured; `free` holds the addresses of the options in the pool). -/
structure OptionHeap (R : Type) where
  options : List (OptionObject R)
  ttls : List TTLConfig
  New : Option (Option IContext)
  free : List Nat

namespace OptionHeap

variable {R : Type}

def nilDeref : String := "invalid memory address or nil pointer dereference"

/-- The function `NewCacheOption`: the address of the new object. -/
def NewCacheOption (appCtx : Option IContext) (h : OptionHeap R) : Nat × OptionHeap R :=
  (h.options.length,
    { h with
      ttls := h.ttls ++
        [{ BaseTTL := 0, RandomRange := 0, UseRandom := false },
         { BaseTTL := 0, RandomRange := 0, UseRandom := false }],
      options := h.options ++
        [{ AppCtx := appCtx, enable := true, ctx := none, cacheLevel := 0,
           syncStrategy := WriteRemoteOnly, singleFlight := false, bloomFilter := false,
           circuitBreaker := false, cacheKey := "", jsonWrapper := none,
           localTTLConfig := some h.ttls.length, remoteTTLConfig := some (h.ttls.length + 1),
           defaultInstanceKey := "" }] })

/-- The function `OptionPoolGet`. `sync.Pool.Get` hands out any object of the
pool or a new one: `pick` is the object it chooses, `none` for a new one. -/
def OptionPoolGet (ctx : Option IContext) (pick : Option Nat) (h : OptionHeap R) :
    Nat × OptionHeap R :=
  let captured := h.New.getD ctx
  match pick with
  | some a =>
    if a ∈ h.free then (a, { h with New := some captured, free := h.free.erase a })
    else NewCacheOption captured { h with New := some captured }
  | none => NewCacheOption captured { h with New := some captured }

/-- The copy `&TTLConfig{...}` that `Clone` makes of the configuration at `p`;
for a nil `p` the clone keeps the pointer `keep` it has. -/
def copyTTL (p keep : Option Nat) (ttls : List TTLConfig) :
    Option (Option Nat × List TTLConfig) :=
  match p with
  | none => some (keep, ttls)
  | some a =>
    match ttls[a]? with
    | none => none
    | some t =>
      some (some ttls.length,
        ttls ++ [{ BaseTTL := t.BaseTTL, RandomRange := t.RandomRange, UseRandom := t.UseRandom }])

/-- The assignments of `Clone` to the object `coNew` at `n` that
`OptionPoolGet` returned, `c0` being the object at `c` before that call; the
fields of `c` are read as the assignments go, so that they are those of
`coNew` when the pool handed out `c` itself. -/
def cloneInto (c0 : OptionObject R) (c n : Nat) (ctx : List Context) (h1 : OptionHeap R) :
    Outcome Nat × OptionHeap R :=
  match h1.options[n]? with
  | none => (.panicked nilDeref, h1)
  | some coNew0 =>
    let coNew1 := match ctx with
      | x :: _ => { coNew0 with ctx := x }
      | [] => coNew0
    let co := if n = c then coNew1 else c0
    match copyTTL co.localTTLConfig coNew1.localTTLConfig h1.ttls with
    | none => (.panicked nilDeref, h1)
    | some (lp, ttls1) =>
      match copyTTL co.remoteTTLConfig coNew1.remoteTTLConfig ttls1 with
      | none => (.panicked nilDeref, h1)
      | some (rp, ttls2) =>
        (.returned n,
          { h1 with
            ttls := ttls2,
            options := h1.options.set n
              { coNew1 with
                enable := co.enable, cacheLevel := co.cacheLevel,
                syncStrategy := co.syncStrategy, singleFlight := co.singleFlight,
                bloomFilter := co.bloomFilter, circuitBreaker := co.circuitBreaker,
                cacheKey := co.cacheKey, jsonWrapper := co.jsonWrapper,
                localTTLConfig := lp, remoteTTLConfig := rp,
                defaultInstanceKey := co.defaultInstanceKey } })

/-- The method `Clone` of the option at `c`; `ctx` is the variadic argument. -/
def Clone (c : Nat) (ctx : List Context) (pick : Option Nat) (h : OptionHeap R) :
    Outcome Nat × OptionHeap R :=
  match h.options[c]? with
  | none => (.panicked nilDeref, h)
  | some c0 => cloneInto c0 c (OptionPoolGet c0.AppCtx pick h).1 ctx (OptionPoolGet c0.AppCtx pick h).2

/-- What `Reset` does to one TTL configuration: a nil pointer gets a new zero
object, an object is zeroed in place. -/
def resetTTL (p : Option Nat) (ttls : List TTLConfig) : Option Nat × List TTLConfig :=
  match p with
  | none => (some ttls.length, ttls ++ [{ BaseTTL := 0, RandomRange := 0, UseRandom := false }])
  | some a => (some a, ttls.set a { BaseTTL := 0, RandomRange := 0, UseRandom := false })

/-- The method `Reset` of the option at `c`. -/
def Reset (c : Nat) (h : OptionHeap R) : Outcome Unit × OptionHeap R :=
  match h.options[c]? with
  | none => (.panicked nilDeref, h)
  | some o =>
    let (lp, ttls1) := resetTTL o.localTTLConfig h.ttls
    let (rp, ttls2) := resetTTL o.remoteTTLConfig ttls1
    (.returned (),
      { h with
        ttls := ttls2,
        options := h.options.set c
          { o with
            ctx := none, bloomFilter := false, circuitBreaker := false, singleFlight := false,
            localTTLConfig := lp, remoteTTLConfig := rp, defaultInstanceKey := "",
            cacheKey := "", jsonWrapper := none, syncStrategy := WriteRemoteOnly,
            cacheLevel := 0, enable := true } })

/-- The function `OptionPoolPut` for the non-nil pointer `co`: `Reset`, then
`optionsPool.Put`, which panics on the nil pool pointer. -/
def OptionPoolPut (co : Nat) (h : OptionHeap R) : Outcome Unit × OptionHeap R :=
  match Reset co h with
  | (.panicked r, h1) => (.panicked r, h1)
  | (.returned _, h1) =>
    match h1.New with
    | none => (.panicked nilDeref, h1)
    | some _ => (.returned (), { h1 with free := co :: h1.free })

/-- The method `Release`. -/
def Release (c : Nat) (h : OptionHeap R) : Outcome Unit × OptionHeap R := OptionPoolPut c h

/-- The configuration behind a pointer: `some none` for nil, `none` for an
address that holds no object. -/
def derefTTL (ttls : List TTLConfig) (p : Option Nat) : Option (Option TTLConfig) :=
  match p with
  | none => some none
  | some a => (ttls[a]?).map some

/-- The option at the address `a` as a value, its pointers followed. -/
def view (h : OptionHeap R) (a : Nat) : Option (CacheOption R) :=
  match h.options[a]? with
  | none => none
  | some o =>
    match derefTTL h.ttls o.localTTLConfig, derefTTL h.ttls o.remoteTTLConfig with
    | some l, some r =>
      some { AppCtx := o.AppCtx, enable := o.enable, ctx := o.ctx, cacheLevel := o.cacheLevel,
             syncStrategy := o.syncStrategy, singleFlight := o.singleFlight,
             bloomFilter := o.bloomFilter, circuitBreaker := o.circuitBreaker,
             cacheKey := o.cacheKey, jsonWrapper := o.jsonWrapper, localTTLConfig := l,
             remoteTTLConfig := r, defaultInstanceKey := o.defaultInstanceKey }
    | _, _ => none

end OptionHeap

/-! ## Concrete collaborators

Small implementations of the external interfaces, used as concrete inputs. -/

/-- A store that keeps every write: an association list, newest entry first. -/
abbrev KV := List (String × String)

def KV.lookup (kv : KV) (key : String) : Option String :=
  (kv.find? (fun e => e.1 == key)).map (fun e => e.2)

/-- A ristretto store that admits every write at once and never evicts. -/
def mapStore : Ristretto KV where
  Get := fun key kv => (kv.lookup key, kv)
  SetWithTTL := fun key value _ _ kv => (true, (key, value) :: kv)
  Del := fun key kv => kv.filter (fun e => e.1 != key)
  Close := fun kv => kv
  Wait := fun kv => kv

/-- A ristretto store that drops every write. -/
def droppingStore : Ristretto KV where
  Get := fun key kv => (kv.lookup key, kv)
  SetWithTTL := fun _ _ _ _ kv => (false, kv)
  Del := fun key kv => kv.filter (fun e => e.1 != key)
  Close := fun kv => kv
  Wait := fun kv => kv

/-- A redis backend that is reachable and keeps every write. -/
def mapRedis : RedisClient KV where
  Get := fun key kv =>
    match kv.lookup key with
    | some v => ((v, none), kv)
    | none => (("", some .redisNil), kv)
  Set := fun key value _ kv => (none, (key, value) :: kv)
  Del := fun keys kv => (none, kv.filter (fun e => !keys.contains e.1))
  Close := fun kv => (none, kv)

/-- A redis backend that fails every command with a network error. -/
def downRedis : RedisClient KV where
  Get := fun _ kv => (("", some (.errorf "dial tcp: connection refused")), kv)
  Set := fun _ _ _ kv => (some (.errorf "dial tcp: connection refused"), kv)
  Del := fun _ kv => (some (.errorf "dial tcp: connection refused"), kv)
  Close := fun kv => (none, kv)

/-- An exact membership filter: the list of the keys added. -/
def listBloom : CacheBloomFilter (List String) where
  Add := fun key b => key :: b
  Test := fun key b => b.contains key
  TestAndAdd := fun key b => (b.contains key, key :: b)
  Reset := fun b => b

/-- A breaker that is always closed: it runs the function and hands its
result on. -/
def closedBreaker : CacheCircuitBreaker Unit KV where
  Call := fun fn k c => ((fn c).1, k, (fn c).2)
  ConvertCircuitBreakerOpenError := fun e => e
  Allow := fun _ => true
  Reset := fun k => k

/-- A breaker that is open: it rejects the call without running the function,
with the error `CircuitBreakerWrap.Call` gives for `gobreaker.ErrOpenState`. -/
def openBreaker : CacheCircuitBreaker Unit KV where
  Call := fun _ k c => (("", some (NewErrCircuitBreakerOpen GoError.ErrOpenState.Error)), k, c)
  ConvertCircuitBreakerOpenError := fun e => e
  Allow := fun _ => true
  Reset := fun k => k

/-- A codec on strings that writes the value as it is. -/
def plainCodec : JsonWrapper String where
  Marshal := fun v => (v, none)
  Unmarshal := fun data _ => (data, none)

/-- A codec whose `Marshal` fails. -/
def failingCodec : JsonWrapper String where
  Marshal := fun _ => ("", some .ErrSerializationFailed)
  Unmarshal := fun data _ => (data, none)

def demoApp : IContext :=
  { LocalCacheKey := "localCache", RemoteCacheKey := "remoteCache",
    Level2CacheKey := "level2Cache", DefaultJsonCodecKey := "jsonCodec" }

def noCodecs : String → Option (JsonWrapper String) := fun _ => none

/-- An enabled option for the key `k1` with the codec `jw`. -/
def demoOption (level : Level) (strategy : Strategy) (jw : JsonWrapper String) :
    CacheOption String :=
  { (NewCacheOption (some demoApp) : CacheOption String) with
    cacheLevel := level, syncStrategy := strategy, cacheKey := "k1", jsonWrapper := some jw }

abbrev LocalWorld := LocalCache KV × Rand
abbrev RemoteWorld := RedisDb KV (List String) Unit × Rand

def demoLocal : Cache LocalWorld String := LocalCache.asCache mapStore noCodecs
def demoLocalDropping : Cache LocalWorld String := LocalCache.asCache droppingStore noCodecs
def demoRemote : Cache RemoteWorld String :=
  RedisDb.asCache mapRedis listBloom closedBreaker noCodecs
def demoRemoteDown : Cache RemoteWorld String :=
  RedisDb.asCache downRedis listBloom closedBreaker noCodecs

def demoRemoteOpen : Cache RemoteWorld String :=
  RedisDb.asCache mapRedis listBloom openBreaker noCodecs

def emptyLocal : LocalWorld := ({ client := [], closed := false, level := Local }, [])

/-- An empty remote cache with protection on: a filter and a breaker exist. -/
def emptyRemote : RemoteWorld :=
  ({ Client := [], closed := false, level := Remote, sf := true,
     bloomFilter := some [], circuitBreaker := some () }, [])

/-- A local cache that holds `v1` under `k1`. -/
def filledLocal : LocalWorld :=
  ({ client := [("k1", "v1")], closed := false, level := Local }, [])

/-- A remote cache whose backend holds `v1` under `k1`. -/
def filledRemote : RemoteWorld :=
  ({ Client := [("k1", "v1")], closed := false, level := Remote, sf := true,
     bloomFilter := some [], circuitBreaker := some () }, [])

/-- A two-level cache as `NewLevel2Cache` builds it over a local and a remote
cache, before any option was taken from the option pool. -/
def level2Over (l : LocalWorld) (r : RemoteWorld) : Level2Cache LocalWorld RemoteWorld String :=
  NewLevel2Cache l r 8 8 { New := none, free := [] }

/-- The two-level cache over the empty local and remote caches. -/
def demoLevel2 : Level2Cache LocalWorld RemoteWorld String := level2Over emptyLocal emptyRemote

abbrev WrapWorld := RedisDb KV (List String) CircuitBreakerWrap × Rand

/-- The settings that `NewRedisDb` passes to `NewCircuitBreakerWrap` when the
configuration holds no value of its own. -/
def redisBreakerSettings : gobreaker.Settings :=
  { Name := "", MaxRequests := 5, Interval := 60 * 1000000000, Timeout := 30 * 1000000000,
    BucketPeriod := 10 * 1000000000, ReadyToTrip := none }

/-- The remote cache over a backend that keeps every write, an exact filter
and the breaker `CircuitBreakerWrap`, for calls made at the time `now`. -/
def demoRemoteWrap (now : Int) : Cache WrapWorld String :=
  RedisDb.asCache mapRedis listBloom (CircuitBreakerWrap.asBreaker now) noCodecs

/-- An empty remote cache with protection on, as `NewRedisDb` builds it at the
time 0: an empty filter and a new breaker. -/
def emptyRemoteWrap : WrapWorld :=
  ({ Client := [], closed := false, level := Remote, sf := true, bloomFilter := some [],
     circuitBreaker := some (NewCircuitBreakerWrap "cacheCircuitBreaker"
       [some redisBreakerSettings] 0) }, [])

/-- A remote cache with protection on whose backend holds `v1` under `k1`
and whose filter has not seen the key. -/
def filledRemoteWrap : WrapWorld :=
  ({ Client := [("k1", "v1")], closed := false, level := Remote, sf := true,
     bloomFilter := some [],
     circuitBreaker := some (NewCircuitBreakerWrap "cacheCircuitBreaker"
       [some redisBreakerSettings] 0) }, [])

/-- The settings of `TestCircuitBreakerWrap_TripAndRecover`: one trial call,
a cooldown of 120 milliseconds, tripping at the first failure. -/
def tripSettings : gobreaker.Settings :=
  { Name := "cb-trip", MaxRequests := 1, Interval := 0, Timeout := 120 * 1000000,
    BucketPeriod := 0, ReadyToTrip := some (fun c => decide (1 ≤ c.TotalFailures)) }

/-- The same settings without `MaxRequests`, so that the default of
`NewCircuitBreakerWrap` (three trial calls) stays. -/
def tripSettingsDefaultMax : gobreaker.Settings := { tripSettings with MaxRequests := 0 }

/-- A function that fails, and one that returns `recovered`; both leave the
state they work on as it is. -/
def failingFn : Unit → (String × Option GoError) × Unit :=
  fun c => (("", some (.errorf "fail")), c)

def recoveringFn : Unit → (String × Option GoError) × Unit :=
  fun c => (("recovered", none), c)

/-- A remote cache with protection on whose breaker is Open: it was built
with the settings of the test and has seen one failing call at 10 ns. -/
def trippedRemoteWrap : WrapWorld :=
  ({ Client := [], closed := false, level := Remote, sf := true, bloomFilter := some [],
     circuitBreaker := some (CircuitBreakerWrap.Call 10 failingFn
       (NewCircuitBreakerWrap "cb-trip" [some tripSettings] 0) ()).2.1 }, [])

/-- A filter of the library that is exact: the list of the keys added. -/
def exactBloom : BloomFilter (List String) where
  Add := fun key b => key :: b
  Test := fun key b => b.contains key
  TestAndAdd := fun key b => (b.contains key, key :: b)

/-- An initializer that also counts its invocations in the world, as the
initializers of the manager tests do. -/
def counted {ι ω : Type} (f : globalmanager.InitializerFunc ι ω) :
    globalmanager.InitializerFunc ι (ω × Nat) :=
  fun w => ((f w.1).1, ((f w.1).2, w.2 + 1))

/-- The results of `n` calls of `Get(name)` made one after the other. -/
def globalmanager.GlobalManager.Gets {ι ω : Type} (name : String) :
    Nat → globalmanager.GlobalManager ι ω → ω →
      List (Outcome (Option ι × Option GoError)) × globalmanager.GlobalManager ι ω × ω
  | 0, gm, w => ([], gm, w)
  | n + 1, gm, w =>
    let (r, gm1, w1) := gm.Get name w
    let (rs, gm2, w2) := Gets name n gm1 w1
    (r :: rs, gm2, w2)

/-- Initializers of the manager tests: one that returns an object, one that
returns `boom-error`, one that panics with `panic-xyz`; and one that returns
nil with a nil error. -/
def objInit : globalmanager.InitializerFunc Nat Unit := fun w => (.returned (some 7, none), w)

def errInit : globalmanager.InitializerFunc Nat Unit :=
  fun w => (.returned (none, some (.errorf "boom-error")), w)

def panicInit : globalmanager.InitializerFunc Nat Unit := fun w => (.panicked "panic-xyz", w)

def nilInit : globalmanager.InitializerFunc Nat Unit := fun w => (.returned (none, none), w)

/-- An initializer that opens connection number `n`, the next number being the
world; every connection has a `Close` that returns nil. -/
def connInit : globalmanager.InitializerFunc Nat Nat := fun n => (.returned (some n, none), n + 1)

def connClosable : Nat → Option (Nat → Option GoError × Nat) :=
  fun _ => some (fun w => (none, w))

/-- Three entries of the exception map of the example application, its
initializer, and a manager that has it registered under the key that `Get`
and `Throw` load. -/
def exampleExceptions : exception.ExceptionMap :=
  [("InputParamError", { Code := 400001, Msg := "Invalid request parameters", Data := none }),
   ("InternalError",
     { Code := 500001, Msg := exception.UnknownErrMsg,
       Data := some (.str "Unknown Internal error") }),
   ("NotFoundDocument", { Code := 400002, Msg := "No matching records found", Data := none })]

def exceptionsInit : globalmanager.InitializerFunc exception.ExceptionMap Unit :=
  fun w => (.returned (some exampleExceptions, none), w)

def exceptionManager : globalmanager.GlobalManager exception.ExceptionMap Unit :=
  (globalmanager.GlobalManager.Register "__key_exceptions" (some exceptionsInit)
    globalmanager.NewGlobalManager).2

/-- A memory with two options: at address 0 an option in use, for the key
`k1` with a random local TTL of 60 ± 5 and a fixed remote TTL of 120; at
address 1 a reset option that is in the pool. -/
def demoHeap : OptionHeap String :=
  { options :=
      [{ AppCtx := none, enable := true, ctx := some 3, cacheLevel := Level2,
         syncStrategy := AsyncWriteRemoteOnly, singleFlight := true, bloomFilter := false,
         circuitBreaker := true, cacheKey := "k1", jsonWrapper := none,
         localTTLConfig := some 0, remoteTTLConfig := some 1, defaultInstanceKey := "redis2" },
       { AppCtx := none, enable := true, ctx := none, cacheLevel := 0,
         syncStrategy := WriteRemoteOnly, singleFlight := false, bloomFilter := false,
         circuitBreaker := false, cacheKey := "", jsonWrapper := none,
         localTTLConfig := some 2, remoteTTLConfig := some 3, defaultInstanceKey := "" }],
    ttls :=
      [{ BaseTTL := 60, RandomRange := 5, UseRandom := true },
       { BaseTTL := 120, RandomRange := 0, UseRandom := false },
       { BaseTTL := 0, RandomRange := 0, UseRandom := false },
       { BaseTTL := 0, RandomRange := 0, UseRandom := false }],
    New := some none,
    free := [1] }

/-- A global manager in which every cache key resolves to `c`. -/
def managerOf {σ : Type} (c : Cache σ String) : GlobalManager σ String :=
  { caches := fun name =>
      if name = "localCache" ∨ name = "remoteCache" ∨ name = "level2Cache" then some c
      else none,
    jsonCodecs := noCodecs }

end Fiberhouse

/-! ## Theorems -/

namespace Fiberhouse

section ErrorChains

/-- The target that `errors.As` fills for `ErrRejectedByBloomFilter` is a value
of that type. -/
theorem asErrRejectedByBloomFilter_isBloom (e b : GoError)
    (h : asErrRejectedByBloomFilter e = some b) : ∃ msg, b = .ErrRejectedByBloomFilter msg := by
  induction e with
  | ErrRejectedByBloomFilter msg =>
    simp only [asErrRejectedByBloomFilter, Option.some.injEq] at h
    exact ⟨msg, h.symm⟩
  | cacheError op key err ih => exact ih (by simpa [asErrRejectedByBloomFilter] using h)
  | wrapf text err ih => exact ih (by simpa [asErrRejectedByBloomFilter] using h)
  | _ => simp [asErrRejectedByBloomFilter] at h

/-- The target that `errors.As` fills for `ErrCircuitBreakerOpen` is a value of
that type. -/
theorem asErrCircuitBreakerOpen_isOpen (e c : GoError)
    (h : asErrCircuitBreakerOpen e = some c) : ∃ msg, c = .ErrCircuitBreakerOpen msg := by
  induction e with
  | ErrCircuitBreakerOpen msg =>
    simp only [asErrCircuitBreakerOpen, Option.some.injEq] at h
    exact ⟨msg, h.symm⟩
  | cacheError op key err ih => exact ih (by simpa [asErrCircuitBreakerOpen] using h)
  | wrapf text err ih => exact ih (by simpa [asErrCircuitBreakerOpen] using h)
  | _ => simp [asErrCircuitBreakerOpen] at h

/-- An unwrap chain ends in one value: a chain that holds an
`ErrCircuitBreakerOpen` holds no `ErrRejectedByBloomFilter`. -/
theorem asErrRejectedByBloomFilter_of_open (e c : GoError)
    (h : asErrCircuitBreakerOpen e = some c) : asErrRejectedByBloomFilter e = none := by
  induction e with
  | cacheError op key err ih =>
    simpa [asErrRejectedByBloomFilter] using ih (by simpa [asErrCircuitBreakerOpen] using h)
  | wrapf text err ih =>
    simpa [asErrRejectedByBloomFilter] using ih (by simpa [asErrCircuitBreakerOpen] using h)
  | ErrRejectedByBloomFilter msg => simp [asErrCircuitBreakerOpen] at h
  | _ => simp [asErrRejectedByBloomFilter]

end ErrorChains

/-- A valid option carries an application context. -/
theorem Valid_appCtx {R : Type} (co : CacheOption R) (h : co.Valid = none) :
    ∃ app, co.AppCtx = some app := by
  unfold CacheOption.Valid at h
  split_ifs at h with h1 h2 h3 h4
  cases hc : co.AppCtx with
  | none => simp [hc] at h4
  | some app => exact ⟨app, rfl⟩

section CacheAside

variable {σ R : Type} [Inhabited R]

/-- C1: for a valid option with caching enabled whose level resolves to the
cache `cache`: when the cache `Get` fails with an error that is neither an
`ErrRejectedByBloomFilter` nor an `ErrCircuitBreakerOpen`, the loader returns
`(v, nil)` and `Marshal` succeeds, `GetCached` returns `(v, nil)` whatever the
cache `Set` returns (`setRes`: nil or an error). -/
theorem GetCached_miss_returns_loaded (gm : GlobalManager σ R) (co : CacheOption R)
    (loader : Context → R × Option GoError) (fallback : List (R × Option GoError))
    (app : IContext) (name : String) (cache : Cache σ R) (jw : JsonWrapper R)
    (s s1 s2 : σ) (j0 : String) (e : GoError) (v : R) (jsonBytes : String)
    (setRes : Option GoError)
    (hvalid : co.Valid = none) (henabled : co.IsCache = true)
    (happ : co.AppCtx = some app)
    (hname : cacheInstanceKey app co.cacheLevel = some name)
    (hinst : gm.caches name = some cache)
    (hget : cache.Get co.cacheKey co s = (.returned (j0, some e), s1))
    (hbloom : asErrRejectedByBloomFilter e = none)
    (hopen : asErrCircuitBreakerOpen e = none)
    (hload : loader co.ctx = (v, none))
    (hjw : co.GetJsonWrapper gm.jsonCodecs = .returned jw)
    (hmarshal : jw.Marshal v = (jsonBytes, none))
    (hset : cache.Set co.cacheKey (.str jsonBytes) co s1 = (.returned setRes, s2)) :
    (GetCached gm co loader fallback s).1 = .returned (v, none) := by
  simp only [CacheOption.IsCache] at henabled
  cases setRes <;>
    simp [GetCached, GetMustInstance, CacheOption.IsCache, CacheOption.GetContext,
      CacheOption.GetCacheLevel, CacheOption.GetCacheKey, CacheOption.GetContextCtx,
      hvalid, henabled, happ, hname, hinst, hget, hbloom, hopen, hload, hjw, hmarshal, hset]

/-- Witness of C1 on the local cache, once with a store that takes the write
and once with a store that drops it. -/
theorem GetCached_miss_returns_loaded_witness :
    (GetCached (managerOf demoLocal) (demoOption Local WriteBoth plainCodec)
        (fun _ => ("v1", none)) [] emptyLocal).1 = .returned ("v1", none) ∧
    (GetCached (managerOf demoLocalDropping) (demoOption Local WriteBoth plainCodec)
        (fun _ => ("v1", none)) [] emptyLocal).1 = .returned ("v1", none) :=
  ⟨GetCached_miss_returns_loaded (managerOf demoLocal) (demoOption Local WriteBoth plainCodec)
      (fun _ => ("v1", none)) [] demoApp "localCache" demoLocal plainCodec
      emptyLocal emptyLocal
      ({ client := [("k1", "v1")], closed := false, level := Local }, [])
      "" .ErrKeyNotFound "v1" "v1" none
      rfl rfl rfl rfl rfl rfl rfl rfl rfl rfl rfl rfl,
   GetCached_miss_returns_loaded (managerOf demoLocalDropping)
      (demoOption Local WriteBoth plainCodec)
      (fun _ => ("v1", none)) [] demoApp "localCache" demoLocalDropping plainCodec
      emptyLocal emptyLocal emptyLocal
      "" .ErrKeyNotFound "v1" "v1"
      (some (NewCacheError "set" "k1" (.errorf "failed to set cache item")))
      rfl rfl rfl rfl rfl rfl rfl rfl rfl rfl rfl rfl⟩

/-- C2, as the claim states it, fails: on a miss of the local cache the loader
returns `("v1", nil)`, `Marshal` fails, and `GetCached` returns the zero value
with the error of `Marshal` instead of `("v1", nil)`. -/
theorem GetCached_marshal_failure_counterexample :
    (demoLocal.Get "k1" (demoOption Local WriteBoth failingCodec) emptyLocal).1
        = .returned ("", some .ErrKeyNotFound) ∧
    failingCodec.Marshal "v1" = ("", some .ErrSerializationFailed) ∧
    (GetCached (managerOf demoLocal) (demoOption Local WriteBoth failingCodec)
        (fun _ => ("v1", none)) [] emptyLocal).1
        = .returned ("", some .ErrSerializationFailed) ∧
    (GetCached (managerOf demoLocal) (demoOption Local WriteBoth failingCodec)
        (fun _ => ("v1", none)) [] emptyLocal).1 ≠ .returned ("v1", none) := by
  refine ⟨rfl, rfl, rfl, ?_⟩
  decide

/-- C2 amended: on a cache miss where the loader returns `(v, nil)`, a failure
of the cache `Set` is swallowed (`GetCached` returns `(v, nil)`), but a failure
of `Marshal` is not: `GetCached` then returns the zero value with the error of
`Marshal` and does not call `Set`. -/
theorem GetCached_write_path_failures (gm : GlobalManager σ R) (co : CacheOption R)
    (loader : Context → R × Option GoError) (fallback : List (R × Option GoError))
    (app : IContext) (name : String) (cache : Cache σ R) (jw : JsonWrapper R)
    (s s1 : σ) (j0 : String) (e : GoError) (v : R)
    (hvalid : co.Valid = none) (henabled : co.IsCache = true)
    (happ : co.AppCtx = some app)
    (hname : cacheInstanceKey app co.cacheLevel = some name)
    (hinst : gm.caches name = some cache)
    (hget : cache.Get co.cacheKey co s = (.returned (j0, some e), s1))
    (hbloom : asErrRejectedByBloomFilter e = none)
    (hopen : asErrCircuitBreakerOpen e = none)
    (hload : loader co.ctx = (v, none))
    (hjw : co.GetJsonWrapper gm.jsonCodecs = .returned jw) :
    (∀ jsonBytes merr, jw.Marshal v = (jsonBytes, some merr) →
      GetCached gm co loader fallback s
        = (.returned (default, some merr), s1,
            [.cacheGet co.cacheKey, .loader co.ctx, .marshal])) ∧
    (∀ jsonBytes serr s2, jw.Marshal v = (jsonBytes, none) →
      cache.Set co.cacheKey (.str jsonBytes) co s1 = (.returned (some serr), s2) →
      (GetCached gm co loader fallback s).1 = .returned (v, none)) := by
  simp only [CacheOption.IsCache] at henabled
  constructor
  · intro jsonBytes merr hmarshal
    simp [GetCached, GetMustInstance, CacheOption.IsCache, CacheOption.GetContext,
      CacheOption.GetCacheLevel, CacheOption.GetCacheKey, CacheOption.GetContextCtx,
      hvalid, henabled, happ, hname, hinst, hget, hbloom, hopen, hload, hjw, hmarshal]
  · intro jsonBytes serr s2 hmarshal hset
    simp [GetCached, GetMustInstance, CacheOption.IsCache, CacheOption.GetContext,
      CacheOption.GetCacheLevel, CacheOption.GetCacheKey, CacheOption.GetContextCtx,
      hvalid, henabled, happ, hname, hinst, hget, hbloom, hopen, hload, hjw, hmarshal, hset]

/-- Witness of C2 amended: a failing `Marshal` on the local cache, and a
dropped write on the local cache. -/
theorem GetCached_write_path_failures_witness :
    GetCached (managerOf demoLocal) (demoOption Local WriteBoth failingCodec)
        (fun _ => ("v1", none)) [] emptyLocal
      = (.returned (default, some .ErrSerializationFailed), emptyLocal,
          [.cacheGet "k1", .loader none, .marshal]) ∧
    (GetCached (managerOf demoLocalDropping) (demoOption Local WriteBoth plainCodec)
        (fun _ => ("v1", none)) [] emptyLocal).1 = .returned ("v1", none) :=
  ⟨(GetCached_write_path_failures (managerOf demoLocal)
      (demoOption Local WriteBoth failingCodec) (fun _ => ("v1", none)) []
      demoApp "localCache" demoLocal failingCodec emptyLocal emptyLocal
      "" .ErrKeyNotFound "v1" rfl rfl rfl rfl rfl rfl rfl rfl rfl rfl).1
      "" .ErrSerializationFailed rfl,
   (GetCached_write_path_failures (managerOf demoLocalDropping)
      (demoOption Local WriteBoth plainCodec) (fun _ => ("v1", none)) []
      demoApp "localCache" demoLocalDropping plainCodec emptyLocal emptyLocal
      "" .ErrKeyNotFound "v1" rfl rfl rfl rfl rfl rfl rfl rfl rfl rfl).2
      "v1" (NewCacheError "set" "k1" (.errorf "failed to set cache item")) emptyLocal
      rfl rfl⟩

/-- C3: for a valid option with caching enabled whose level resolves to the
cache `cache`: if the cache `Get` returns an error on whose unwrap chain
`errors.As` finds the `ErrRejectedByBloomFilter` value `b`, `GetCached` returns
the zero value with `b` (the error itself when it is of that type), and the
only call it makes is the cache `Get`: no loader, no fallback, no `Set`. -/
theorem GetCached_bloom_rejection (gm : GlobalManager σ R) (co : CacheOption R)
    (loader : Context → R × Option GoError) (fallback : List (R × Option GoError))
    (app : IContext) (name : String) (cache : Cache σ R)
    (s s1 : σ) (j0 : String) (e b : GoError)
    (hvalid : co.Valid = none) (henabled : co.IsCache = true)
    (happ : co.AppCtx = some app)
    (hname : cacheInstanceKey app co.cacheLevel = some name)
    (hinst : gm.caches name = some cache)
    (hget : cache.Get co.cacheKey co s = (.returned (j0, some e), s1))
    (hbloom : asErrRejectedByBloomFilter e = some b) :
    GetCached gm co loader fallback s
      = (.returned (default, some b), s1, [.cacheGet co.cacheKey]) ∧
    (∃ msg, b = .ErrRejectedByBloomFilter msg) ∧
    (∀ msg, e = .ErrRejectedByBloomFilter msg → b = e) := by
  simp only [CacheOption.IsCache] at henabled
  refine ⟨?_, asErrRejectedByBloomFilter_isBloom e b hbloom, ?_⟩
  · simp [GetCached, GetMustInstance, CacheOption.IsCache, CacheOption.GetContext,
      CacheOption.GetCacheLevel, CacheOption.GetCacheKey,
      hvalid, henabled, happ, hname, hinst, hget, hbloom]
  · intro msg he
    subst he
    simpa [asErrRejectedByBloomFilter] using hbloom.symm

/-- Witness of C3: the remote cache with bloom protection on, asked for a key
that neither the filter nor the backend holds. -/
theorem GetCached_bloom_rejection_witness :
    GetCached (managerOf demoRemote)
        { demoOption Remote WriteRemoteOnly plainCodec with bloomFilter := true }
        (fun _ => ("v1", none)) [("fb", none)] emptyRemote
      = (.returned ("", some (NewErrRejectedByBloomFilter "k1")), emptyRemote,
          [.cacheGet "k1"]) :=
  (GetCached_bloom_rejection (managerOf demoRemote)
    { demoOption Remote WriteRemoteOnly plainCodec with bloomFilter := true }
    (fun _ => ("v1", none)) [("fb", none)] demoApp "remoteCache" demoRemote
    emptyRemote emptyRemote "" (NewErrRejectedByBloomFilter "k1")
    (NewErrRejectedByBloomFilter "k1") rfl rfl rfl rfl rfl rfl rfl).1

/-- C4: for a valid option with caching enabled whose level resolves to the
cache `cache`: if the cache `Get` returns an error on whose unwrap chain
`errors.As` finds the `ErrCircuitBreakerOpen` value `c`, `GetCached` returns
the pair of the first fallback when one is supplied, and the zero value with
`c` otherwise; the calls it makes are the cache `Get` and, when supplied, the
fallback: no loader and no `Set`, and the cache is left as `Get` left it. -/
theorem GetCached_breaker_open (gm : GlobalManager σ R) (co : CacheOption R)
    (loader : Context → R × Option GoError) (fallback : List (R × Option GoError))
    (app : IContext) (name : String) (cache : Cache σ R)
    (s s1 : σ) (j0 : String) (e c : GoError)
    (hvalid : co.Valid = none) (henabled : co.IsCache = true)
    (happ : co.AppCtx = some app)
    (hname : cacheInstanceKey app co.cacheLevel = some name)
    (hinst : gm.caches name = some cache)
    (hget : cache.Get co.cacheKey co s = (.returned (j0, some e), s1))
    (hopen : asErrCircuitBreakerOpen e = some c) :
    GetCached gm co loader fallback s
      = (match fallback with
         | fb :: _ => (.returned fb, s1, [.cacheGet co.cacheKey, .fallback])
         | [] => (.returned (default, some c), s1, [.cacheGet co.cacheKey])) ∧
    (∃ msg, c = .ErrCircuitBreakerOpen msg) := by
  simp only [CacheOption.IsCache] at henabled
  have hbloom := asErrRejectedByBloomFilter_of_open e c hopen
  refine ⟨?_, asErrCircuitBreakerOpen_isOpen e c hopen⟩
  cases fallback <;>
    simp [GetCached, GetMustInstance, CacheOption.IsCache, CacheOption.GetContext,
      CacheOption.GetCacheLevel, CacheOption.GetCacheKey,
      hvalid, henabled, happ, hname, hinst, hget, hbloom, hopen]

/-- Witness of C4: the remote cache behind an open breaker, with a fallback
and without one. -/
theorem GetCached_breaker_open_witness :
    GetCached (managerOf demoRemoteOpen)
        { demoOption Remote WriteRemoteOnly plainCodec with circuitBreaker := true }
        (fun _ => ("v1", none)) [("fb", none)] emptyRemote
      = (.returned ("fb", none), emptyRemote, [.cacheGet "k1", .fallback]) ∧
    GetCached (managerOf demoRemoteOpen)
        { demoOption Remote WriteRemoteOnly plainCodec with circuitBreaker := true }
        (fun _ => ("v1", none)) [] emptyRemote
      = (.returned ("", some (NewErrCircuitBreakerOpen "circuit breaker is open")),
          emptyRemote, [.cacheGet "k1"]) :=
  ⟨(GetCached_breaker_open (managerOf demoRemoteOpen)
      { demoOption Remote WriteRemoteOnly plainCodec with circuitBreaker := true }
      (fun _ => ("v1", none)) [("fb", none)] demoApp "remoteCache" demoRemoteOpen
      emptyRemote emptyRemote "" (NewErrCircuitBreakerOpen "circuit breaker is open")
      (NewErrCircuitBreakerOpen "circuit breaker is open") rfl rfl rfl rfl rfl rfl rfl).1,
   (GetCached_breaker_open (managerOf demoRemoteOpen)
      { demoOption Remote WriteRemoteOnly plainCodec with circuitBreaker := true }
      (fun _ => ("v1", none)) [] demoApp "remoteCache" demoRemoteOpen
      emptyRemote emptyRemote "" (NewErrCircuitBreakerOpen "circuit breaker is open")
      (NewErrCircuitBreakerOpen "circuit breaker is open") rfl rfl rfl rfl rfl rfl rfl).1⟩

/-- C6: for every option whose `Valid()` returns the error `e`, with caching
enabled or not, `GetCached` returns the zero value with `e`, makes no call at
all (no loader, no fallback, no cache operation) and leaves the caches as they
were. -/
theorem GetCached_invalid_option (gm : GlobalManager σ R) (co : CacheOption R)
    (loader : Context → R × Option GoError) (fallback : List (R × Option GoError))
    (s : σ) (e : GoError) (hvalid : co.Valid = some e) :
    GetCached gm co loader fallback s = (.returned (default, some e), s, []) := by
  simp [GetCached, hvalid]

/-- Witness of C6: an option without a cache level, with caching enabled and
with caching disabled. -/
theorem GetCached_invalid_option_witness :
    GetCached (managerOf demoLocal) (NewCacheOption (some demoApp))
        (fun _ => ("v1", none)) [("fb", none)] emptyLocal
      = (.returned ("", some (.errorf "invalid cache level: 0, must be one of [1, 2, 3]")),
          emptyLocal, []) ∧
    GetCached (managerOf demoLocal)
        { (NewCacheOption (some demoApp) : CacheOption String) with enable := false }
        (fun _ => ("v1", none)) [("fb", none)] emptyLocal
      = (.returned ("", some (.errorf "invalid cache level: 0, must be one of [1, 2, 3]")),
          emptyLocal, []) :=
  ⟨GetCached_invalid_option (managerOf demoLocal) (NewCacheOption (some demoApp))
      (fun _ => ("v1", none)) [("fb", none)] emptyLocal
      (.errorf "invalid cache level: 0, must be one of [1, 2, 3]") rfl,
   GetCached_invalid_option (managerOf demoLocal)
      { (NewCacheOption (some demoApp) : CacheOption String) with enable := false }
      (fun _ => ("v1", none)) [("fb", none)] emptyLocal
      (.errorf "invalid cache level: 0, must be one of [1, 2, 3]") rfl⟩

/-- C5, as the claim states it, fails on the remote cache with bloom
protection on: the serializer inverts itself on `v1`, the cache returns what
`Set` wrote, the cache is empty, and still `GetCached` with a loader that
returns `("v1", nil)` gives the zero value with an `ErrRejectedByBloomFilter`,
without calling the loader or `Set`. -/
theorem GetCached_population_counterexample :
    plainCodec.Unmarshal (plainCodec.Marshal "v1").1 "" = ("v1", none) ∧
    (demoRemote.Get "k1"
        { demoOption Remote WriteRemoteOnly plainCodec with bloomFilter := true }
        (demoRemote.Set "k1" (.str "v1")
          { demoOption Remote WriteRemoteOnly plainCodec with bloomFilter := true }
          emptyRemote).2).1 = .returned ("v1", none) ∧
    emptyRemote.1.Client = [] ∧
    GetCached (managerOf demoRemote)
        { demoOption Remote WriteRemoteOnly plainCodec with bloomFilter := true }
        (fun _ => ("v1", none)) [] emptyRemote
      = (.returned ("", some (NewErrRejectedByBloomFilter "k1")), emptyRemote,
          [.cacheGet "k1"]) ∧
    (GetCached (managerOf demoRemote)
        { demoOption Remote WriteRemoteOnly plainCodec with bloomFilter := true }
        (fun _ => ("v1", none)) [] emptyRemote).1 ≠ .returned ("v1", none) := by
  refine ⟨rfl, rfl, rfl, rfl, ?_⟩
  decide

/-- C5 amended: with a serializer whose `Unmarshal` inverts `Marshal` on `v`
and a cache that returns what `Set` wrote: when the `Get` on the empty cache
reports the miss by an error that is neither an `ErrRejectedByBloomFilter` nor
an `ErrCircuitBreakerOpen`, `GetCached` with a loader returning `(v, nil)`
returns `(v, nil)` and leaves the cache as `Set` left it, and a second
`GetCached` with the same option returns `(v, nil)` with only a cache `Get`
and an `Unmarshal`: its loader is not called. -/
theorem GetCached_population_then_hit (gm : GlobalManager σ R) (co : CacheOption R)
    (loader loader2 : Context → R × Option GoError)
    (fallback fallback2 : List (R × Option GoError))
    (app : IContext) (name : String) (cache : Cache σ R) (jw : JsonWrapper R)
    (s s1 s2 s3 : σ) (j0 : String) (e : GoError) (v : R) (jsonBytes : String)
    (hvalid : co.Valid = none) (henabled : co.IsCache = true)
    (happ : co.AppCtx = some app)
    (hname : cacheInstanceKey app co.cacheLevel = some name)
    (hinst : gm.caches name = some cache)
    (hjw : co.GetJsonWrapper gm.jsonCodecs = .returned jw)
    (hmarshal : jw.Marshal v = (jsonBytes, none))
    (hinverse : jw.Unmarshal jsonBytes default = (v, none))
    (hmiss : cache.Get co.cacheKey co s = (.returned (j0, some e), s1))
    (hbloom : asErrRejectedByBloomFilter e = none)
    (hopen : asErrCircuitBreakerOpen e = none)
    (hload : loader co.ctx = (v, none))
    (hset : cache.Set co.cacheKey (.str jsonBytes) co s1 = (.returned none, s2))
    (hstored : cache.Get co.cacheKey co s2 = (.returned (jsonBytes, none), s3)) :
    GetCached gm co loader fallback s
      = (.returned (v, none), s2,
          [.cacheGet co.cacheKey, .loader co.ctx, .marshal,
           .cacheSet co.cacheKey (.str jsonBytes)]) ∧
    GetCached gm co loader2 fallback2 s2
      = (.returned (v, none), s3, [.cacheGet co.cacheKey, .unmarshal]) := by
  simp only [CacheOption.IsCache] at henabled
  constructor
  · simp [GetCached, GetMustInstance, CacheOption.IsCache, CacheOption.GetContext,
      CacheOption.GetCacheLevel, CacheOption.GetCacheKey, CacheOption.GetContextCtx,
      hvalid, henabled, happ, hname, hinst, hmiss, hbloom, hopen, hload, hjw, hmarshal, hset]
  · simp [GetCached, GetMustInstance, CacheOption.IsCache, CacheOption.GetContext,
      CacheOption.GetCacheLevel, CacheOption.GetCacheKey,
      hvalid, henabled, happ, hname, hinst, hjw, hstored, hinverse]

/-- Witness of C5 amended: the local cache over a store that keeps every write;
the second call has a loader that fails. -/
theorem GetCached_population_then_hit_witness :
    GetCached (managerOf demoLocal) (demoOption Local WriteBoth plainCodec)
        (fun _ => ("v1", none)) [] emptyLocal
      = (.returned ("v1", none),
          ({ client := [("k1", "v1")], closed := false, level := Local }, []),
          [.cacheGet "k1", .loader none, .marshal, .cacheSet "k1" (.str "v1")]) ∧
    GetCached (managerOf demoLocal) (demoOption Local WriteBoth plainCodec)
        (fun _ => ("", some (.errorf "loader called"))) []
        ({ client := [("k1", "v1")], closed := false, level := Local }, [])
      = (.returned ("v1", none),
          ({ client := [("k1", "v1")], closed := false, level := Local }, []),
          [.cacheGet "k1", .unmarshal]) :=
  GetCached_population_then_hit (managerOf demoLocal) (demoOption Local WriteBoth plainCodec)
    (fun _ => ("v1", none)) (fun _ => ("", some (.errorf "loader called"))) [] []
    demoApp "localCache" demoLocal plainCodec
    emptyLocal emptyLocal
    ({ client := [("k1", "v1")], closed := false, level := Local }, [])
    ({ client := [("k1", "v1")], closed := false, level := Local }, [])
    "" .ErrKeyNotFound "v1" "v1"
    rfl rfl rfl rfl rfl rfl rfl rfl rfl rfl rfl rfl rfl rfl

end CacheAside

end Fiberhouse

namespace Fiberhouse

section Closing

variable {ρ ρ2 β κ τL τR R : Type}

theorem runLocalTask_flags (L : Cache τL R) (l2c : Level2Cache τL τR R) :
    (Level2Cache.runLocalTask L l2c).1.closed = l2c.closed ∧
    (Level2Cache.runLocalTask L l2c).1.stopCh = l2c.stopCh := by
  unfold Level2Cache.runLocalTask
  cases l2c.localPool.tasks with
  | nil => exact ⟨rfl, rfl⟩
  | cons t rest =>
    simp only
    split <;> exact ⟨rfl, rfl⟩

theorem runRemoteTask_flags (Rm : Cache τR R) (l2c : Level2Cache τL τR R) :
    (Level2Cache.runRemoteTask Rm l2c).1.closed = l2c.closed ∧
    (Level2Cache.runRemoteTask Rm l2c).1.stopCh = l2c.stopCh := by
  unfold Level2Cache.runRemoteTask
  cases l2c.remotePool.tasks with
  | nil => exact ⟨rfl, rfl⟩
  | cons t rest =>
    simp only
    split <;> exact ⟨rfl, rfl⟩

theorem runLocalTasks_flags (L : Cache τL R) (n : Nat) (l2c : Level2Cache τL τR R) :
    (Level2Cache.runLocalTasks L n l2c).1.closed = l2c.closed ∧
    (Level2Cache.runLocalTasks L n l2c).1.stopCh = l2c.stopCh := by
  induction n generalizing l2c with
  | zero => exact ⟨rfl, rfl⟩
  | succ n ih =>
    have h1 := runLocalTask_flags L l2c
    have h2 := ih (Level2Cache.runLocalTask L l2c).1
    simp only [Level2Cache.runLocalTasks]
    exact ⟨h2.1.trans h1.1, h2.2.trans h1.2⟩

theorem runRemoteTasks_flags (Rm : Cache τR R) (n : Nat) (l2c : Level2Cache τL τR R) :
    (Level2Cache.runRemoteTasks Rm n l2c).1.closed = l2c.closed ∧
    (Level2Cache.runRemoteTasks Rm n l2c).1.stopCh = l2c.stopCh := by
  induction n generalizing l2c with
  | zero => exact ⟨rfl, rfl⟩
  | succ n ih =>
    have h1 := runRemoteTask_flags Rm l2c
    have h2 := ih (Level2Cache.runRemoteTask Rm l2c).1
    simp only [Level2Cache.runRemoteTasks]
    exact ⟨h2.1.trans h1.1, h2.2.trans h1.2⟩

/-- The method `Close` of the two-level cache never sets the flag `closed`: on
a cache that is not closed it leaves `closed` false and the channel `stopCh`
closed, whether it returns or panics. -/
theorem Level2Cache_Close_flags (L : Cache τL R) (Rm : Cache τR R) (n1 n2 : Nat)
    (l2c : Level2Cache τL τR R) (h : l2c.closed = false) :
    (Level2Cache.Close L Rm n1 n2 l2c).2.1.closed = false ∧
    (Level2Cache.Close L Rm n1 n2 l2c).2.1.stopCh = true := by
  unfold Level2Cache.Close
  rw [if_neg (by simp [h])]
  by_cases hs : l2c.stopCh = true
  · rw [if_pos hs]
    exact ⟨h, hs⟩
  · rw [if_neg hs]
    have hl := runLocalTasks_flags L n1 { l2c with stopCh := true }
    have hr := runRemoteTasks_flags Rm n2
      (Level2Cache.runLocalTasks L n1 { l2c with stopCh := true }).1
    have hc : (Level2Cache.runRemoteTasks Rm n2
        (Level2Cache.runLocalTasks L n1 { l2c with stopCh := true }).1).1.closed = false := by
      rw [hr.1, hl.1]
      exact h
    have hst : (Level2Cache.runRemoteTasks Rm n2
        (Level2Cache.runLocalTasks L n1 { l2c with stopCh := true }).1).1.stopCh = true := by
      rw [hr.2, hl.2]
    simp only []
    split
    · exact ⟨hc, hst⟩
    · split
      · exact ⟨hc, hst⟩
      · split <;> exact ⟨hc, hst⟩

/-- C7 (the code breaks the claim on the two-level cache): a second `Close()`
returns nil on the local cache and `ErrCacheClosed` on the remote cache, but
on a two-level cache built by `NewLevel2Cache` it panics, whatever the tiers
are: the first `Close()` closes the channel `stopCh` and leaves `closed` false,
so the second closes the channel again. On the two-level cache over the local
and the remote cache the first `Close()` returns nil. -/
theorem Close_second_call (rs : Ristretto ρ) (lc : LocalCache ρ) (rc : RedisClient ρ2)
    (rd : RedisDb ρ2 β κ) (L : Cache τL R) (Rm : Cache τR R) (localC : τL) (remoteC : τR)
    (localSize remoteSize : Nat) (pool : OptionPool R) (n1 n2 n3 n4 : Nat) :
    (LocalCache.Close rs (LocalCache.Close rs lc).2).1 = none ∧
    (RedisDb.Close rc (RedisDb.Close rc rd).2).1 = some .ErrCacheClosed ∧
    (Level2Cache.Close L Rm n3 n4
      (Level2Cache.Close L Rm n1 n2
        (NewLevel2Cache localC remoteC localSize remoteSize pool)).2.1).1
      = .panicked "close of closed channel" ∧
    (Level2Cache.Close demoLocal demoRemote 0 0 demoLevel2).1 = .returned none ∧
    (Level2Cache.Close demoLocal demoRemote 0 0
      (Level2Cache.Close demoLocal demoRemote 0 0 demoLevel2).2.1).1
      = .panicked "close of closed channel" := by
  have hf := Level2Cache_Close_flags L Rm n1 n2
    (NewLevel2Cache localC remoteC localSize remoteSize pool) rfl
  refine ⟨?_, ?_, ?_, rfl, rfl⟩
  · unfold LocalCache.Close
    by_cases h : lc.closed = true <;> simp [h]
  · unfold RedisDb.Close
    by_cases h : rd.closed = true <;> simp [h]
  · generalize (Level2Cache.Close L Rm n1 n2
      (NewLevel2Cache localC remoteC localSize remoteSize pool)).2.1 = l2c1 at hf
    simp [Level2Cache.Close, hf.1, hf.2]

theorem OptionPoolGet_New (ctx : Option IContext) (p : OptionPool R) :
    ∃ x, (OptionPoolGet ctx p).2.New = some x := by
  unfold OptionPoolGet
  cases p.free <;> exact ⟨_, rfl⟩

theorem Clone_New (c : CacheOption R) (ctx : List Context) (p : OptionPool R) :
    ∃ x, (c.Clone ctx p).2.New = some x := by
  simp only [CacheOption.Clone]
  exact OptionPoolGet_New c.AppCtx p

/-- Once the channel `stopCh` is closed, `asyncSetRemote` gives the option back
to the pool and returns without submitting a task. -/
theorem asyncSetRemote_stopped (key : String) (value : AnyValue R) (co : CacheOption R)
    (l2c : Level2Cache τL τR R) (x : Option IContext) (hs : l2c.stopCh = true)
    (hp : l2c.optionsPool.New = some x) :
    ∃ l2c1, Level2Cache.asyncSetRemote key value co l2c = (.returned (), l2c1, []) ∧
      l2c1.stopCh = true ∧ l2c1.closed = l2c.closed ∧ l2c1.optionsPool.New = some x ∧
      l2c1.remotePool = l2c.remotePool ∧ l2c1.remoteC = l2c.remoteC := by
  simp [Level2Cache.asyncSetRemote, hs, CacheOption.Release, OptionPoolPut, hp]

/-- Once the channel `stopCh` is closed, `asyncSetLocal` gives the option back
to the pool and returns without submitting a task. -/
theorem asyncSetLocal_stopped (key : String) (value : AnyValue R) (co : CacheOption R)
    (l2c : Level2Cache τL τR R) (x : Option IContext) (hs : l2c.stopCh = true)
    (hp : l2c.optionsPool.New = some x) :
    ∃ l2c1, Level2Cache.asyncSetLocal key value co l2c = (.returned (), l2c1, []) ∧
      l2c1.stopCh = true ∧ l2c1.closed = l2c.closed ∧ l2c1.optionsPool.New = some x ∧
      l2c1.localPool = l2c.localPool ∧ l2c1.localC = l2c.localC := by
  simp [Level2Cache.asyncSetLocal, hs, CacheOption.Release, OptionPoolPut, hp]

/-- On a two-level cache whose channel `stopCh` is closed and whose flag
`closed` is false, `Set` under `AsyncWriteRemoteOnly` returns nil. -/
theorem Level2Cache_Set_asyncRemote_stopped (L : Cache τL R) (Rm : Cache τR R) (key : String)
    (value : AnyValue R) (co : CacheOption R) (l2c : Level2Cache τL τR R)
    (hc : l2c.closed = false) (hs : l2c.stopCh = true)
    (hst : co.syncStrategy = AsyncWriteRemoteOnly) :
    (Level2Cache.Set L Rm key value co l2c).1 = .returned none := by
  obtain ⟨x, hx⟩ := Clone_New co [] l2c.optionsPool
  obtain ⟨l2c1, h1, -⟩ := asyncSetRemote_stopped key value (co.Clone [] l2c.optionsPool).1
    { l2c with optionsPool := (co.Clone [] l2c.optionsPool).2 } x hs hx
  unfold Level2Cache.Set
  simp only [hc, CacheOption.GetSyncStrategy, hst] at h1 ⊢
  simp [WriteBoth, WriteRemoteOnly, AsyncWriteBoth, AsyncWriteRemoteOnly, h1]

/-- On a two-level cache whose channel `stopCh` is closed and whose flag
`closed` is false, `Set` under `AsyncWriteBoth` returns nil. -/
theorem Level2Cache_Set_asyncBoth_stopped (L : Cache τL R) (Rm : Cache τR R) (key : String)
    (value : AnyValue R) (co : CacheOption R) (l2c : Level2Cache τL τR R)
    (hc : l2c.closed = false) (hs : l2c.stopCh = true)
    (hst : co.syncStrategy = AsyncWriteBoth) :
    (Level2Cache.Set L Rm key value co l2c).1 = .returned none := by
  obtain ⟨x, hx⟩ := Clone_New co [] l2c.optionsPool
  obtain ⟨l2c1, h1, hs1, -, -, -⟩ := asyncSetLocal_stopped key value
    (co.Clone [] l2c.optionsPool).1
    { l2c with optionsPool := (co.Clone [] l2c.optionsPool).2 } x hs hx
  obtain ⟨y, hy⟩ := Clone_New co [] l2c1.optionsPool
  obtain ⟨l2c2, h2, -⟩ := asyncSetRemote_stopped key value (co.Clone [] l2c1.optionsPool).1
    { l2c1 with optionsPool := (co.Clone [] l2c1.optionsPool).2 } y hs1 hy
  unfold Level2Cache.Set
  simp only [hc, CacheOption.GetSyncStrategy, hst] at h1 ⊢
  simp [WriteBoth, WriteRemoteOnly, AsyncWriteBoth, h1, h2]

/-- C8 (the code breaks the claim on the two-level cache): after `Close()`
every `Get`, `Set`, `Delete` and `Wait` of the local cache and of the remote
cache returns `ErrCacheClosed`; but on a two-level cache built by
`NewLevel2Cache`, after `Close()`, `Wait()` returns nil (over a local and a
remote cache as tiers) and `Set` under `AsyncWriteRemoteOnly` and under
`AsyncWriteBoth` returns nil (over any tiers), because `Close()` leaves the
flag `closed` false. -/
theorem operations_after_Close (rs : Ristretto ρ) (lc : LocalCache ρ) (rc : RedisClient ρ2)
    (bf : CacheBloomFilter β) (cb : CacheCircuitBreaker κ ρ2) (rd : RedisDb ρ2 β κ)
    (jsonCodecs : String → Option (JsonWrapper R)) (key : String) (keys : List String)
    (value : AnyValue R) (co : CacheOption R) (r : Rand)
    (L : Cache τL R) (Rm : Cache τR R) (localC : τL) (remoteC : τR)
    (lc0 : LocalCache ρ × Rand) (rd0 : RedisDb ρ2 β κ × Rand)
    (localSize remoteSize : Nat) (pool : OptionPool R) (n1 n2 : Nat) :
    ((LocalCache.Get rs key co (LocalCache.Close rs lc).2).1 = ("", some .ErrCacheClosed) ∧
     (LocalCache.Set rs jsonCodecs key value co (LocalCache.Close rs lc).2 r).1
        = .returned (some .ErrCacheClosed) ∧
     (LocalCache.Delete rs keys (LocalCache.Close rs lc).2).1 = some .ErrCacheClosed ∧
     (LocalCache.Wait rs (LocalCache.Close rs lc).2).1 = some .ErrCacheClosed) ∧
    ((RedisDb.Get rc bf cb key co (RedisDb.Close rc rd).2).1 = ("", some .ErrCacheClosed) ∧
     (RedisDb.Set rc bf jsonCodecs key value co (RedisDb.Close rc rd).2 r).1
        = .returned (some .ErrCacheClosed) ∧
     (RedisDb.Delete rc keys (RedisDb.Close rc rd).2).1 = some .ErrCacheClosed ∧
     (RedisDb.Wait (RedisDb.Close rc rd).2).1 = some .ErrCacheClosed) ∧
    (Level2Cache.Wait (LocalCache.asCache rs jsonCodecs) (RedisDb.asCache rc bf cb jsonCodecs)
      (Level2Cache.Close (LocalCache.asCache rs jsonCodecs)
        (RedisDb.asCache rc bf cb jsonCodecs) n1 n2
        (NewLevel2Cache lc0 rd0 localSize remoteSize pool)).2.1).1 = .returned none ∧
    (Level2Cache.Set L Rm key value { co with syncStrategy := AsyncWriteRemoteOnly }
      (Level2Cache.Close L Rm n1 n2
        (NewLevel2Cache localC remoteC localSize remoteSize pool)).2.1).1 = .returned none ∧
    (Level2Cache.Set L Rm key value { co with syncStrategy := AsyncWriteBoth }
      (Level2Cache.Close L Rm n1 n2
        (NewLevel2Cache localC remoteC localSize remoteSize pool)).2.1).1 = .returned none := by
  have hlc : (LocalCache.Close rs lc).2.closed = true := by
    unfold LocalCache.Close
    by_cases h : lc.closed = true <;> simp [h]
  have hrd : (RedisDb.Close rc rd).2.closed = true := by
    unfold RedisDb.Close
    by_cases h : rd.closed = true <;> simp [h]
  refine ⟨⟨?_, ?_, ?_, ?_⟩, ⟨?_, ?_, ?_, ?_⟩, ?_, ?_, ?_⟩
  · simp [LocalCache.Get, hlc]
  · simp [LocalCache.Set, hlc]
  · simp [LocalCache.Delete, hlc]
  · simp [LocalCache.Wait, hlc]
  · simp [RedisDb.Get, hrd]
  · simp [RedisDb.Set, hrd]
  · simp [RedisDb.Delete, hrd]
  · simp [RedisDb.Wait, hrd]
  · have hf := Level2Cache_Close_flags (LocalCache.asCache rs jsonCodecs)
      (RedisDb.asCache rc bf cb jsonCodecs) n1 n2
      (NewLevel2Cache lc0 rd0 localSize remoteSize pool) rfl
    generalize (Level2Cache.Close (LocalCache.asCache rs jsonCodecs)
      (RedisDb.asCache rc bf cb jsonCodecs) n1 n2
      (NewLevel2Cache lc0 rd0 localSize remoteSize pool)).2.1 = l2c1 at hf
    simp [Level2Cache.Wait, hf.1, LocalCache.asCache, RedisDb.asCache]
  · have hf := Level2Cache_Close_flags L Rm n1 n2
      (NewLevel2Cache localC remoteC localSize remoteSize pool) rfl
    generalize (Level2Cache.Close L Rm n1 n2
      (NewLevel2Cache localC remoteC localSize remoteSize pool)).2.1 = l2c1 at hf
    exact Level2Cache_Set_asyncRemote_stopped L Rm key value _ l2c1 hf.1 hf.2 rfl
  · have hf := Level2Cache_Close_flags L Rm n1 n2
      (NewLevel2Cache localC remoteC localSize remoteSize pool) rfl
    generalize (Level2Cache.Close L Rm n1 n2
      (NewLevel2Cache localC remoteC localSize remoteSize pool)).2.1 = l2c1 at hf
    exact Level2Cache_Set_asyncBoth_stopped L Rm key value _ l2c1 hf.1 hf.2 rfl

end Closing

end Fiberhouse

namespace Fiberhouse

section Tiered

variable {τL τR R : Type}

/-- C9: on a two-level cache that is not closed, `Set` under `WriteBoth`, when
the two tier writes return `lerr` and `rerr`: both writes are made, each tier
is left exactly as its own `Set` left it (nothing is rolled back, so whatever
a tier's `Get` returns after its own write it returns after the two-level
`Set`), and the result is nil if and only if both writes returned nil. -/
theorem Level2Cache_Set_WriteBoth (L : Cache τL R) (Rm : Cache τR R) (key : String)
    (value : AnyValue R) (co : CacheOption R) (l2c : Level2Cache τL τR R)
    (lerr rerr : Option GoError) (ls : τL) (rs : τR)
    (hopen : l2c.closed = false) (hst : co.syncStrategy = WriteBoth)
    (hl : L.Set key value co l2c.localC = (.returned lerr, ls))
    (hr : Rm.Set key value co l2c.remoteC = (.returned rerr, rs)) :
    ∃ res, Level2Cache.Set L Rm key value co l2c
        = (.returned res, { l2c with localC := ls, remoteC := rs },
            [.localSet key value, .remoteSet key value]) ∧
      (res = none ↔ lerr = none ∧ rerr = none) ∧
      (∀ key2 co2, L.Get key2 co2 (Level2Cache.Set L Rm key value co l2c).2.1.localC
        = L.Get key2 co2 (L.Set key value co l2c.localC).2) ∧
      (∀ key2 co2, Rm.Get key2 co2 (Level2Cache.Set L Rm key value co l2c).2.1.remoteC
        = Rm.Get key2 co2 (Rm.Set key value co l2c.remoteC).2) := by
  have hset : Level2Cache.Set L Rm key value co l2c
      = (if (lerr.toList ++ rerr.toList).length > 0 then
          .returned (some (.errorf ("cache set errors: "
            ++ formatErrors (lerr.toList ++ rerr.toList))))
         else .returned none,
         { l2c with localC := ls, remoteC := rs },
         [.localSet key value, .remoteSet key value]) := by
    unfold Level2Cache.Set
    simp only [hopen, CacheOption.GetSyncStrategy, hst, hl, hr]
    split_ifs <;> simp_all
  cases lerr <;> cases rerr <;> simp [hset, hl, hr]

/-- Witness of C9: the local write succeeds and the remote backend is down
(the value stays readable from the local tier), and the local store drops the
write while the remote write succeeds (the value stays readable from the
remote tier). -/
theorem Level2Cache_Set_WriteBoth_witness :
    (∃ res, Level2Cache.Set demoLocal demoRemoteDown "k1" (.str "v1")
          (demoOption Level2 WriteBoth plainCodec) demoLevel2
        = (.returned res, { demoLevel2 with localC := filledLocal, remoteC := emptyRemote },
            [.localSet "k1" (.str "v1"), .remoteSet "k1" (.str "v1")]) ∧
      (res = none ↔ (none : Option GoError) = none
        ∧ some (GoError.errorf "dial tcp: connection refused") = none) ∧
      (∀ key2 co2, demoLocal.Get key2 co2
          (Level2Cache.Set demoLocal demoRemoteDown "k1" (.str "v1")
            (demoOption Level2 WriteBoth plainCodec) demoLevel2).2.1.localC
        = demoLocal.Get key2 co2 (demoLocal.Set "k1" (.str "v1")
            (demoOption Level2 WriteBoth plainCodec) demoLevel2.localC).2) ∧
      (∀ key2 co2, demoRemoteDown.Get key2 co2
          (Level2Cache.Set demoLocal demoRemoteDown "k1" (.str "v1")
            (demoOption Level2 WriteBoth plainCodec) demoLevel2).2.1.remoteC
        = demoRemoteDown.Get key2 co2 (demoRemoteDown.Set "k1" (.str "v1")
            (demoOption Level2 WriteBoth plainCodec) demoLevel2.remoteC).2)) ∧
    (Level2Cache.Set demoLocal demoRemoteDown "k1" (.str "v1")
        (demoOption Level2 WriteBoth plainCodec) demoLevel2).1
      = .returned (some (.errorf "cache set errors: [dial tcp: connection refused]")) ∧
    (demoLocal.Get "k1" (demoOption Level2 WriteBoth plainCodec)
        (Level2Cache.Set demoLocal demoRemoteDown "k1" (.str "v1")
          (demoOption Level2 WriteBoth plainCodec) demoLevel2).2.1.localC).1
      = .returned ("v1", none) ∧
    (Level2Cache.Set demoLocalDropping demoRemote "k1" (.str "v1")
        (demoOption Level2 WriteBoth plainCodec) demoLevel2).1
      = .returned (some (.errorf
          "cache set errors: [cache set operation failed for key 'k1': failed to set cache item]")) ∧
    (demoRemote.Get "k1" (demoOption Level2 WriteBoth plainCodec)
        (Level2Cache.Set demoLocalDropping demoRemote "k1" (.str "v1")
          (demoOption Level2 WriteBoth plainCodec) demoLevel2).2.1.remoteC).1
      = .returned ("v1", none) :=
  ⟨Level2Cache_Set_WriteBoth demoLocal demoRemoteDown "k1" (.str "v1")
      (demoOption Level2 WriteBoth plainCodec) demoLevel2
      none (some (.errorf "dial tcp: connection refused")) filledLocal emptyRemote
      rfl rfl rfl rfl,
   rfl, rfl, rfl, rfl⟩

/-- C10: on a two-level cache that is not closed, `Get` for a key: when the
local `Get` succeeds its value is returned and the only call is the local
`Get` (the remote tier is not asked); when the local `Get` fails and the
remote `Get` fails, the error of the remote tier is returned and the local
tier is not written; when the local `Get` fails and the remote `Get` returns
`v` under `WriteBoth` or `WriteRemoteOnly`, `Set(key, v)` is made on the local
tier and `Get` returns `(v, nil)` whatever that write returns (`serr`). -/
theorem Level2Cache_Get_tiers (L : Cache τL R) (Rm : Cache τR R) (key : String)
    (co : CacheOption R) (l2c : Level2Cache τL τR R) (hopen : l2c.closed = false) :
    (∀ v ls, L.Get key co l2c.localC = (.returned (v, none), ls) →
      Level2Cache.Get L Rm key co l2c
        = (.returned (v, none), { l2c with localC := ls }, [.localGet key])) ∧
    (∀ x e ls y e2 rs, L.Get key co l2c.localC = (.returned (x, some e), ls) →
      Rm.Get key co l2c.remoteC = (.returned (y, some e2), rs) →
      Level2Cache.Get L Rm key co l2c
        = (.returned ("", some e2), { l2c with localC := ls, remoteC := rs },
            [.localGet key, .remoteGet key])) ∧
    (∀ x e ls v rs serr ls2, L.Get key co l2c.localC = (.returned (x, some e), ls) →
      Rm.Get key co l2c.remoteC = (.returned (v, none), rs) →
      (co.syncStrategy = WriteBoth ∨ co.syncStrategy = WriteRemoteOnly) →
      L.Set key (.str v) co ls = (.returned serr, ls2) →
      Level2Cache.Get L Rm key co l2c
        = (.returned (v, none), { l2c with localC := ls2, remoteC := rs },
            [.localGet key, .remoteGet key, .localSet key (.str v)]
              ++ serr.toList.map (fun _ => .log "getInternal: Set local error"))) := by
  refine ⟨?_, ?_, ?_⟩
  · intro v ls hl
    simp [Level2Cache.Get, Level2Cache.getInternal, hopen, hl]
  · intro x e ls y e2 rs hl hr
    simp [Level2Cache.Get, Level2Cache.getInternal, hopen, hl, hr]
  · intro x e ls v rs serr ls2 hl hr hst hs
    have hsync : ¬ (co.GetSyncStrategy = AsyncWriteBoth ∨
        co.GetSyncStrategy = AsyncWriteRemoteOnly) := by
      simp only [CacheOption.GetSyncStrategy]
      rcases hst with h | h <;> rw [h] <;> decide
    cases serr <;>
      simp [Level2Cache.Get, Level2Cache.getInternal, hopen, hl, hr, hsync, hs]

/-- Witness of C10: a local hit; a miss of both tiers; a remote hit written
back to a local store that keeps it; a remote hit whose write-back the local
store drops. -/
theorem Level2Cache_Get_tiers_witness :
    Level2Cache.Get demoLocal demoRemote "k1" (demoOption Level2 WriteBoth plainCodec)
        (level2Over filledLocal emptyRemote)
      = (.returned ("v1", none),
          { level2Over filledLocal emptyRemote with localC := filledLocal },
          [.localGet "k1"]) ∧
    Level2Cache.Get demoLocal demoRemote "k1" (demoOption Level2 WriteBoth plainCodec)
        demoLevel2
      = (.returned ("", some (NewErrRedisNil "k1")),
          { demoLevel2 with localC := emptyLocal, remoteC := emptyRemote },
          [.localGet "k1", .remoteGet "k1"]) ∧
    Level2Cache.Get demoLocal demoRemote "k1" (demoOption Level2 WriteRemoteOnly plainCodec)
        (level2Over emptyLocal filledRemote)
      = (.returned ("v1", none),
          { level2Over emptyLocal filledRemote with
            localC := filledLocal, remoteC := filledRemote },
          [.localGet "k1", .remoteGet "k1", .localSet "k1" (.str "v1")]) ∧
    Level2Cache.Get demoLocalDropping demoRemote "k1" (demoOption Level2 WriteBoth plainCodec)
        (level2Over emptyLocal filledRemote)
      = (.returned ("v1", none),
          { level2Over emptyLocal filledRemote with
            localC := emptyLocal, remoteC := filledRemote },
          [.localGet "k1", .remoteGet "k1", .localSet "k1" (.str "v1"),
           .log "getInternal: Set local error"]) :=
  ⟨(Level2Cache_Get_tiers demoLocal demoRemote "k1" (demoOption Level2 WriteBoth plainCodec)
      (level2Over filledLocal emptyRemote) rfl).1 "v1" filledLocal rfl,
   (Level2Cache_Get_tiers demoLocal demoRemote "k1" (demoOption Level2 WriteBoth plainCodec)
      demoLevel2 rfl).2.1 "" .ErrKeyNotFound emptyLocal "" (NewErrRedisNil "k1") emptyRemote
      rfl rfl,
   (Level2Cache_Get_tiers demoLocal demoRemote "k1"
      (demoOption Level2 WriteRemoteOnly plainCodec)
      (level2Over emptyLocal filledRemote) rfl).2.2 "" .ErrKeyNotFound emptyLocal "v1"
      filledRemote none filledLocal rfl rfl (Or.inr rfl) rfl,
   (Level2Cache_Get_tiers demoLocalDropping demoRemote "k1"
      (demoOption Level2 WriteBoth plainCodec)
      (level2Over emptyLocal filledRemote) rfl).2.2 "" .ErrKeyNotFound emptyLocal "v1"
      filledRemote (some (NewCacheError "set" "k1" (.errorf "failed to set cache item")))
      emptyLocal rfl rfl (Or.inl rfl) rfl⟩

end Tiered

end Fiberhouse

namespace Fiberhouse

section Options

variable {R : Type}

theorem wrap64_of_int64 (x : Int) (h1 : -2 ^ 63 ≤ x) (h2 : x < 2 ^ 63) : wrap64 x = x := by
  unfold wrap64
  omega

theorem wrap64_of_high (x : Int) (h1 : 2 ^ 63 ≤ x) (h2 : x < 2 ^ 64) :
    wrap64 x = x - 2 ^ 64 := by
  unfold wrap64
  omega

/-- With a positive range whose double fits `int64`, `calculateRandomTTL`
draws an offset `y - delta` with `0 <= y < 2 * delta` and returns the wrapped
sum, or the base when that sum is not positive. -/
theorem calculateRandomTTL_draw (base delta : Int) (r : Rand) (hd : 0 < delta)
    (h2 : delta * 2 < 2 ^ 63) :
    ∃ y, 0 ≤ y ∧ y < delta * 2 ∧ y = (r.headD 0 : Int) % wrap64 (delta * 2) ∧
      CacheOption.calculateRandomTTL
          (some { BaseTTL := base, RandomRange := delta, UseRandom := true }) r
        = (.returned (if wrap64 (base + (y - delta)) ≤ 0 then base
            else wrap64 (base + (y - delta))), r.tail) := by
  have hn : wrap64 (delta * 2) = delta * 2 := wrap64_of_int64 _ (by omega) h2
  refine ⟨(r.headD 0 : Int) % (delta * 2), Int.emod_nonneg _ (by omega),
    Int.emod_lt_of_pos _ (by omega), by rw [hn], ?_⟩
  have hy0 : 0 ≤ (r.headD 0 : Int) % (delta * 2) := Int.emod_nonneg _ (by omega)
  have hy1 : (r.headD 0 : Int) % (delta * 2) < delta * 2 := Int.emod_lt_of_pos _ (by omega)
  have hoff : wrap64 ((r.headD 0 : Int) % (delta * 2) - delta)
      = (r.headD 0 : Int) % (delta * 2) - delta :=
    wrap64_of_int64 _ (by omega) (by omega)
  have hpos : ¬ delta * 2 ≤ 0 := by omega
  have hnd : ¬ delta ≤ 0 := by omega
  simp only [CacheOption.calculateRandomTTL, Int63n, hn, hpos, hnd, hoff, Bool.not_true,
    Bool.false_or, decide_False, Bool.false_eq_true, if_false]
  split <;> simp_all

/-- When the double of the range overflows `int64`, `rand.Int63n` gets a
non-positive argument and `calculateRandomTTL` panics. -/
theorem calculateRandomTTL_overflow (base delta : Int) (r : Rand) (h1 : 2 ^ 63 ≤ delta * 2)
    (h2 : delta < 2 ^ 63) :
    ∃ msg, (CacheOption.calculateRandomTTL
        (some { BaseTTL := base, RandomRange := delta, UseRandom := true }) r).1
      = .panicked msg := by
  have hn : wrap64 (delta * 2) = delta * 2 - 2 ^ 64 := wrap64_of_high _ h1 (by omega)
  have hpos : delta * 2 - 2 ^ 64 ≤ 0 := by omega
  have hnd : ¬ delta ≤ 0 := by omega
  refine ⟨"invalid argument to Int63n", ?_⟩
  simp only [CacheOption.calculateRandomTTL, Int63n, hn, hnd, Bool.not_true, Bool.false_or,
    decide_False, Bool.false_eq_true, if_false]
  rw [if_pos hpos]

/-- Without a positive range `calculateRandomTTL` returns the base. -/
theorem calculateRandomTTL_fixed (base delta : Int) (r : Rand) (hd : delta ≤ 0) :
    CacheOption.calculateRandomTTL
        (some { BaseTTL := base, RandomRange := delta, UseRandom := true }) r
      = (.returned base, r) := by
  simp [CacheOption.calculateRandomTTL, hd]

theorem GetLocalTTL_random (c : CacheOption R) (base delta : Int) (r : Rand) :
    (c.SetLocalTTLWithRandom base delta).GetLocalTTL r
      = CacheOption.calculateRandomTTL
          (some { BaseTTL := base, RandomRange := delta, UseRandom := true }) r := by
  simp [CacheOption.GetLocalTTL, CacheOption.SetLocalTTLWithRandom]

theorem GetRemoteTTL_random (c : CacheOption R) (base delta : Int) (r : Rand) :
    (c.SetRemoteTTLWithRandom base delta).GetRemoteTTL r
      = CacheOption.calculateRandomTTL
          (some { BaseTTL := base, RandomRange := delta, UseRandom := true }) r := by
  simp [CacheOption.GetRemoteTTL, CacheOption.SetRemoteTTLWithRandom]

/-- The bounds of C14 for `calculateRandomTTL`, when `base - delta` does not
underflow `int64`. -/
theorem calculateRandomTTL_bounds (base delta : Int) (r : Rand) (ttl : Int)
    (hdelta : 0 ≤ delta) (hdmax : delta < 2 ^ 63) (hbmax : base < 2 ^ 63)
    (hlow : -2 ^ 63 ≤ base - delta)
    (h : (CacheOption.calculateRandomTTL
        (some { BaseTTL := base, RandomRange := delta, UseRandom := true }) r).1
      = .returned ttl) :
    base - delta ≤ ttl ∧ ttl ≤ base + delta := by
  by_cases hd : delta ≤ 0
  · rw [calculateRandomTTL_fixed base delta r hd] at h
    simp only [Outcome.returned.injEq] at h
    omega
  · by_cases h2 : delta * 2 < 2 ^ 63
    · obtain ⟨y, hy0, hy1, -, hcalc⟩ := calculateRandomTTL_draw base delta r (by omega) h2
      rw [hcalc] at h
      simp only [Outcome.returned.injEq] at h
      by_cases hs : base + (y - delta) < 2 ^ 63
      · rw [wrap64_of_int64 _ (by omega) hs] at h
        split_ifs at h <;> omega
      · rw [wrap64_of_high _ (by omega) (by omega)] at h
        split_ifs at h <;> omega
    · obtain ⟨msg, hp⟩ := calculateRandomTTL_overflow base delta r (by omega) hdmax
      rw [hp] at h
      cases h

/-- C14, as the claim states it, fails when `base - delta` underflows `int64`:
with base `-2^63`, delta `1` and the draw `0` the sum wraps to `2^63 - 1`, which
`GetLocalTTL` returns; it is above `base + delta`. -/
theorem GetLocalTTL_bounds_counterexample :
    (CacheOption.GetLocalTTL
      ((NewCacheOption none : CacheOption String).SetLocalTTLWithRandom (-2 ^ 63) 1) [0]).1
      = .returned (2 ^ 63 - 1) ∧
    ¬ ((2 : Int) ^ 63 - 1 ≤ -2 ^ 63 + 1) := by
  constructor
  · rfl
  · norm_num

/-- C14 amended: for every `int64` base and every `int64` delta `>= 0` such
that `base - delta` does not underflow `int64` (every base `>= 0` in
particular), after `SetLocalTTLWithRandom(base, delta)` every value that
`GetLocalTTL()` returns, for every state of the random source, lies in
`[base - delta, base + delta]`; likewise `SetRemoteTTLWithRandom` and
`GetRemoteTTL`. -/
theorem GetTTL_random_bounds (c : CacheOption R) (base delta : Int) (r : Rand) (ttl : Int)
    (hdelta : 0 ≤ delta) (hdmax : delta < 2 ^ 63) (hbmax : base < 2 ^ 63)
    (hlow : -2 ^ 63 ≤ base - delta) :
    (((c.SetLocalTTLWithRandom base delta).GetLocalTTL r).1 = .returned ttl →
      base - delta ≤ ttl ∧ ttl ≤ base + delta) ∧
    (((c.SetRemoteTTLWithRandom base delta).GetRemoteTTL r).1 = .returned ttl →
      base - delta ≤ ttl ∧ ttl ≤ base + delta) := by
  constructor
  · intro h
    rw [GetLocalTTL_random] at h
    exact calculateRandomTTL_bounds base delta r ttl hdelta hdmax hbmax hlow h
  · intro h
    rw [GetRemoteTTL_random] at h
    exact calculateRandomTTL_bounds base delta r ttl hdelta hdmax hbmax hlow h

/-- Witness of C14 amended: base two seconds, delta 600 milliseconds (in
nanoseconds), with the draw 7. -/
theorem GetTTL_random_bounds_witness :
    (CacheOption.GetLocalTTL ((NewCacheOption none : CacheOption String).SetLocalTTLWithRandom
        2000000000 600000000) [7]).1 = .returned 1400000007 ∧
    ((2000000000 : Int) - 600000000 ≤ 1400000007 ∧
      (1400000007 : Int) ≤ 2000000000 + 600000000) ∧
    (CacheOption.GetRemoteTTL ((NewCacheOption none : CacheOption String).SetRemoteTTLWithRandom
        2000000000 600000000) [7]).1 = .returned 1400000007 ∧
    ((2000000000 : Int) - 600000000 ≤ 1400000007 ∧
      (1400000007 : Int) ≤ 2000000000 + 600000000) :=
  ⟨rfl,
   (GetTTL_random_bounds (NewCacheOption none : CacheOption String) 2000000000 600000000 [7]
      1400000007 (by norm_num) (by norm_num) (by norm_num) (by norm_num)).1 rfl,
   rfl,
   (GetTTL_random_bounds (NewCacheOption none : CacheOption String) 2000000000 600000000 [7]
      1400000007 (by norm_num) (by norm_num) (by norm_num) (by norm_num)).2 rfl⟩

/-- Positivity for `calculateRandomTTL` with a positive base. -/
theorem calculateRandomTTL_pos (base range : Int) (r : Rand) (ttl : Int)
    (hbase : 0 < base) (hbmax : base < 2 ^ 63) (hrmin : -2 ^ 63 ≤ range) (hrmax : range < 2 ^ 63)
    (h : (CacheOption.calculateRandomTTL
        (some { BaseTTL := base, RandomRange := range, UseRandom := true }) r).1
      = .returned ttl) :
    0 < ttl ∧
    (0 < range → wrap64 (base + wrap64 ((r.headD 0 : Int) % wrap64 (range * 2) - range)) ≤ 0 →
      ttl = base) := by
  by_cases hd : range ≤ 0
  · rw [calculateRandomTTL_fixed base range r hd] at h
    simp only [Outcome.returned.injEq] at h
    exact ⟨by omega, fun hr => absurd hr (by omega)⟩
  · by_cases h2 : range * 2 < 2 ^ 63
    · obtain ⟨y, hy0, hy1, hy, hcalc⟩ := calculateRandomTTL_draw base range r (by omega) h2
      rw [hcalc] at h
      simp only [Outcome.returned.injEq] at h
      have hoff : wrap64 (y - range) = y - range := wrap64_of_int64 _ (by omega) (by omega)
      constructor
      · split_ifs at h <;> omega
      · intro _ hle
        rw [← hy, hoff] at hle
        rw [if_pos hle] at h
        exact h.symm
    · obtain ⟨msg, hp⟩ := calculateRandomTTL_overflow base range r (by omega) hrmax
      rw [hp] at h
      cases h

/-- C15, as the claim states it, fails for a base that is not positive: with
base `0`, range `5` and the draw `0` the sum is `-5`, and `GetLocalTTL` falls
back to the base `0`, which is not greater than `0`. -/
theorem GetLocalTTL_positive_counterexample :
    (CacheOption.GetLocalTTL
      ((NewCacheOption none : CacheOption String).SetLocalTTLWithRandom 0 5) [0]).1
      = .returned 0 ∧
    ¬ ((0 : Int) < 0) := by
  constructor
  · rfl
  · norm_num

/-- C15 amended: for every randomized TTL configuration with an `int64` base
`> 0` and any `int64` range, and for every state of the random source, the TTL
that `GetLocalTTL()` / `GetRemoteTTL()` returns is greater than `0`, and it is
the base whenever the range is positive and the base plus the drawn offset
(in `int64` arithmetic) is not positive. -/
theorem GetTTL_random_positive (c : CacheOption R) (base range : Int) (r : Rand) (ttl : Int)
    (hbase : 0 < base) (hbmax : base < 2 ^ 63) (hrmin : -2 ^ 63 ≤ range)
    (hrmax : range < 2 ^ 63) :
    (((c.SetLocalTTLWithRandom base range).GetLocalTTL r).1 = .returned ttl →
      0 < ttl ∧
      (0 < range →
        wrap64 (base + wrap64 ((r.headD 0 : Int) % wrap64 (range * 2) - range)) ≤ 0 →
        ttl = base)) ∧
    (((c.SetRemoteTTLWithRandom base range).GetRemoteTTL r).1 = .returned ttl →
      0 < ttl ∧
      (0 < range →
        wrap64 (base + wrap64 ((r.headD 0 : Int) % wrap64 (range * 2) - range)) ≤ 0 →
        ttl = base)) := by
  constructor
  · intro h
    rw [GetLocalTTL_random] at h
    exact calculateRandomTTL_pos base range r ttl hbase hbmax hrmin hrmax h
  · intro h
    rw [GetRemoteTTL_random] at h
    exact calculateRandomTTL_pos base range r ttl hbase hbmax hrmin hrmax h

/-- Witness of C15 amended: base 3, range 5, draw 0: the sum `-2` is not
positive and the base `3` is returned. -/
theorem GetTTL_random_positive_witness :
    (CacheOption.GetLocalTTL
      ((NewCacheOption none : CacheOption String).SetLocalTTLWithRandom 3 5) [0]).1
      = .returned 3 ∧
    (0 : Int) < 3 ∧
    (CacheOption.GetRemoteTTL
      ((NewCacheOption none : CacheOption String).SetRemoteTTLWithRandom 3 5) [0]).1
      = .returned 3 ∧
    (0 : Int) < 3 :=
  ⟨rfl,
   ((GetTTL_random_positive (NewCacheOption none : CacheOption String) 3 5 [0] 3
      (by norm_num) (by norm_num) (by norm_num) (by norm_num)).1 rfl).1,
   rfl,
   ((GetTTL_random_positive (NewCacheOption none : CacheOption String) 3 5 [0] 3
      (by norm_num) (by norm_num) (by norm_num) (by norm_num)).2 rfl).1⟩

/-- C16: `Valid()` returns nil if and only if the level is `Local`, `Remote`
or `Level2`, the strategy is `WriteBoth`, `WriteRemoteOnly`, `AsyncWriteBoth`
or `AsyncWriteRemoteOnly`, the cache key is not empty and the application
context `AppCtx` is not nil; otherwise it returns an error. -/
theorem Valid_iff (c : CacheOption R) :
    (c.Valid = none ↔
      (c.cacheLevel = Local ∨ c.cacheLevel = Remote ∨ c.cacheLevel = Level2) ∧
      (c.syncStrategy = WriteBoth ∨ c.syncStrategy = WriteRemoteOnly ∨
        c.syncStrategy = AsyncWriteBoth ∨ c.syncStrategy = AsyncWriteRemoteOnly) ∧
      c.cacheKey ≠ "" ∧ c.AppCtx ≠ none) ∧
    (c.Valid ≠ none → ∃ e, c.Valid = some e) := by
  constructor
  · unfold CacheOption.Valid
    cases hctx : c.AppCtx <;>
      simp only [List.contains_cons, List.contains_nil, Bool.or_false, beq_iff_eq,
        Bool.not_eq_true', Bool.or_eq_false_iff] <;>
      split_ifs <;> simp_all
    all_goals tauto
  · intro h
    cases hv : c.Valid with
    | none => exact absurd hv h
    | some e => exact ⟨e, rfl⟩

end Options

end Fiberhouse

namespace Fiberhouse

section Breaker

open gobreaker

variable {ρ : Type}

/-- The state of a Closed breaker at the time `now` is Closed, with an expiry
that has not passed; counters that were clear stay clear. -/
theorem currentState_closed (cb : CircuitBreaker) (now : Int)
    (hstate : cb.state = .StateClosed) (hcounts : cb.counts = Counts.clear)
    (hint : 0 ≤ cb.interval) :
    (CircuitBreaker.currentState cb now).state = .StateClosed ∧
    (CircuitBreaker.currentState cb now).counts = Counts.clear ∧
    (∀ x, (CircuitBreaker.currentState cb now).expiry = some x → ¬ x < now) ∧
    (CircuitBreaker.currentState cb now).readyToTrip = cb.readyToTrip ∧
    (CircuitBreaker.currentState cb now).maxRequests = cb.maxRequests ∧
    (CircuitBreaker.currentState cb now).timeout = cb.timeout := by
  unfold CircuitBreaker.currentState
  rw [hstate]
  cases hexp : cb.expiry with
  | none => simp [hstate, hcounts, hexp]
  | some x =>
    by_cases hx : x < now
    · simp only [hx, if_true, CircuitBreaker.toNewGeneration, hstate]
      refine ⟨trivial, trivial, ?_, trivial, trivial, trivial⟩
      intro y hy
      split_ifs at hy with h0
      simp only [Option.some.injEq] at hy
      omega
    · simp only [hx, if_false, hstate, hcounts, hexp, Option.some.injEq]
      refine ⟨trivial, trivial, ?_, trivial, trivial, trivial⟩
      intro y hy
      omega

/-- A Closed breaker without counted requests whose `readyToTrip` holds after
one failure: a call whose function fails is run, returns the error of the
function, and leaves the breaker Open until `now + timeout`. -/
theorem Execute_trips (now : Int) (fn : ρ → (String × Option GoError) × ρ)
    (cb : CircuitBreaker) (c c1 : ρ) (res : String) (e : GoError)
    (hstate : cb.state = .StateClosed) (hcounts : cb.counts = Counts.clear)
    (hint : 0 ≤ cb.interval)
    (htrip : cb.readyToTrip Counts.clear.onRequest.onFailure = true)
    (hfn : fn c = ((res, some e), c1)) :
    (CircuitBreaker.Execute now fn cb c).1 = (res, some e) ∧
    (CircuitBreaker.Execute now fn cb c).2.2 = c1 ∧
    (CircuitBreaker.Execute now fn cb c).2.1.state = .StateOpen ∧
    (CircuitBreaker.Execute now fn cb c).2.1.expiry = some (now + cb.timeout) ∧
    (CircuitBreaker.Execute now fn cb c).2.1.maxRequests = cb.maxRequests ∧
    (CircuitBreaker.Execute now fn cb c).2.1.timeout = cb.timeout := by
  have hcur := currentState_closed cb now hstate hcounts hint
  simp only [CircuitBreaker.Execute, CircuitBreaker.beforeRequest]
  generalize CircuitBreaker.currentState cb now = cb1 at hcur
  obtain ⟨h1, h2, h3, h4, h5, h6⟩ := hcur
  rw [← h4] at htrip
  cases hexp : cb1.expiry with
  | none =>
    simp [hfn, h1, h2, h5, h6, hexp, CircuitBreaker.afterRequest,
      CircuitBreaker.currentState, CircuitBreaker.onFailure, CircuitBreaker.setState,
      CircuitBreaker.toNewGeneration, htrip]
  | some x =>
    have hx := h3 x hexp
    simp [hfn, h1, h2, h5, h6, hexp, hx, CircuitBreaker.afterRequest,
      CircuitBreaker.currentState, CircuitBreaker.onFailure, CircuitBreaker.setState,
      CircuitBreaker.toNewGeneration, htrip]

/-- An Open breaker whose cooldown has not passed rejects the call with
`ErrOpenState`: the function is not run, the breaker and the state the
function works on stay as they are. -/
theorem Execute_open (now : Int) (fn : ρ → (String × Option GoError) × ρ)
    (cb : CircuitBreaker) (c : ρ) (x : Int)
    (hstate : cb.state = .StateOpen) (hexp : cb.expiry = some x) (hx : ¬ x < now) :
    CircuitBreaker.Execute now fn cb c = (("", some .ErrOpenState), cb, c) := by
  simp [CircuitBreaker.Execute, CircuitBreaker.beforeRequest, CircuitBreaker.currentState,
    hstate, hexp, hx]

/-- An Open breaker whose cooldown has passed is Half-Open: a call whose
function succeeds is run and returns the value of the function; with
`maxRequests` 1 the breaker is Closed afterwards. -/
theorem Execute_recovers (now : Int) (fn : ρ → (String × Option GoError) × ρ)
    (cb : CircuitBreaker) (c c1 : ρ) (x : Int) (v : String)
    (hstate : cb.state = .StateOpen) (hexp : cb.expiry = some x) (hx : x < now)
    (hmax : cb.maxRequests = 1) (hfn : fn c = ((v, none), c1)) :
    (CircuitBreaker.Execute now fn cb c).1 = (v, none) ∧
    (CircuitBreaker.Execute now fn cb c).2.2 = c1 ∧
    (CircuitBreaker.Execute now fn cb c).2.1.state = .StateClosed := by
  simp [CircuitBreaker.Execute, CircuitBreaker.beforeRequest, CircuitBreaker.currentState,
    CircuitBreaker.setState, CircuitBreaker.toNewGeneration, CircuitBreaker.afterRequest,
    CircuitBreaker.onSuccess, Counts.onRequest, Counts.onSuccess, Counts.clear,
    hstate, hexp, hx, hmax, hfn]

/-- The breaker that `NewCircuitBreakerWrap` builds from settings with a
`ReadyToTrip`: Closed, without counted requests, with the `ReadyToTrip` and the
`MaxRequests` of the settings when set and the cooldown of `wrapSettings`. -/
theorem NewCircuitBreakerWrap_fields (name : String) (st : Settings)
    (rest : List (Option Settings)) (ready : Counts → Bool) (t0 : Int)
    (hready : st.ReadyToTrip = some ready) (hmax : st.MaxRequests = 1) :
    (NewCircuitBreakerWrap name (some st :: rest) t0).cb.state = .StateClosed ∧
    (NewCircuitBreakerWrap name (some st :: rest) t0).cb.counts = Counts.clear ∧
    0 ≤ (NewCircuitBreakerWrap name (some st :: rest) t0).cb.interval ∧
    (NewCircuitBreakerWrap name (some st :: rest) t0).cb.readyToTrip = ready ∧
    (NewCircuitBreakerWrap name (some st :: rest) t0).cb.maxRequests = 1 ∧
    (NewCircuitBreakerWrap name (some st :: rest) t0).cb.timeout
      = (wrapSettings name (some st :: rest)).Timeout := by
  have hT : 0 < (wrapSettings name (some st :: rest)).Timeout := by
    simp only [wrapSettings]
    split_ifs <;> omega
  refine ⟨rfl, rfl, ?_, ?_, ?_, ?_⟩
  · simp only [NewCircuitBreakerWrap, NewCircuitBreaker, CircuitBreaker.toNewGeneration]
    split_ifs <;> omega
  · simp [NewCircuitBreakerWrap, NewCircuitBreaker, CircuitBreaker.toNewGeneration,
      wrapSettings, hready]
  · simp [NewCircuitBreakerWrap, NewCircuitBreaker, CircuitBreaker.toNewGeneration,
      wrapSettings, hmax]
  · simp only [NewCircuitBreakerWrap, NewCircuitBreaker, CircuitBreaker.toNewGeneration]
    rw [if_neg (by omega)]

/-- C20, as the claim states it, fails when the settings leave `MaxRequests`
to the default of `NewCircuitBreakerWrap` (3): `ReadyToTrip` trips at the first
failure, the first call fails, the cooldown of 120 ms passes, the next call
succeeds and returns its value, and the breaker is Half-Open, not Closed. -/
theorem CircuitBreakerWrap_lifecycle_counterexample :
    (CircuitBreakerWrap.Call 10 failingFn
      (NewCircuitBreakerWrap "cb-trip" [some tripSettingsDefaultMax] 0) ()).2.1.cb.state
      = .StateOpen ∧
    (CircuitBreakerWrap.Call (10 + 120000001) recoveringFn
      (CircuitBreakerWrap.Call 10 failingFn
        (NewCircuitBreakerWrap "cb-trip" [some tripSettingsDefaultMax] 0) ()).2.1 ()).1
      = ("recovered", none) ∧
    (CircuitBreakerWrap.Call (10 + 120000001) recoveringFn
      (CircuitBreakerWrap.Call 10 failingFn
        (NewCircuitBreakerWrap "cb-trip" [some tripSettingsDefaultMax] 0) ()).2.1 ()).2.1.cb.state
      = .StateHalfOpen ∧
    (CircuitBreakerWrap.Call (10 + 120000001) recoveringFn
      (CircuitBreakerWrap.Call 10 failingFn
        (NewCircuitBreakerWrap "cb-trip" [some tripSettingsDefaultMax] 0) ()).2.1 ()).2.1.cb.state
      ≠ .StateClosed := by
  refine ⟨rfl, rfl, rfl, ?_⟩
  decide

/-- C20 amended: with `ReadyToTrip` set to trip after one failure and
`MaxRequests` set to 1, after one `Call` (at `t1`) whose function fails, a
`Call` made before the cooldown `Timeout` has passed (at `t2`) returns the
`ErrCircuitBreakerOpen` for `circuit breaker is open` without running its
function; a `Call` made after the cooldown has passed (at `t3`) whose function
succeeds returns the value of the function with a nil error, and the breaker
is Closed again. -/
theorem CircuitBreakerWrap_lifecycle (name : String) (st : Settings)
    (rest : List (Option Settings)) (ready : Counts → Bool) (t0 t1 t2 t3 : Int)
    (fn1 fn2 fn3 : ρ → (String × Option GoError) × ρ) (c c1 c3 : ρ) (res1 : String)
    (e : GoError) (v : String)
    (hready : st.ReadyToTrip = some ready)
    (htrip : ready Counts.clear.onRequest.onFailure = true)
    (hmax : st.MaxRequests = 1)
    (hfn1 : fn1 c = ((res1, some e), c1))
    (ht2 : t2 ≤ t1 + (wrapSettings name (some st :: rest)).Timeout)
    (ht3 : t1 + (wrapSettings name (some st :: rest)).Timeout < t3)
    (hfn3 : fn3 c1 = ((v, none), c3)) :
    let r1 := CircuitBreakerWrap.Call t1 fn1 (NewCircuitBreakerWrap name (some st :: rest) t0) c
    let r2 := CircuitBreakerWrap.Call t2 fn2 r1.2.1 r1.2.2
    let r3 := CircuitBreakerWrap.Call t3 fn3 r2.2.1 r2.2.2
    r1.2.1.cb.state = .StateOpen ∧
    r2 = (("", some (NewErrCircuitBreakerOpen "circuit breaker is open")), r1.2.1, c1) ∧
    r3.1 = (v, none) ∧ r3.2.1.cb.state = .StateClosed := by
  obtain ⟨hs, hc, hi, hr, hm, hT⟩ := NewCircuitBreakerWrap_fields name st rest ready t0 hready hmax
  have E1 := Execute_trips t1 fn1 (NewCircuitBreakerWrap name (some st :: rest) t0).cb c c1
    res1 e hs hc hi (by rw [hr]; exact htrip) hfn1
  rw [hm, hT] at E1
  generalize hE : CircuitBreaker.Execute t1 fn1
    (NewCircuitBreakerWrap name (some st :: rest) t0).cb c = E at E1
  obtain ⟨⟨r, err⟩, cbA, cA⟩ := E
  obtain ⟨h1, h2, h3, h4, h5, -⟩ := E1
  simp only [Prod.mk.injEq] at h1 h2 h3 h4 h5
  obtain ⟨-, rfl⟩ := h1
  subst h2
  have E2 := Execute_open t2 fn2 cbA cA _ h3 h4 (by omega)
  have E3 := Execute_recovers t3 fn3 cbA cA c3 _ v h3 h4 (by omega) h5 hfn3
  generalize hE3 : CircuitBreaker.Execute t3 fn3 cbA cA = E at E3
  obtain ⟨⟨r3, err3⟩, cbC, cC⟩ := E
  obtain ⟨h6, -, h8⟩ := E3
  simp only [Prod.mk.injEq] at h6 h8
  obtain ⟨rfl, rfl⟩ := h6
  have hconv : CircuitBreakerWrap.ConvertCircuitBreakerOpenError .ErrOpenState
      = NewErrCircuitBreakerOpen "circuit breaker is open" := rfl
  simp only [CircuitBreakerWrap.Call, hE, E2, hE3, hconv]
  exact ⟨h3, trivial, trivial, h8⟩

/-- Witness of C20 amended: the settings of the test, a failing call at 10 ns,
a call at 20 ns, and a succeeding call one nanosecond after the cooldown. -/
theorem CircuitBreakerWrap_lifecycle_witness :
    let r1 := CircuitBreakerWrap.Call 10 failingFn
      (NewCircuitBreakerWrap "cb-trip" (some tripSettings :: []) 0) ()
    let r2 := CircuitBreakerWrap.Call 20 recoveringFn r1.2.1 r1.2.2
    let r3 := CircuitBreakerWrap.Call (10 + 120000001) recoveringFn r2.2.1 r2.2.2
    r1.2.1.cb.state = .StateOpen ∧
    r2 = (("", some (NewErrCircuitBreakerOpen "circuit breaker is open")), r1.2.1, ()) ∧
    r3.1 = ("recovered", none) ∧ r3.2.1.cb.state = .StateClosed :=
  CircuitBreakerWrap_lifecycle "cb-trip" tripSettings [] (fun c => decide (1 ≤ c.TotalFailures))
    0 10 20 (10 + 120000001) failingFn recoveringFn recoveringFn () () () ""
    (.errorf "fail") "recovered" rfl rfl rfl rfl (by decide) (by decide) rfl

end Breaker

end Fiberhouse

namespace Fiberhouse

section Remote

variable {ρ β κ R : Type}

/-- C12 (the code breaks the claim when the circuit-breaker flag is on): on
the remote cache with protection on, a key that neither the filter nor the
backend holds, and the bloom flag of the option on: with the circuit-breaker
flag off `Get` returns `ErrRejectedByBloomFilter` for the key, with or without
single flight; with the circuit-breaker flag on the backend call goes through
`CircuitBreakerWrap.Call`, which hands on the raw `redis.Nil`, and `Get`
returns `redis.Nil`, which is no `ErrRejectedByBloomFilter`. When the backend
holds a value, `Get` returns it and adds the key to the filter, for every
setting of the two flags. -/
theorem RedisDb_Get_bloom_flags (sf cbFlag : Bool) :
    (RedisDb.Get mapRedis listBloom (CircuitBreakerWrap.asBreaker 5) "k1"
        { demoOption Remote WriteRemoteOnly plainCodec with
          bloomFilter := true, singleFlight := sf, circuitBreaker := false }
        emptyRemoteWrap.1).1 = ("", some (NewErrRejectedByBloomFilter "k1")) ∧
    (RedisDb.Get mapRedis listBloom (CircuitBreakerWrap.asBreaker 5) "k1"
        { demoOption Remote WriteRemoteOnly plainCodec with
          bloomFilter := true, singleFlight := sf, circuitBreaker := true }
        emptyRemoteWrap.1).1 = ("", some .redisNil) ∧
    asErrRejectedByBloomFilter .redisNil = none ∧
    (RedisDb.Get mapRedis listBloom (CircuitBreakerWrap.asBreaker 5) "k1"
        { demoOption Remote WriteRemoteOnly plainCodec with
          bloomFilter := true, singleFlight := sf, circuitBreaker := cbFlag }
        filledRemoteWrap.1).1 = ("v1", none) ∧
    (RedisDb.Get mapRedis listBloom (CircuitBreakerWrap.asBreaker 5) "k1"
        { demoOption Remote WriteRemoteOnly plainCodec with
          bloomFilter := true, singleFlight := sf, circuitBreaker := cbFlag }
        filledRemoteWrap.1).2.bloomFilter = some ["k1"] := by
  cases sf <;> cases cbFlag <;> exact ⟨rfl, rfl, rfl, rfl, rfl⟩

/-- The backend write of `setInternal` touches neither the breaker nor the
filter. -/
theorem RedisDb_setInternal_frame (rc : RedisClient ρ) (key value : String)
    (co : CacheOption R) (rd : RedisDb ρ β κ) (r : Rand) :
    (RedisDb.setInternal rc key value co rd r).2.1.circuitBreaker = rd.circuitBreaker ∧
    (RedisDb.setInternal rc key value co rd r).2.1.bloomFilter = rd.bloomFilter := by
  unfold RedisDb.setInternal
  rcases co.GetRemoteTTL r with ⟨_ | _, r1⟩ <;> exact ⟨rfl, rfl⟩

/-- The method `Set` of the remote cache leaves the breaker as it is, whatever
it returns. -/
theorem RedisDb_Set_breaker (rc : RedisClient ρ) (bf : CacheBloomFilter β)
    (jsonCodecs : String → Option (JsonWrapper R)) (key : String) (value : AnyValue R)
    (co : CacheOption R) (rd : RedisDb ρ β κ) (r : Rand) :
    (RedisDb.Set rc bf jsonCodecs key value co rd r).2.1.circuitBreaker = rd.circuitBreaker := by
  unfold RedisDb.Set
  by_cases hc : rd.closed = true
  · simp [hc]
  · simp only [hc, Bool.false_eq_true, if_false]
    rcases RedisDb.serializeValue jsonCodecs value co with ⟨s, _ | e⟩ | msg
    · have hf := (RedisDb_setInternal_frame rc key s co rd r).1
      rcases h : RedisDb.setInternal rc key s co rd r with ⟨o, rd1, r1⟩
      rw [h] at hf
      simp only [h]
      cases o with
      | panicked msg => simpa using hf
      | returned werr =>
        cases werr with
        | some err => simpa using hf
        | none => by_cases hb : co.GetBloomFilterState = true <;> simpa [hb] using hf
    · rfl
    · rfl

/-- C13: on a remote cache that is not closed, `Set` with a value that
serialises to `(s, serr)`: when serialisation fails the error is returned, no
backend write is made and the filter is unchanged; otherwise, with the TTL
`ttl` drawn, the backend write `rc.Set key s ttl` is issued on the client
itself, its error is what `Set` returns, and the filter gets the key exactly
when the bloom flag of the option is on and the write returned nil (a remote
cache without a filter has none afterwards either). The breaker is the same
before and after, whatever the circuit-breaker flag of the option. -/
theorem RedisDb_Set_spec (rc : RedisClient ρ) (bf : CacheBloomFilter β)
    (jsonCodecs : String → Option (JsonWrapper R)) (key : String) (value : AnyValue R)
    (co : CacheOption R) (rd : RedisDb ρ β κ) (r : Rand) (s : String)
    (serr : Option GoError)
    (hopen : rd.closed = false)
    (hser : RedisDb.serializeValue jsonCodecs value co = .returned (s, serr)) :
    (match serr with
     | some e => RedisDb.Set rc bf jsonCodecs key value co rd r = (.returned (some e), rd, r)
     | none => ∀ ttl r1, co.GetRemoteTTL r = (.returned ttl, r1) →
        RedisDb.Set rc bf jsonCodecs key value co rd r
          = (.returned (rc.Set key s ttl rd.Client).1,
              { rd with
                Client := (rc.Set key s ttl rd.Client).2,
                bloomFilter :=
                  if co.bloomFilter = true ∧ (rc.Set key s ttl rd.Client).1 = none then
                    rd.bloomFilter.map (bf.Add key)
                  else rd.bloomFilter }, r1)) ∧
    (RedisDb.Set rc bf jsonCodecs key value co rd r).2.1.circuitBreaker = rd.circuitBreaker := by
  refine ⟨?_, RedisDb_Set_breaker rc bf jsonCodecs key value co rd r⟩
  cases serr with
  | some e => simp [RedisDb.Set, hopen, hser]
  | none =>
    intro ttl r1 httl
    cases hw : (rc.Set key s ttl rd.Client).1 with
    | none =>
      by_cases hb : co.bloomFilter = true <;>
        simp [RedisDb.Set, RedisDb.setInternal, hopen, hser, httl, hw, hb,
          CacheOption.GetBloomFilterState]
    | some werr =>
      simp [RedisDb.Set, RedisDb.setInternal, hopen, hser, httl, hw]

/-- Witness of C13: a string value written to a remote cache whose breaker is
Open, with the bloom flag and the circuit-breaker flag of the option on: the
write reaches the backend, the filter gets the key and the breaker stays as it
was. -/
theorem RedisDb_Set_spec_witness :
    RedisDb.Set mapRedis listBloom noCodecs "k1" (.str "v1")
        { demoOption Remote WriteRemoteOnly plainCodec with
          bloomFilter := true, circuitBreaker := true }
        trippedRemoteWrap.1 []
      = (.returned none,
          { trippedRemoteWrap.1 with Client := [("k1", "v1")], bloomFilter := some ["k1"] },
          []) ∧
    (RedisDb.Set mapRedis listBloom noCodecs "k1" (.str "v1")
        { demoOption Remote WriteRemoteOnly plainCodec with
          bloomFilter := true, circuitBreaker := true }
        trippedRemoteWrap.1 []).2.1.circuitBreaker = trippedRemoteWrap.1.circuitBreaker :=
  ⟨(RedisDb_Set_spec mapRedis listBloom noCodecs "k1" (.str "v1")
      { demoOption Remote WriteRemoteOnly plainCodec with
        bloomFilter := true, circuitBreaker := true }
      trippedRemoteWrap.1 [] "v1" none rfl rfl).1 0 [] rfl,
   (RedisDb_Set_spec mapRedis listBloom noCodecs "k1" (.str "v1")
      { demoOption Remote WriteRemoteOnly plainCodec with
        bloomFilter := true, circuitBreaker := true }
      trippedRemoteWrap.1 [] "v1" none rfl rfl).2⟩

end Remote

end Fiberhouse

namespace Fiberhouse

section AsyncVisibility

variable {τL τR R : Type}

/-- The method `Wait` of the two-level cache runs no pool task: both pools are
the same before and after, whatever it returns. -/
theorem Level2Cache_Wait_pools (L : Cache τL R) (Rm : Cache τR R) (l2c : Level2Cache τL τR R) :
    (Level2Cache.Wait L Rm l2c).2.1.remotePool = l2c.remotePool ∧
    (Level2Cache.Wait L Rm l2c).2.1.localPool = l2c.localPool := by
  unfold Level2Cache.Wait
  by_cases hc : l2c.closed = true
  · simp [hc]
  · simp only [hc, Bool.false_eq_true, if_false]
    rcases L.Wait l2c.localC with ⟨o1, ls⟩
    cases o1 with
    | panicked msg => exact ⟨rfl, rfl⟩
    | returned e1 =>
      rcases Rm.Wait l2c.remoteC with ⟨o2, rs⟩
      cases o2 <;> exact ⟨rfl, rfl⟩

/-- C11 (the code breaks the claim): `Wait()` of the two-level cache waits
for the two tiers only, never for the worker pools, so it returns while the
remote write queued by `Set` under `AsyncWriteRemoteOnly` is still in the pool.
On the two-level cache over an empty local and an empty remote cache:
`Set(k1, v1)` returns nil with one task in the remote pool; `Wait()` returns
nil and the task is still there; `Get(k1)` then misses in both tiers; once the
worker has run the task, `Get(k1)` returns `v1`. -/
theorem Level2Cache_async_write_visibility (L : Cache τL R) (Rm : Cache τR R)
    (l2c : Level2Cache τL τR R) :
    ((Level2Cache.Wait L Rm l2c).2.1.remotePool = l2c.remotePool ∧
     (Level2Cache.Wait L Rm l2c).2.1.localPool = l2c.localPool) ∧
    (Level2Cache.Set demoLocal demoRemote "k1" (.str "v1")
        (demoOption Level2 AsyncWriteRemoteOnly plainCodec) demoLevel2).1 = .returned none ∧
    (Level2Cache.Set demoLocal demoRemote "k1" (.str "v1")
        (demoOption Level2 AsyncWriteRemoteOnly plainCodec) demoLevel2).2.1.remotePool.tasks.length
      = 1 ∧
    (Level2Cache.Wait demoLocal demoRemote
        (Level2Cache.Set demoLocal demoRemote "k1" (.str "v1")
          (demoOption Level2 AsyncWriteRemoteOnly plainCodec) demoLevel2).2.1).1
      = .returned none ∧
    (Level2Cache.Wait demoLocal demoRemote
        (Level2Cache.Set demoLocal demoRemote "k1" (.str "v1")
          (demoOption Level2 AsyncWriteRemoteOnly plainCodec)
          demoLevel2).2.1).2.1.remotePool.tasks.length = 1 ∧
    (Level2Cache.Get demoLocal demoRemote "k1"
        (demoOption Level2 AsyncWriteRemoteOnly plainCodec)
        (Level2Cache.Wait demoLocal demoRemote
          (Level2Cache.Set demoLocal demoRemote "k1" (.str "v1")
            (demoOption Level2 AsyncWriteRemoteOnly plainCodec) demoLevel2).2.1).2.1).1
      = .returned ("", some (NewErrRedisNil "k1")) ∧
    (Level2Cache.Get demoLocal demoRemote "k1"
        (demoOption Level2 AsyncWriteRemoteOnly plainCodec)
        (Level2Cache.runRemoteTask demoRemote
          (Level2Cache.Wait demoLocal demoRemote
            (Level2Cache.Set demoLocal demoRemote "k1" (.str "v1")
              (demoOption Level2 AsyncWriteRemoteOnly plainCodec) demoLevel2).2.1).2.1).1).1
      = .returned ("v1", none) :=
  ⟨Level2Cache_Wait_pools L Rm l2c, rfl, rfl, rfl, rfl, rfl, rfl⟩

end AsyncVisibility

end Fiberhouse

namespace Fiberhouse

section Sharded

variable {β : Type}

/-- The mask of a filter built by `NewShardedBloomFilter` is below the number
of its shards. -/
theorem NewShardedBloomFilter_mask (shardCount : Int) (fresh : β) :
    (NewShardedBloomFilter shardCount fresh).mask
      < (NewShardedBloomFilter shardCount fresh).shards.length := by
  simp only [NewShardedBloomFilter, List.length_replicate]
  split_ifs with h
  · decide
  · omega

/-- With the mask below the number of shards, every key is routed to a shard
that exists. -/
theorem ShardedBloomFilter_idx_lt (sb : ShardedBloomFilter β) (key : String)
    (hwf : sb.mask < sb.shards.length) : sb.idx key < sb.shards.length :=
  lt_of_le_of_lt Nat.and_le_right hwf

/-- A call on a well-formed sharded filter returns and keeps the mask and the
number of shards. -/
theorem ShardedBloomFilter_applyOp_wf (lib : BloomFilter β) (op : BloomOp)
    (sb : ShardedBloomFilter β) (hwf : sb.mask < sb.shards.length) :
    (sb.applyOp lib op).1 = .returned () ∧
    (sb.applyOp lib op).2.mask = sb.mask ∧
    (sb.applyOp lib op).2.shards.length = sb.shards.length := by
  cases op with
  | add key =>
    have hi := ShardedBloomFilter_idx_lt sb key hwf
    simp [ShardedBloomFilter.applyOp, ShardedBloomFilter.Add, List.getElem?_eq_getElem hi]
  | testAndAdd key =>
    have hi := ShardedBloomFilter_idx_lt sb key hwf
    simp [ShardedBloomFilter.applyOp, ShardedBloomFilter.TestAndAdd,
      List.getElem?_eq_getElem hi]
  | reset => exact ⟨rfl, rfl, rfl⟩

/-- The shard of `key` holds `key`: the state in which `Test` returns true. -/
theorem ShardedBloomFilter_Test_of_shard (lib : BloomFilter β) (key : String)
    (sb : ShardedBloomFilter β) (s : β) (hs : sb.shards[sb.idx key]? = some s)
    (ht : lib.Test key s = true) : sb.Test lib key = .returned true := by
  simp [ShardedBloomFilter.Test, hs, ht]

/-- Replacing the shard at `i` by `x`, when the shard of a key that the filter
holds becomes a shard that still holds it. -/
theorem ShardedBloomFilter_set_keeps (lib : BloomFilter β) (sb : ShardedBloomFilter β)
    (key : String) (i : Nat) (x s : β) (hs : sb.shards[sb.idx key]? = some s)
    (ht : lib.Test key s = true)
    (hx : sb.shards[i]? = some s → lib.Test key x = true) :
    ∃ s1, (ShardedBloomFilter.mk (sb.shards.set i x) sb.mask).shards[
        (ShardedBloomFilter.mk (sb.shards.set i x) sb.mask).idx key]? = some s1 ∧
      lib.Test key s1 = true := by
  have hidx : (ShardedBloomFilter.mk (sb.shards.set i x) sb.mask).idx key = sb.idx key := rfl
  rw [hidx]
  by_cases he : i = sb.idx key
  · subst he
    have hlt : sb.idx key < sb.shards.length := by
      by_contra hge
      rw [List.getElem?_eq_none (by omega)] at hs
      cases hs
    exact ⟨x, by simp [List.getElem?_set_eq_of_lt, hlt], hx hs⟩
  · exact ⟨s, by simp only [List.getElem?_set_ne he, hs], ht⟩

/-- A call keeps a key that the filter holds, when the filters of the shards
keep their keys. -/
theorem ShardedBloomFilter_applyOp_keeps (lib : BloomFilter β) (op : BloomOp)
    (sb : ShardedBloomFilter β) (key : String)
    (hmono : ∀ k k2 b, lib.Test k b = true → lib.Test k (lib.Add k2 b) = true)
    (hta : ∀ k b, (lib.TestAndAdd k b).2 = lib.Add k b)
    (hwf : sb.mask < sb.shards.length)
    (hhas : ∃ s, sb.shards[sb.idx key]? = some s ∧ lib.Test key s = true) :
    ∃ s, (sb.applyOp lib op).2.shards[(sb.applyOp lib op).2.idx key]? = some s ∧
      lib.Test key s = true := by
  obtain ⟨s, hs, ht⟩ := hhas
  cases op with
  | add key2 =>
    have hi := ShardedBloomFilter_idx_lt sb key2 hwf
    have hs2 : sb.shards[sb.idx key2]? = some (sb.shards[sb.idx key2]) :=
      List.getElem?_eq_getElem hi
    simp only [ShardedBloomFilter.applyOp, ShardedBloomFilter.Add, hs2]
    refine ShardedBloomFilter_set_keeps lib sb key _ _ s hs ht ?_
    intro h
    rw [hs2, Option.some.injEq] at h
    rw [h]
    exact hmono key key2 s ht
  | testAndAdd key2 =>
    have hi := ShardedBloomFilter_idx_lt sb key2 hwf
    have hs2 : sb.shards[sb.idx key2]? = some (sb.shards[sb.idx key2]) :=
      List.getElem?_eq_getElem hi
    simp only [ShardedBloomFilter.applyOp, ShardedBloomFilter.TestAndAdd, hs2, hta]
    refine ShardedBloomFilter_set_keeps lib sb key _ _ s hs ht ?_
    intro h
    rw [hs2, Option.some.injEq] at h
    rw [h]
    exact hmono key key2 s ht
  | reset => exact ⟨s, hs, ht⟩

/-- A sequence of calls on a well-formed sharded filter returns, keeps the
filter well-formed and keeps a key that the filter holds. -/
theorem ShardedBloomFilter_applyOps_keeps (lib : BloomFilter β) (ops : List BloomOp)
    (sb : ShardedBloomFilter β) (key : String)
    (hmono : ∀ k k2 b, lib.Test k b = true → lib.Test k (lib.Add k2 b) = true)
    (hta : ∀ k b, (lib.TestAndAdd k b).2 = lib.Add k b)
    (hwf : sb.mask < sb.shards.length) :
    (sb.applyOps lib ops).1 = .returned () ∧
    (sb.applyOps lib ops).2.mask < (sb.applyOps lib ops).2.shards.length ∧
    ((∃ s, sb.shards[sb.idx key]? = some s ∧ lib.Test key s = true) →
      ∃ s, (sb.applyOps lib ops).2.shards[(sb.applyOps lib ops).2.idx key]? = some s ∧
        lib.Test key s = true) := by
  induction ops generalizing sb with
  | nil => exact ⟨rfl, hwf, fun h => h⟩
  | cons op ops ih =>
    obtain ⟨h1, h2, h3⟩ := ShardedBloomFilter_applyOp_wf lib op sb hwf
    have hkeep := ShardedBloomFilter_applyOp_keeps lib op sb key hmono hta hwf
    rcases hop : sb.applyOp lib op with ⟨o, sb1⟩
    rw [hop] at h1 h2 h3 hkeep
    simp only at h1 h2 h3 hkeep
    subst h1
    have hwf1 : sb1.mask < sb1.shards.length := by rw [h2, h3]; exact hwf
    obtain ⟨i1, i2, i3⟩ := ih sb1 hwf1
    simp only [ShardedBloomFilter.applyOps, hop]
    exact ⟨i1, i2, fun h => i3 (hkeep h)⟩

/-- C17: for every shard count and every key `k`, on a filter built by
`NewShardedBloomFilter` and used in any way (`pre`), once `Add(k)` or
`TestAndAdd(k)` has been called, `Test(k)` returns true after any further
sequence `post` of `Add`, `TestAndAdd` and `Reset` calls, and none of the
calls panics: given that the filter of a shard returns true for a key just
added, keeps returning true for a key when another is added, and that its
`TestAndAdd` adds the key as `Add` does. -/
theorem ShardedBloomFilter_no_false_negative (lib : BloomFilter β) (shardCount : Int)
    (fresh : β) (k : String) (pre post : List BloomOp)
    (hadd : ∀ key b, lib.Test key (lib.Add key b) = true)
    (hmono : ∀ key key2 b, lib.Test key b = true → lib.Test key (lib.Add key2 b) = true)
    (hta : ∀ key b, (lib.TestAndAdd key b).2 = lib.Add key b) :
    ((NewShardedBloomFilter shardCount fresh).applyOps lib (pre ++ .add k :: post)).1
      = .returned () ∧
    ((NewShardedBloomFilter shardCount fresh).applyOps lib (pre ++ .add k :: post)).2.Test lib k
      = .returned true ∧
    ((NewShardedBloomFilter shardCount fresh).applyOps lib (pre ++ .testAndAdd k :: post)).1
      = .returned () ∧
    ((NewShardedBloomFilter shardCount fresh).applyOps lib
      (pre ++ .testAndAdd k :: post)).2.Test lib k = .returned true := by
  have happend : ∀ (ops1 ops2 : List BloomOp) (sb : ShardedBloomFilter β),
      sb.mask < sb.shards.length →
      sb.applyOps lib (ops1 ++ ops2) = (sb.applyOps lib ops1).2.applyOps lib ops2 := by
    intro ops1
    induction ops1 with
    | nil => intro ops2 sb _; rfl
    | cons op ops1 ih =>
      intro ops2 sb hwf
      obtain ⟨h1, h2, h3⟩ := ShardedBloomFilter_applyOp_wf lib op sb hwf
      rcases hop : sb.applyOp lib op with ⟨o, sb1⟩
      rw [hop] at h1 h2 h3
      simp only at h1 h2 h3
      subst h1
      simp only [List.cons_append, ShardedBloomFilter.applyOps, hop]
      exact ih ops2 sb1 (by rw [h2, h3]; exact hwf)
  have hwf0 := NewShardedBloomFilter_mask shardCount fresh
  have key_step : ∀ first : BloomOp, (first = .add k ∨ first = .testAndAdd k) →
      ((NewShardedBloomFilter shardCount fresh).applyOps lib (pre ++ first :: post)).1
        = .returned () ∧
      ((NewShardedBloomFilter shardCount fresh).applyOps lib
        (pre ++ first :: post)).2.Test lib k = .returned true := by
    intro first hfirst
    obtain ⟨p1, p2, -⟩ := ShardedBloomFilter_applyOps_keeps lib pre
      (NewShardedBloomFilter shardCount fresh) k hmono hta hwf0
    rw [happend pre (first :: post) _ hwf0]
    generalize ((NewShardedBloomFilter shardCount fresh).applyOps lib pre).2 = sb1 at p2
    have hi := ShardedBloomFilter_idx_lt sb1 k p2
    have hs : sb1.shards[sb1.idx k]? = some (sb1.shards[sb1.idx k]) :=
      List.getElem?_eq_getElem hi
    obtain ⟨f1, f2, f3⟩ := ShardedBloomFilter_applyOp_wf lib first sb1 p2
    have hhas : ∃ s, (sb1.applyOp lib first).2.shards[(sb1.applyOp lib first).2.idx k]?
        = some s ∧ lib.Test k s = true := by
      rcases hfirst with rfl | rfl
      · simp only [ShardedBloomFilter.applyOp, ShardedBloomFilter.Add, hs]
        refine ⟨lib.Add k (sb1.shards[sb1.idx k]), ?_, hadd _ _⟩
        show (sb1.shards.set (sb1.idx k) _)[sb1.idx k]? = _
        simp [List.getElem?_set_eq_of_lt, hi]
      · simp only [ShardedBloomFilter.applyOp, ShardedBloomFilter.TestAndAdd, hs, hta]
        refine ⟨lib.Add k (sb1.shards[sb1.idx k]), ?_, hadd _ _⟩
        show (sb1.shards.set (sb1.idx k) _)[sb1.idx k]? = _
        simp [List.getElem?_set_eq_of_lt, hi]
    rcases hop : sb1.applyOp lib first with ⟨o, sb2⟩
    rw [hop] at f1 f2 f3 hhas
    simp only at f1 f2 f3 hhas
    subst f1
    have hwf2 : sb2.mask < sb2.shards.length := by rw [f2, f3]; exact p2
    obtain ⟨q1, -, q3⟩ := ShardedBloomFilter_applyOps_keeps lib post sb2 k hmono hta hwf2
    obtain ⟨s, hs2, ht2⟩ := q3 hhas
    simp only [ShardedBloomFilter.applyOps, hop]
    exact ⟨q1, ShardedBloomFilter_Test_of_shard lib k _ s hs2 ht2⟩
  exact ⟨(key_step _ (Or.inl rfl)).1, (key_step _ (Or.inl rfl)).2,
    (key_step _ (Or.inr rfl)).1, (key_step _ (Or.inr rfl)).2⟩

theorem ShardedBloomFilter_no_false_negative_witness :
    ((NewShardedBloomFilter 4 ([] : List String)).applyOps exactBloom
      ([.add "a", .reset] ++ .add "hello" :: [.testAndAdd "b", .reset, .add "c"])).1
      = .returned () ∧
    ((NewShardedBloomFilter 4 ([] : List String)).applyOps exactBloom
      ([.add "a", .reset] ++ .add "hello" :: [.testAndAdd "b", .reset, .add "c"])).2.Test
        exactBloom "hello" = .returned true ∧
    ((NewShardedBloomFilter 4 ([] : List String)).applyOps exactBloom
      ([.add "a", .reset] ++ .testAndAdd "hello" :: [.testAndAdd "b", .reset, .add "c"])).1
      = .returned () ∧
    ((NewShardedBloomFilter 4 ([] : List String)).applyOps exactBloom
      ([.add "a", .reset] ++ .testAndAdd "hello" :: [.testAndAdd "b", .reset, .add "c"])).2.Test
        exactBloom "hello" = .returned true :=
  ShardedBloomFilter_no_false_negative exactBloom 4 [] "hello" [.add "a", .reset]
    [.testAndAdd "b", .reset, .add "c"]
    (fun key b => by simp [exactBloom])
    (fun key key2 b h => by
      simp only [exactBloom] at h ⊢
      simp only [List.contains_cons, h, Bool.or_true])
    (fun _ _ => rfl)

end Sharded

end Fiberhouse

namespace Fiberhouse

section Stable

theorem testBit_three (k : Nat) : Nat.testBit 3 k = decide (k < 2) := by
  have h : (3 : Nat) = 2 ^ 2 - 1 := rfl
  rw [h, Nat.testBit_two_pow_sub_one]

theorem testBit_lt_four (n k : Nat) (hn : n < 4) (hk : 2 ≤ k) : Nat.testBit n k = false := by
  apply Nat.testBit_lt_two_pow
  calc n < 4 := hn
    _ = 2 ^ 2 := rfl
    _ ≤ 2 ^ k := Nat.pow_le_pow_right (by norm_num) hk

/-- The bits of the two-bit field at offset `o` of a word. -/
theorem cell_testBit (v o j : Nat) :
    Nat.testBit ((v >>> o) % 4) j = (decide (j < 2) && Nat.testBit v (o + j)) := by
  have h : (4 : Nat) = 2 ^ 2 := rfl
  rw [h, Nat.testBit_mod_two_pow, Nat.testBit_shiftRight]

/-- Reading a counter: the masked, shifted and truncated word is the two-bit
field at the offset. -/
theorem cell_read (v o : Nat) (ho : o ≤ 62) :
    ((v &&& ((3 <<< o) % 2 ^ 64)) >>> o) % 256 = (v >>> o) % 4 := by
  apply Nat.eq_of_testBit_eq
  intro j
  have h : (256 : Nat) = 2 ^ 8 := rfl
  rw [cell_testBit, h, Nat.testBit_mod_two_pow, Nat.testBit_shiftRight, Nat.testBit_and,
    Nat.testBit_mod_two_pow, Nat.testBit_shiftLeft, testBit_three]
  by_cases hj : j < 2
  · have h1 : j < 8 := by omega
    have h2 : o + j < 64 := by omega
    have h3 : o + j ≥ o := by omega
    have h4 : o + j - o < 2 := by omega
    simp [hj, h1, h2, h3, h4]
  · have h4 : ¬ (o + j - o < 2) := by omega
    simp [hj, h4]

/-- The bits of a word after the counter `n` was written at offset `o`. -/
theorem cell_write_testBit (v o n t : Nat) (hn : n < 4) (ht : t < 64) :
    Nat.testBit ((v &&& (2 ^ 64 - 1 - (3 <<< o) % 2 ^ 64)) ||| ((n <<< o) % 2 ^ 64)) t
      = if o ≤ t ∧ t < o + 2 then Nat.testBit n (t - o) else Nat.testBit v t := by
  have hm : (3 <<< o) % 2 ^ 64 < 2 ^ 64 := Nat.mod_lt _ (by norm_num)
  have hsub : 2 ^ 64 - 1 - (3 <<< o) % 2 ^ 64 = 2 ^ 64 - ((3 <<< o) % 2 ^ 64 + 1) := by omega
  rw [Nat.testBit_or, Nat.testBit_and, hsub, Nat.testBit_two_pow_sub_succ hm,
    Nat.testBit_mod_two_pow, Nat.testBit_shiftLeft, testBit_three, Nat.testBit_mod_two_pow,
    Nat.testBit_shiftLeft]
  by_cases h1 : o ≤ t
  · by_cases h2 : t < o + 2
    · have h3 : t - o < 2 := by omega
      simp [h1, h2, h3, ht]
    · have h3 : ¬ t - o < 2 := by omega
      have h4 : Nat.testBit n (t - o) = false := testBit_lt_four n _ hn (by omega)
      simp [h1, h2, h3, ht, h4]
  · have h1' : ¬ t ≥ o := by omega
    simp [h1, h1', ht]

/-- The counter that was written is the counter that is read. -/
theorem cell_write_same (v o n : Nat) (ho : o ≤ 62) (hn : n < 4) :
    (((v &&& (2 ^ 64 - 1 - (3 <<< o) % 2 ^ 64)) ||| ((n <<< o) % 2 ^ 64)) >>> o) % 4 = n := by
  apply Nat.eq_of_testBit_eq
  intro j
  rw [cell_testBit]
  by_cases hj : j < 2
  · rw [cell_write_testBit v o n (o + j) hn (by omega)]
    have h : o ≤ o + j ∧ o + j < o + 2 := ⟨by omega, by omega⟩
    simp [hj, h]
  · have h4 : Nat.testBit n j = false := testBit_lt_four n _ hn (by omega)
    simp [hj, h4]

/-- Writing a counter leaves the counters at the other even offsets. -/
theorem cell_write_other (v o o2 n : Nat) (ho2 : o2 ≤ 62) (hn : n < 4)
    (he : o % 2 = 0) (he2 : o2 % 2 = 0) (hne : o2 ≠ o) :
    (((v &&& (2 ^ 64 - 1 - (3 <<< o) % 2 ^ 64)) ||| ((n <<< o) % 2 ^ 64)) >>> o2) % 4
      = (v >>> o2) % 4 := by
  apply Nat.eq_of_testBit_eq
  intro j
  rw [cell_testBit, cell_testBit]
  by_cases hj : j < 2
  · rw [cell_write_testBit v o n (o2 + j) hn (by omega)]
    have h : ¬ (o ≤ o2 + j ∧ o2 + j < o + 2) := by omega
    simp [hj, h]
  · simp [hj]

/-- The method `getCellCount` reads the two-bit field of the cell. -/
theorem StableBloomFilter_getCellCount_eq (sbf : StableBloomFilter) (i : Nat) :
    sbf.getCellCount i =
      match sbf.cells[i / 32]? with
      | none => .panicked "index out of range"
      | some v => .returned ((v >>> (i % 32 * 2)) % 4) := by
  rcases h : sbf.cells[i / 32]? with _ | v
  · simp only [StableBloomFilter.getCellCount, h]
  · simp only [StableBloomFilter.getCellCount, h]
    rw [cell_read v (i % 32 * 2) (by omega)]

/-- The counter that `incrementCell` writes, from the counter it read. -/
theorem StableBloomFilter_incrementCell_eq (sbf : StableBloomFilter) (i : Nat)
    (draws : List Bool) (v : Nat) (hv : sbf.cells[i / 32]? = some v) (hmax : sbf.maxCount = 3) :
    ∃ n draws1, 1 ≤ n ∧ n < 4 ∧
      sbf.incrementCell i draws =
        (.returned (),
          { sbf with
            cells := sbf.cells.set (i / 32)
              ((v &&& (2 ^ 64 - 1 - (3 <<< (i % 32 * 2)) % 2 ^ 64)) |||
                ((n <<< (i % 32 * 2)) % 2 ^ 64)) },
          draws1) := by
  have ho : i % 32 * 2 ≤ 62 := by omega
  have hc : (v >>> (i % 32 * 2)) % 4 < 4 := Nat.mod_lt _ (by norm_num)
  unfold StableBloomFilter.incrementCell
  simp only [hv, hmax, cell_read v _ ho]
  by_cases h3 : (v >>> (i % 32 * 2)) % 4 < 3
  · refine ⟨((v >>> (i % 32 * 2)) % 4 + 1) % 256, draws, ?_, ?_, ?_⟩
    · omega
    · omega
    · simp [h3]
  · have h3e : (v >>> (i % 32 * 2)) % 4 = 3 := by omega
    rcases draws with _ | ⟨d, ds⟩
    · refine ⟨3, [], by norm_num, by norm_num, ?_⟩
      simp [h3e, StableBloomFilter.shouldEvict]
    · cases d
      · refine ⟨3, ds, by norm_num, by norm_num, ?_⟩
        simp [h3e, StableBloomFilter.shouldEvict]
      · refine ⟨2, ds, by norm_num, by norm_num, ?_⟩
        simp [h3e, StableBloomFilter.shouldEvict]

/-- The method `incrementCell` changes neither the parameters of the filter nor
the length of `cells`. -/
theorem StableBloomFilter_incrementCell_frame (sbf : StableBloomFilter) (i : Nat)
    (draws : List Bool) :
    (sbf.incrementCell i draws).2.1.buckets = sbf.buckets ∧
    (sbf.incrementCell i draws).2.1.cellsPerBucket = sbf.cellsPerBucket ∧
    (sbf.incrementCell i draws).2.1.maxCount = sbf.maxCount ∧
    (sbf.incrementCell i draws).2.1.cells.length = sbf.cells.length := by
  rcases h : sbf.cells[i / 32]? with _ | v
  · simp [StableBloomFilter.incrementCell, h]
  · simp only [StableBloomFilter.incrementCell, h]
    split <;> simp

/-- After `incrementCell` on a cell inside the array the counter of that cell
is at least one, and the counters of the other cells are as before. -/
theorem StableBloomFilter_incrementCell_count (sbf : StableBloomFilter) (i : Nat)
    (draws : List Bool) (hin : i / 32 < sbf.cells.length) (hmax : sbf.maxCount = 3) :
    (sbf.incrementCell i draws).1 = .returned () ∧
    (∃ n, 1 ≤ n ∧ (sbf.incrementCell i draws).2.1.getCellCount i = .returned n) ∧
    (∀ j, j ≠ i → (sbf.incrementCell i draws).2.1.getCellCount j = sbf.getCellCount j) := by
  have hv : sbf.cells[i / 32]? = some (sbf.cells[i / 32]) := List.getElem?_eq_getElem hin
  obtain ⟨n, draws1, h1, h4, heq⟩ :=
    StableBloomFilter_incrementCell_eq sbf i draws _ hv hmax
  rw [heq]
  refine ⟨rfl, ⟨n, h1, ?_⟩, ?_⟩
  · rw [StableBloomFilter_getCellCount_eq]
    simp only [List.getElem?_set_self hin]
    rw [cell_write_same _ _ n (by omega) h4]
  · intro j hj
    rw [StableBloomFilter_getCellCount_eq, StableBloomFilter_getCellCount_eq]
    by_cases hw : j / 32 = i / 32
    · simp only [hw, List.getElem?_set_self hin, hv]
      rw [cell_write_other _ (i % 32 * 2) (j % 32 * 2) n (by omega) h4 (by omega) (by omega)
        (by omega)]
    · have hw2 : i / 32 ≠ j / 32 := fun h => hw h.symm
      simp only [List.getElem?_set_ne hw2]

/-- A counter that is at least one stays at least one through `incrementCell`. -/
theorem StableBloomFilter_incrementCell_keeps (sbf : StableBloomFilter) (i : Nat)
    (draws : List Bool) (hmax : sbf.maxCount = 3) (j : Nat)
    (hpos : ∃ n, 1 ≤ n ∧ sbf.getCellCount j = .returned n) :
    ∃ n, 1 ≤ n ∧ (sbf.incrementCell i draws).2.1.getCellCount j = .returned n := by
  by_cases hin : i / 32 < sbf.cells.length
  · obtain ⟨_, hsame, hother⟩ := StableBloomFilter_incrementCell_count sbf i draws hin hmax
    by_cases hj : j = i
    · rw [hj]
      exact hsame
    · rw [hother j hj]
      exact hpos
  · have hv : sbf.cells[i / 32]? = none := List.getElem?_eq_none (by omega)
    simp only [StableBloomFilter.incrementCell, hv]
    exact hpos

/-- The cell of a seed lies inside the array when the array covers every
cell. -/
theorem StableBloomFilter_selectCell_lt (sbf : StableBloomFilter) (key : String) (i : Nat)
    (hb : 1 ≤ sbf.buckets) (hc : 0 < sbf.cellsPerBucket)
    (hcells : sbf.buckets * sbf.cellsPerBucket ≤ 32 * sbf.cells.length) :
    sbf.selectCell (StableBloomFilter.hash key i % sbf.buckets) key i / 32
      < sbf.cells.length := by
  unfold StableBloomFilter.selectCell
  simp only
  generalize StableBloomFilter.hash key i = h
  generalize fnv32a _ = g
  have h1 : h % sbf.buckets < sbf.buckets := Nat.mod_lt _ hb
  have h2 : g % sbf.cellsPerBucket < sbf.cellsPerBucket := Nat.mod_lt _ hc
  have h3 : (h % sbf.buckets + 1) * sbf.cellsPerBucket ≤ sbf.buckets * sbf.cellsPerBucket :=
    Nat.mul_le_mul_right _ h1
  have h4 : (h % sbf.buckets + 1) * sbf.cellsPerBucket
      = h % sbf.buckets * sbf.cellsPerBucket + sbf.cellsPerBucket := by ring
  have h5 : (h % sbf.buckets * sbf.cellsPerBucket + g % sbf.cellsPerBucket) % 2 ^ 32
      ≤ h % sbf.buckets * sbf.cellsPerBucket + g % sbf.cellsPerBucket := Nat.mod_le _ _
  omega

/-- The loop of `Add` changes neither the parameters of the filter nor the
length of `cells`, whether it returns or panics. -/
theorem StableBloomFilter_addLoop_frame (key : String) (seeds : List Nat) :
    ∀ (sbf : StableBloomFilter) (draws : List Bool),
      (sbf.addLoop key seeds draws).2.1.buckets = sbf.buckets ∧
      (sbf.addLoop key seeds draws).2.1.cellsPerBucket = sbf.cellsPerBucket ∧
      (sbf.addLoop key seeds draws).2.1.maxCount = sbf.maxCount ∧
      (sbf.addLoop key seeds draws).2.1.cells.length = sbf.cells.length := by
  induction seeds with
  | nil => intro sbf draws; simp [StableBloomFilter.addLoop]
  | cons i rest ih =>
    intro sbf draws
    rcases hc : sbf.cellFor key i with c | msg
    · have hf := StableBloomFilter_incrementCell_frame sbf c draws
      rcases hi : sbf.incrementCell c draws with ⟨o, sbf1, draws1⟩
      rw [hi] at hf
      cases o with
      | returned u =>
        simp only [StableBloomFilter.addLoop, hc, hi]
        have := ih sbf1 draws1
        simp only at hf
        rw [hf.1, hf.2.1, hf.2.2.1, hf.2.2.2] at this
        exact this
      | panicked msg =>
        simp only [StableBloomFilter.addLoop, hc, hi]
        exact hf
    · simp [StableBloomFilter.addLoop, hc]

/-- The loop of `Add` on a filter whose array covers every cell returns, keeps
every counter that was at least one at least one, and leaves the counter of
the cell of every seed it went through at least one. -/
theorem StableBloomFilter_addLoop_spec (key : String) (seeds : List Nat) :
    ∀ (sbf : StableBloomFilter) (draws : List Bool),
      1 ≤ sbf.buckets → 0 < sbf.cellsPerBucket → sbf.maxCount = 3 →
      sbf.buckets * sbf.cellsPerBucket ≤ 32 * sbf.cells.length →
      (sbf.addLoop key seeds draws).1 = .returned () ∧
      (∀ j, (∃ n, 1 ≤ n ∧ sbf.getCellCount j = .returned n) →
        ∃ n, 1 ≤ n ∧ (sbf.addLoop key seeds draws).2.1.getCellCount j = .returned n) ∧
      (∀ i ∈ seeds, ∃ n, 1 ≤ n ∧
        (sbf.addLoop key seeds draws).2.1.getCellCount
          (sbf.selectCell (StableBloomFilter.hash key i % sbf.buckets) key i) = .returned n) := by
  induction seeds with
  | nil =>
    intro sbf draws _ _ _ _
    simp [StableBloomFilter.addLoop]
  | cons i rest ih =>
    intro sbf draws hb hc hmax hcells
    have hb0 : sbf.buckets ≠ 0 := by omega
    have hin := StableBloomFilter_selectCell_lt sbf key i hb hc hcells
    have hcell : sbf.cellFor key i
        = .returned (sbf.selectCell (StableBloomFilter.hash key i % sbf.buckets) key i) := by
      simp [StableBloomFilter.cellFor, hb0]
    obtain ⟨hret, hsame, _⟩ := StableBloomFilter_incrementCell_count sbf _ draws hin hmax
    have hf := StableBloomFilter_incrementCell_frame sbf
      (sbf.selectCell (StableBloomFilter.hash key i % sbf.buckets) key i) draws
    have hkeep := fun j hpos => StableBloomFilter_incrementCell_keeps sbf
      (sbf.selectCell (StableBloomFilter.hash key i % sbf.buckets) key i) draws hmax j hpos
    rcases hi : sbf.incrementCell
      (sbf.selectCell (StableBloomFilter.hash key i % sbf.buckets) key i) draws
      with ⟨o, sbf1, draws1⟩
    rw [hi] at hret hsame hf hkeep
    simp only at hret hsame hf hkeep
    subst hret
    simp only [StableBloomFilter.addLoop, hcell, hi]
    obtain ⟨hfb, hfc, hfm, hfl⟩ := hf
    obtain ⟨ih1, ih2, ih3⟩ := ih sbf1 draws1 (by omega) (by omega) (by omega)
      (by rw [hfb, hfc, hfl]; exact hcells)
    have hsel : ∀ b k, sbf1.selectCell b key k = sbf.selectCell b key k := by
      intro b k
      simp [StableBloomFilter.selectCell, hfc]
    refine ⟨ih1, fun j hpos => ih2 j (hkeep j hpos), ?_⟩
    intro k hk
    rcases List.mem_cons.mp hk with hk | hk
    · rw [hk]
      exact ih2 _ hsame
    · have := ih3 k hk
      rw [hsel, hfb] at this
      exact this

/-- The loop of `Test` returns true when the counter of the cell of every seed
is at least one. -/
theorem StableBloomFilter_testLoop_true (sbf : StableBloomFilter) (key : String)
    (seeds : List Nat) (hb : 1 ≤ sbf.buckets)
    (h : ∀ i ∈ seeds, ∃ n, 1 ≤ n ∧
      sbf.getCellCount (sbf.selectCell (StableBloomFilter.hash key i % sbf.buckets) key i)
        = .returned n) :
    sbf.testLoop key seeds = .returned true := by
  have hb0 : sbf.buckets ≠ 0 := by omega
  induction seeds with
  | nil => rfl
  | cons i rest ih =>
    obtain ⟨n, hn, hcount⟩ := h i (List.mem_cons_self _ _)
    have hn0 : n ≠ 0 := by omega
    simp only [StableBloomFilter.testLoop, StableBloomFilter.cellFor, hb0, if_false, hcount, hn0]
    exact ih (fun k hk => h k (List.mem_cons_of_mem _ hk))

/-- On a filter whose array covers every cell, `Add` returns and `Test` of the
same key then returns true. -/
theorem StableBloomFilter_Add_then_Test (sbf : StableBloomFilter) (key : String)
    (draws : List Bool) (hb : 1 ≤ sbf.buckets) (hmax : sbf.maxCount = 3)
    (hcells : sbf.buckets * sbf.cellsPerBucket ≤ 32 * sbf.cells.length) :
    (sbf.Add key draws).1 = .returned () ∧
    (sbf.Add key draws).2.1.Test key = .returned true := by
  have hf := StableBloomFilter_addLoop_frame key (List.range sbf.cellsPerBucket) sbf draws
  by_cases hc : 0 < sbf.cellsPerBucket
  · obtain ⟨h1, _, h3⟩ := StableBloomFilter_addLoop_spec key (List.range sbf.cellsPerBucket)
      sbf draws hb hc hmax hcells
    refine ⟨h1, ?_⟩
    unfold StableBloomFilter.Test StableBloomFilter.Add
    rw [hf.2.1]
    apply StableBloomFilter_testLoop_true
    · rw [hf.1]; exact hb
    · intro i hi
      have := h3 i hi
      have hsel : ∀ b k, (sbf.addLoop key (List.range sbf.cellsPerBucket) draws).2.1.selectCell
          b key k = sbf.selectCell b key k := by
        intro b k
        simp [StableBloomFilter.selectCell, hf.2.1]
      rw [hsel, hf.1]
      exact this
  · have hc0 : sbf.cellsPerBucket = 0 := by omega
    simp [StableBloomFilter.Add, StableBloomFilter.Test, hc0, StableBloomFilter.addLoop,
      StableBloomFilter.testLoop]

/-- A sequence of `Add` and `Reset` calls changes neither the parameters of the
filter nor the length of `cells`. -/
theorem StableBloomFilter_applyOps_frame (ops : List StableOp) :
    ∀ (sbf : StableBloomFilter),
      (sbf.applyOps ops).2.buckets = sbf.buckets ∧
      (sbf.applyOps ops).2.cellsPerBucket = sbf.cellsPerBucket ∧
      (sbf.applyOps ops).2.maxCount = sbf.maxCount ∧
      (sbf.applyOps ops).2.cells.length = sbf.cells.length := by
  induction ops with
  | nil => intro sbf; simp [StableBloomFilter.applyOps]
  | cons op rest ih =>
    intro sbf
    cases op with
    | add key draws =>
      have hf := StableBloomFilter_addLoop_frame key (List.range sbf.cellsPerBucket) sbf draws
      rcases ha : sbf.Add key draws with ⟨o, sbf1, draws1⟩
      rw [StableBloomFilter.Add] at ha
      rw [ha] at hf
      simp only at hf
      cases o with
      | returned u =>
        simp only [StableBloomFilter.applyOps, StableBloomFilter.Add, ha]
        have := ih sbf1
        rw [hf.1, hf.2.1, hf.2.2.1, hf.2.2.2] at this
        exact this
      | panicked msg =>
        simp only [StableBloomFilter.applyOps, StableBloomFilter.Add, ha]
        exact hf
    | reset =>
      simp only [StableBloomFilter.applyOps]
      have := ih sbf.Reset
      simpa [StableBloomFilter.Reset] using this

/-- A sequence of `Add` and `Reset` calls on a filter whose array covers every
cell returns. -/
theorem StableBloomFilter_applyOps_returns (ops : List StableOp) :
    ∀ (sbf : StableBloomFilter), 1 ≤ sbf.buckets → sbf.maxCount = 3 →
      sbf.buckets * sbf.cellsPerBucket ≤ 32 * sbf.cells.length →
      (sbf.applyOps ops).1 = .returned () := by
  induction ops with
  | nil => intro sbf _ _ _; rfl
  | cons op rest ih =>
    intro sbf hb hmax hcells
    cases op with
    | add key draws =>
      have hf := StableBloomFilter_addLoop_frame key (List.range sbf.cellsPerBucket) sbf draws
      have hr := (StableBloomFilter_Add_then_Test sbf key draws hb hmax hcells).1
      rcases ha : sbf.Add key draws with ⟨o, sbf1, draws1⟩
      rw [ha] at hr
      rw [StableBloomFilter.Add] at ha
      rw [ha] at hf
      simp only at hf hr
      subst hr
      simp only [StableBloomFilter.applyOps, StableBloomFilter.Add, ha]
      exact ih sbf1 (by omega) (by omega) (by rw [hf.1, hf.2.1, hf.2.2.2]; exact hcells)
    | reset =>
      simp only [StableBloomFilter.applyOps]
      exact ih sbf.Reset hb hmax (by simpa [StableBloomFilter.Reset] using hcells)

/-- The array of a new filter covers every cell when the number of cells,
rounded up to whole words, fits `uint32`. -/
theorem NewStableBloomFilter_covers (buckets cellsPerBucket : Nat)
    (hfit : buckets * (if cellsPerBucket = 0 then 1 else cellsPerBucket) + 31 < 2 ^ 32) :
    (NewStableBloomFilter buckets cellsPerBucket).buckets
        * (NewStableBloomFilter buckets cellsPerBucket).cellsPerBucket
      ≤ 32 * (NewStableBloomFilter buckets cellsPerBucket).cells.length := by
  simp only [NewStableBloomFilter, List.length_replicate]
  generalize buckets * (if cellsPerBucket = 0 then 1 else cellsPerBucket) = t at hfit ⊢
  omega

/-- C18: starting from a new filter, after any sequence of `Add` and `Reset`
calls, whatever the outcomes of the eviction draws and whether or not a call
panicked, `maxCount` is 3, the length of the `cells` array is the one the
constructor gave it, and `getCellCount` returns a counter of at most 3 for
every cell of the array. -/
theorem StableBloomFilter_bounded_counters (buckets cellsPerBucket : Nat)
    (ops : List StableOp) :
    ((NewStableBloomFilter buckets cellsPerBucket).applyOps ops).2.maxCount = 3 ∧
    ((NewStableBloomFilter buckets cellsPerBucket).applyOps ops).2.cells.length
      = (NewStableBloomFilter buckets cellsPerBucket).cells.length ∧
    ∀ i : Fin (32 * ((NewStableBloomFilter buckets cellsPerBucket).applyOps ops).2.cells.length),
      ∃ n, n ≤ ((NewStableBloomFilter buckets cellsPerBucket).applyOps ops).2.maxCount ∧
        ((NewStableBloomFilter buckets cellsPerBucket).applyOps ops).2.getCellCount i.val
          = .returned n := by
  obtain ⟨_, _, hm, hl⟩ :=
    StableBloomFilter_applyOps_frame ops (NewStableBloomFilter buckets cellsPerBucket)
  have hm3 : ((NewStableBloomFilter buckets cellsPerBucket).applyOps ops).2.maxCount = 3 := by
    rw [hm]; rfl
  refine ⟨hm3, hl, ?_⟩
  intro i
  have hi : i.val / 32
      < ((NewStableBloomFilter buckets cellsPerBucket).applyOps ops).2.cells.length := by
    have := i.isLt
    omega
  rw [StableBloomFilter_getCellCount_eq, List.getElem?_eq_getElem hi, hm3]
  refine ⟨_, ?_, rfl⟩
  have : (((NewStableBloomFilter buckets cellsPerBucket).applyOps ops).2.cells[i.val / 32]
      >>> (i.val % 32 * 2)) % 4 < 4 := Nat.mod_lt _ (by norm_num)
  omega

/-- C19, the claim as stated fails: the filter that
`NewStableBloomFilter(1325004, 0.99, _)` builds has 91382298 buckets of 47
cells; their product 4294968006 wraps to 710 in `uint32`, so the array has 23
words. The first cell of the key `hello` is 4207803558, in word 131493861:
`Add` panics, and so does `Test`. -/
theorem StableBloomFilter_Add_overflow_counterexample :
    1 ≤ (NewStableBloomFilter 91382298 47).buckets ∧
    (NewStableBloomFilter 91382298 47).cells.length = 23 ∧
    (NewStableBloomFilter 91382298 47).cellFor "hello" 0 = .returned 4207803558 ∧
    ((NewStableBloomFilter 91382298 47).Add "hello" []).1
      = .panicked "index out of range" ∧
    ((NewStableBloomFilter 91382298 47).Add "hello" []).2.1.Test "hello"
      = .panicked "index out of range" := by
  refine ⟨by decide, rfl, rfl, rfl, rfl⟩

/-- C19, amended: for a filter built by `NewStableBloomFilter` with at least
one bucket whose number of cells, rounded up to whole words, fits `uint32`,
after any sequence of `Add` and `Reset` calls (which all return), for every
key and whatever the outcomes of the eviction draws, `Add` returns and `Test`
of the same key directly after it returns true. -/
theorem StableBloomFilter_no_immediate_false_negative (buckets cellsPerBucket : Nat)
    (ops : List StableOp) (key : String) (draws : List Bool)
    (hb : 1 ≤ buckets)
    (hfit : buckets * (if cellsPerBucket = 0 then 1 else cellsPerBucket) + 31 < 2 ^ 32) :
    ((NewStableBloomFilter buckets cellsPerBucket).applyOps ops).1 = .returned () ∧
    (((NewStableBloomFilter buckets cellsPerBucket).applyOps ops).2.Add key draws).1
      = .returned () ∧
    (((NewStableBloomFilter buckets cellsPerBucket).applyOps ops).2.Add key draws).2.1.Test key
      = .returned true := by
  have hcov := NewStableBloomFilter_covers buckets cellsPerBucket hfit
  have hb0 : 1 ≤ (NewStableBloomFilter buckets cellsPerBucket).buckets := hb
  have hm0 : (NewStableBloomFilter buckets cellsPerBucket).maxCount = 3 := rfl
  obtain ⟨fb, fc, fm, fl⟩ :=
    StableBloomFilter_applyOps_frame ops (NewStableBloomFilter buckets cellsPerBucket)
  refine ⟨StableBloomFilter_applyOps_returns ops _ hb0 hm0 hcov, ?_⟩
  exact StableBloomFilter_Add_then_Test _ key draws (by rw [fb]; exact hb0)
    (by rw [fm]; exact hm0) (by rw [fb, fc, fl]; exact hcov)

theorem StableBloomFilter_no_immediate_false_negative_witness :
    ((NewStableBloomFilter 150 0).applyOps
      [.add "a" [], .reset, .add "b" [true]]).1 = .returned () ∧
    (((NewStableBloomFilter 150 0).applyOps
      [.add "a" [], .reset, .add "b" [true]]).2.Add "hello" [false]).1 = .returned () ∧
    (((NewStableBloomFilter 150 0).applyOps
      [.add "a" [], .reset, .add "b" [true]]).2.Add "hello" [false]).2.1.Test "hello"
      = .returned true :=
  StableBloomFilter_no_immediate_false_negative 150 0 [.add "a" [], .reset, .add "b" [true]]
    "hello" [false] (by decide) (by decide)

end Stable

end Fiberhouse

namespace Fiberhouse

section TripPredicate

open gobreaker

/-- C21: the breaker that `NewCircuitBreakerWrap` builds without settings (or
with settings that leave `ReadyToTrip` nil) trips by `defaultReadyToTrip`,
which returns true if and only if `ConsecutiveFailures >= 5`, or
`Requests >= 10` and `2 * TotalFailures >= Requests`; with fewer than 10
requests it returns true exactly when `ConsecutiveFailures >= 5`. -/
theorem defaultReadyToTrip_iff (name : String) (now : Int) (st : Settings)
    (rest : List (Option Settings)) (counts : Counts) :
    (NewCircuitBreakerWrap name [] now).cb.readyToTrip = defaultReadyToTrip ∧
    (NewCircuitBreakerWrap name (none :: rest) now).cb.readyToTrip = defaultReadyToTrip ∧
    (NewCircuitBreakerWrap name (some { st with ReadyToTrip := none } :: rest) now).cb.readyToTrip
      = defaultReadyToTrip ∧
    (defaultReadyToTrip counts = true ↔
      5 ≤ counts.ConsecutiveFailures ∨
        (10 ≤ counts.Requests ∧ counts.Requests ≤ 2 * counts.TotalFailures)) ∧
    (counts.Requests < 10 →
      (defaultReadyToTrip counts = true ↔ 5 ≤ counts.ConsecutiveFailures)) := by
  refine ⟨rfl, rfl, rfl, ?_, ?_⟩
  · unfold defaultReadyToTrip
    split_ifs with h1 h2
    · simp [h1]
    · simp only [decide_eq_true_eq]
      omega
    · simp only [decide_eq_true_eq]
      omega
  · intro hlt
    unfold defaultReadyToTrip
    split_ifs with h1
    · simp [h1]
    · simp only [decide_eq_true_eq]
      omega

end TripPredicate

section OptionReset

variable {R : Type}

/-- C27: `Reset` leaves `AppCtx` and gives every other field the value that
`NewCacheOption` gives it, so the option after `Reset` is the option that
`NewCacheOption` builds for the same `AppCtx`: enabled, strategy
`WriteRemoteOnly`, level 0, the three protection flags off, the two keys
empty, serializer and context nil, both TTLs fixed with base 0 and range 0.
`Reset` is idempotent, and the option that `OptionPoolPut` or `Release` adds
to the pool is the reset one. -/
theorem Reset_restores_defaults (c : CacheOption R) (p : OptionPool R) (captured : Option IContext) :
    c.Reset.AppCtx = c.AppCtx ∧
    c.Reset = NewCacheOption c.AppCtx ∧
    (c.Reset.enable = true ∧ c.Reset.syncStrategy = WriteRemoteOnly ∧ c.Reset.cacheLevel = 0 ∧
      c.Reset.singleFlight = false ∧ c.Reset.bloomFilter = false ∧
      c.Reset.circuitBreaker = false ∧ c.Reset.cacheKey = "" ∧
      c.Reset.defaultInstanceKey = "" ∧ c.Reset.jsonWrapper.isNone = true ∧
      c.Reset.ctx = none ∧
      c.Reset.localTTLConfig = some { BaseTTL := 0, RandomRange := 0, UseRandom := false } ∧
      c.Reset.remoteTTLConfig = some { BaseTTL := 0, RandomRange := 0, UseRandom := false }) ∧
    c.Reset.Reset = c.Reset ∧
    OptionPoolPut c { p with New := some captured }
      = (.returned (), { New := some captured, free := NewCacheOption c.AppCtx :: p.free }) ∧
    c.Release { p with New := some captured }
      = (.returned (), { New := some captured, free := NewCacheOption c.AppCtx :: p.free }) ∧
    (OptionPoolPut c { p with New := none }).2.free = p.free := by
  have h : c.Reset = NewCacheOption c.AppCtx := rfl
  refine ⟨rfl, h, ⟨rfl, rfl, rfl, rfl, rfl, rfl, rfl, rfl, rfl, rfl, rfl, rfl⟩, rfl, ?_, ?_, rfl⟩
  · simp [OptionPoolPut, h]
  · simp [CacheOption.Release, OptionPoolPut, h]

end OptionReset

section ShardRouting

variable {β : Type}

/-- A sequence of calls on a well-formed sharded filter returns and keeps the
mask and the number of shards. -/
theorem ShardedBloomFilter_applyOps_wf (lib : BloomFilter β) (ops : List BloomOp) :
    ∀ (sb : ShardedBloomFilter β), sb.mask < sb.shards.length →
      (sb.applyOps lib ops).1 = .returned () ∧
      (sb.applyOps lib ops).2.mask = sb.mask ∧
      (sb.applyOps lib ops).2.shards.length = sb.shards.length := by
  induction ops with
  | nil => intro sb _; exact ⟨rfl, rfl, rfl⟩
  | cons op ops ih =>
    intro sb hwf
    obtain ⟨h1, h2, h3⟩ := ShardedBloomFilter_applyOp_wf lib op sb hwf
    rcases hop : sb.applyOp lib op with ⟨o, sb1⟩
    rw [hop] at h1 h2 h3
    simp only at h1 h2 h3
    subst h1
    obtain ⟨i1, i2, i3⟩ := ih sb1 (by rw [h2, h3]; exact hwf)
    simp only [ShardedBloomFilter.applyOps, hop]
    exact ⟨i1, by rw [i2, h2], by rw [i3, h3]⟩

/-- C28: for every `shardCount` given to `NewShardedBloomFilter` the filter
has 16 shards when `shardCount <= 0` and `shardCount` shards otherwise; after
any sequence of calls (none of which panics) the number of shards is the same,
`idx(key)` is below it for every key, and `Add`, `Test` and `TestAndAdd` of the
key return instead of indexing outside the slice. -/
theorem ShardedBloomFilter_routing_in_range (lib : BloomFilter β) (shardCount : Int)
    (fresh : β) (ops : List BloomOp) (key : String) :
    (NewShardedBloomFilter shardCount fresh).shards.length
      = (if shardCount ≤ 0 then 16 else shardCount.toNat) ∧
    ((NewShardedBloomFilter shardCount fresh).applyOps lib ops).1 = .returned () ∧
    ((NewShardedBloomFilter shardCount fresh).applyOps lib ops).2.shards.length
      = (NewShardedBloomFilter shardCount fresh).shards.length ∧
    ((NewShardedBloomFilter shardCount fresh).applyOps lib ops).2.idx key
      < ((NewShardedBloomFilter shardCount fresh).applyOps lib ops).2.shards.length ∧
    (((NewShardedBloomFilter shardCount fresh).applyOps lib ops).2.Add lib key).1
      = .returned () ∧
    (∃ b, ((NewShardedBloomFilter shardCount fresh).applyOps lib ops).2.Test lib key
      = .returned b) ∧
    (∃ b, (((NewShardedBloomFilter shardCount fresh).applyOps lib ops).2.TestAndAdd lib key).1
      = .returned b) := by
  obtain ⟨h1, h2, h3⟩ := ShardedBloomFilter_applyOps_wf lib ops
    (NewShardedBloomFilter shardCount fresh) (NewShardedBloomFilter_mask shardCount fresh)
  have hlen : (NewShardedBloomFilter shardCount fresh).shards.length
      = (if shardCount ≤ 0 then 16 else shardCount.toNat) := by
    simp only [NewShardedBloomFilter, List.length_replicate]
    split_ifs <;> rfl
  have hwf : ((NewShardedBloomFilter shardCount fresh).applyOps lib ops).2.mask
      < ((NewShardedBloomFilter shardCount fresh).applyOps lib ops).2.shards.length := by
    rw [h2, h3]
    exact NewShardedBloomFilter_mask shardCount fresh
  have hi := ShardedBloomFilter_idx_lt _ key hwf
  refine ⟨hlen, h1, h3, hi, ?_, ?_, ?_⟩
  · simp [ShardedBloomFilter.Add, List.getElem?_eq_getElem hi]
  · simp only [ShardedBloomFilter.Test, List.getElem?_eq_getElem hi]
    exact ⟨_, rfl⟩
  · simp only [ShardedBloomFilter.TestAndAdd, List.getElem?_eq_getElem hi]
    exact ⟨_, rfl⟩

end ShardRouting

end Fiberhouse

namespace Fiberhouse

section StableCells

/-- On a cell inside the array `incrementCell` returns. -/
theorem StableBloomFilter_incrementCell_returns (sbf : StableBloomFilter) (i : Nat)
    (draws : List Bool) (hin : i / 32 < sbf.cells.length) :
    (sbf.incrementCell i draws).1 = .returned () := by
  simp only [StableBloomFilter.incrementCell, List.getElem?_eq_getElem hin]

/-- The loop of `Add` returns when the array covers every cell. -/
theorem StableBloomFilter_addLoop_returns (key : String) (seeds : List Nat) :
    ∀ (sbf : StableBloomFilter) (draws : List Bool),
      1 ≤ sbf.buckets → 0 < sbf.cellsPerBucket →
      sbf.buckets * sbf.cellsPerBucket ≤ 32 * sbf.cells.length →
      (sbf.addLoop key seeds draws).1 = .returned () := by
  induction seeds with
  | nil => intro sbf draws _ _ _; rfl
  | cons i rest ih =>
    intro sbf draws hb hc hcells
    have hb0 : sbf.buckets ≠ 0 := by omega
    have hin := StableBloomFilter_selectCell_lt sbf key i hb hc hcells
    have hret := StableBloomFilter_incrementCell_returns sbf _ draws hin
    obtain ⟨hfb, hfc, -, hfl⟩ := StableBloomFilter_incrementCell_frame sbf
      (sbf.selectCell (StableBloomFilter.hash key i % sbf.buckets) key i) draws
    rcases hi : sbf.incrementCell
      (sbf.selectCell (StableBloomFilter.hash key i % sbf.buckets) key i) draws
      with ⟨o, sbf1, draws1⟩
    rw [hi] at hret hfb hfc hfl
    simp only at hret hfb hfc hfl
    subst hret
    simp only [StableBloomFilter.addLoop, StableBloomFilter.cellFor, hb0, if_false, hi]
    exact ih sbf1 draws1 (by omega) (by omega) (by rw [hfb, hfc, hfl]; exact hcells)

/-- The loop of `Test` returns when the array covers every cell. -/
theorem StableBloomFilter_testLoop_returns (sbf : StableBloomFilter) (key : String)
    (seeds : List Nat) (hb : 1 ≤ sbf.buckets) (hc : 0 < sbf.cellsPerBucket)
    (hcells : sbf.buckets * sbf.cellsPerBucket ≤ 32 * sbf.cells.length) :
    ∃ b, sbf.testLoop key seeds = .returned b := by
  have hb0 : sbf.buckets ≠ 0 := by omega
  induction seeds with
  | nil => exact ⟨true, rfl⟩
  | cons i rest ih =>
    have hin := StableBloomFilter_selectCell_lt sbf key i hb hc hcells
    simp only [StableBloomFilter.testLoop, StableBloomFilter.cellFor, hb0, if_false,
      StableBloomFilter_getCellCount_eq, List.getElem?_eq_getElem hin]
    split_ifs
    · exact ⟨false, rfl⟩
    · exact ih

/-- The cell of a seed is one of the `buckets * cellsPerBucket` cells. -/
theorem StableBloomFilter_selectCell_lt_total (sbf : StableBloomFilter) (key : String)
    (i : Nat) (hb : 1 ≤ sbf.buckets) (hc : 0 < sbf.cellsPerBucket) :
    sbf.selectCell (StableBloomFilter.hash key i % sbf.buckets) key i
      < sbf.buckets * sbf.cellsPerBucket := by
  unfold StableBloomFilter.selectCell
  simp only
  generalize StableBloomFilter.hash key i = h
  generalize fnv32a _ = g
  have h1 : h % sbf.buckets < sbf.buckets := Nat.mod_lt _ hb
  have h2 : g % sbf.cellsPerBucket < sbf.cellsPerBucket := Nat.mod_lt _ hc
  have h3 : (h % sbf.buckets + 1) * sbf.cellsPerBucket ≤ sbf.buckets * sbf.cellsPerBucket :=
    Nat.mul_le_mul_right _ h1
  have h4 : (h % sbf.buckets + 1) * sbf.cellsPerBucket
      = h % sbf.buckets * sbf.cellsPerBucket + sbf.cellsPerBucket := by ring
  have h5 : (h % sbf.buckets * sbf.cellsPerBucket + g % sbf.cellsPerBucket) % 2 ^ 32
      ≤ h % sbf.buckets * sbf.cellsPerBucket + g % sbf.cellsPerBucket := Nat.mod_le _ _
  omega

/-- C29: for a filter with at least one bucket, at least one cell per bucket
and a `cells` array of `ceil(buckets*cellsPerBucket/32)` words (with fewer than
`2^32` cells in particular), the cell that `Add` and `Test` compute for any key and any seed is
computed without a division by zero, is below `buckets*cellsPerBucket`, and
its word index is below `len(cells)`; `Add` and `Test` return, and `Add`
keeps the parameters and the length of the array. -/
theorem StableBloomFilter_addressing_in_range (sbf : StableBloomFilter) (key : String)
    (draws : List Bool) (hb : 1 ≤ sbf.buckets) (hc : 1 ≤ sbf.cellsPerBucket)
    (hlen : sbf.cells.length = (sbf.buckets * sbf.cellsPerBucket + 31) / 32) :
    (∀ i, ∃ cell, sbf.cellFor key i = .returned cell ∧
      cell < sbf.buckets * sbf.cellsPerBucket ∧ cell / 32 < sbf.cells.length) ∧
    (sbf.Add key draws).1 = .returned () ∧
    (∃ b, sbf.Test key = .returned b) ∧
    ((sbf.Add key draws).2.1.buckets = sbf.buckets ∧
      (sbf.Add key draws).2.1.cellsPerBucket = sbf.cellsPerBucket ∧
      (sbf.Add key draws).2.1.cells.length = sbf.cells.length) := by
  have hb0 : sbf.buckets ≠ 0 := by omega
  have hcells : sbf.buckets * sbf.cellsPerBucket ≤ 32 * sbf.cells.length := by
    rw [hlen]
    omega
  obtain ⟨f1, f2, -, f4⟩ :=
    StableBloomFilter_addLoop_frame key (List.range sbf.cellsPerBucket) sbf draws
  refine ⟨?_, ?_, ?_, f1, f2, f4⟩
  · intro i
    refine ⟨sbf.selectCell (StableBloomFilter.hash key i % sbf.buckets) key i, ?_,
      StableBloomFilter_selectCell_lt_total sbf key i hb hc,
      StableBloomFilter_selectCell_lt sbf key i hb hc hcells⟩
    simp [StableBloomFilter.cellFor, hb0]
  · exact StableBloomFilter_addLoop_returns key _ sbf draws hb hc hcells
  · exact StableBloomFilter_testLoop_returns sbf key _ hb hc hcells

theorem StableBloomFilter_addressing_in_range_witness :
    (∃ cell, (NewStableBloomFilter 150 2).cellFor "hello" 1 = .returned cell ∧
      cell < (NewStableBloomFilter 150 2).buckets * (NewStableBloomFilter 150 2).cellsPerBucket ∧
      cell / 32 < (NewStableBloomFilter 150 2).cells.length) ∧
    ((NewStableBloomFilter 150 2).Add "hello" [true]).1 = .returned () ∧
    (∃ b, (NewStableBloomFilter 150 2).Test "hello" = .returned b) :=
  ⟨(StableBloomFilter_addressing_in_range (NewStableBloomFilter 150 2) "hello" [true]
      (by decide) (by decide) (by decide)).1 1,
   (StableBloomFilter_addressing_in_range (NewStableBloomFilter 150 2) "hello" [true]
      (by decide) (by decide) (by decide)).2.1,
   (StableBloomFilter_addressing_in_range (NewStableBloomFilter 150 2) "hello" [true]
      (by decide) (by decide) (by decide)).2.2.1⟩

/-- The counter that `incrementCell` writes for a filter whose `maxCount` is
1, 2 or 3: one more below `maxCount`; at or above it one less when the draw
evicts, the same otherwise. -/
theorem StableBloomFilter_incrementCell_step (sbf : StableBloomFilter) (i : Nat)
    (draws : List Bool) (hin : i / 32 < sbf.cells.length)
    (hmax1 : 1 ≤ sbf.maxCount) (hmax3 : sbf.maxCount ≤ 3) :
    ∃ old n, sbf.getCellCount i = .returned old ∧ old < 4 ∧ n < 4 ∧
      (old < sbf.maxCount → n = old + 1) ∧
      (sbf.maxCount ≤ old → n = if draws.headD false = true then old - 1 else old) ∧
      sbf.incrementCell i draws =
        (.returned (),
          { sbf with
            cells := sbf.cells.set (i / 32)
              ((sbf.cells[i / 32] &&& (2 ^ 64 - 1 - (3 <<< (i % 32 * 2)) % 2 ^ 64)) |||
                ((n <<< (i % 32 * 2)) % 2 ^ 64)) },
          if old < sbf.maxCount then draws else draws.tail) := by
  have hv : sbf.cells[i / 32]? = some (sbf.cells[i / 32]) := List.getElem?_eq_getElem hin
  have ho : i % 32 * 2 ≤ 62 := by omega
  have hc : (sbf.cells[i / 32] >>> (i % 32 * 2)) % 4 < 4 := Nat.mod_lt _ (by norm_num)
  refine ⟨(sbf.cells[i / 32] >>> (i % 32 * 2)) % 4, ?_⟩
  rw [StableBloomFilter_getCellCount_eq]
  simp only [hv, StableBloomFilter.incrementCell, cell_read _ _ ho]
  generalize (sbf.cells[i / 32] >>> (i % 32 * 2)) % 4 = cur at hc ⊢
  by_cases hlt : cur < sbf.maxCount
  · refine ⟨cur + 1, trivial, hc, by omega, fun _ => rfl, fun h => by omega, ?_⟩
    have h256 : (cur + 1) % 256 = cur + 1 := by omega
    simp [hlt, h256]
  · rcases draws with _ | ⟨d, ds⟩
    · refine ⟨cur, trivial, hc, hc, fun h => by omega, fun _ => by simp, ?_⟩
      simp [hlt, StableBloomFilter.shouldEvict]
    · cases d
      · refine ⟨cur, trivial, hc, hc, fun h => by omega, fun _ => by simp, ?_⟩
        simp [hlt, StableBloomFilter.shouldEvict]
      · have h256 : (cur + 255) % 256 = cur - 1 := by omega
        refine ⟨cur - 1, trivial, hc, by omega, fun h => by omega, fun _ => by simp, ?_⟩
        simp [hlt, StableBloomFilter.shouldEvict, h256]

/-- Frame and effect of `incrementCell` on the counters, for a filter whose
`maxCount` is 1, 2 or 3 and a cell inside the array. -/
theorem StableBloomFilter_incrementCell_effect (sbf : StableBloomFilter) (i : Nat)
    (draws : List Bool) (hin : i / 32 < sbf.cells.length)
    (hmax1 : 1 ≤ sbf.maxCount) (hmax3 : sbf.maxCount ≤ 3) :
    ∃ old n, sbf.getCellCount i = .returned old ∧
      (old < sbf.maxCount → n = old + 1) ∧
      (sbf.maxCount ≤ old → n = if draws.headD false = true then old - 1 else old) ∧
      (sbf.incrementCell i draws).1 = .returned () ∧
      (sbf.incrementCell i draws).2.1.getCellCount i = .returned n ∧
      (∀ j, j ≠ i → (sbf.incrementCell i draws).2.1.getCellCount j = sbf.getCellCount j) ∧
      (∀ w, w ≠ i / 32 → (sbf.incrementCell i draws).2.1.cells[w]? = sbf.cells[w]?) := by
  have hv : sbf.cells[i / 32]? = some (sbf.cells[i / 32]) := List.getElem?_eq_getElem hin
  obtain ⟨old, n, hold, -, hn4, hinc, hev, heq⟩ :=
    StableBloomFilter_incrementCell_step sbf i draws hin hmax1 hmax3
  refine ⟨old, n, hold, hinc, hev, ?_⟩
  rw [heq]
  refine ⟨rfl, ?_, ?_, ?_⟩
  · rw [StableBloomFilter_getCellCount_eq]
    simp only [List.getElem?_set_self hin]
    rw [cell_write_same _ _ n (by omega) hn4]
  · intro j hj
    rw [StableBloomFilter_getCellCount_eq, StableBloomFilter_getCellCount_eq]
    by_cases hw : j / 32 = i / 32
    · simp only [hw, List.getElem?_set_self hin, hv]
      rw [cell_write_other _ (i % 32 * 2) (j % 32 * 2) n (by omega) hn4 (by omega) (by omega)
        (by omega)]
    · have hw2 : i / 32 ≠ j / 32 := fun h => hw h.symm
      simp only [List.getElem?_set_ne hw2]
  · intro w hw
    have hw2 : i / 32 ≠ w := fun h => hw h.symm
    simp only [List.getElem?_set_ne hw2]

/-- C30: for a filter whose `maxCount` is 1, 2 or 3 (the constructor sets 3),
every `cells` array and every cell index `i` inside the array, with `old` the
counter of `i`: `incrementCell(i)` returns, the counter that `getCellCount(j)`
reads is unchanged for every `j != i`, every other word of the array is
untouched and the array keeps its length; `getCellCount(i)` is `old + 1` when
`old < maxCount`, and when `old = maxCount` it is `maxCount - 1` if the draw
evicts and `maxCount` if not. -/
theorem StableBloomFilter_incrementCell_only_target (sbf : StableBloomFilter) (i : Nat)
    (draws : List Bool) (old : Nat) (hin : i / 32 < sbf.cells.length)
    (hmax1 : 1 ≤ sbf.maxCount) (hmax3 : sbf.maxCount ≤ 3)
    (hold : sbf.getCellCount i = .returned old) :
    (sbf.incrementCell i draws).1 = .returned () ∧
    (∀ j, j ≠ i → (sbf.incrementCell i draws).2.1.getCellCount j = sbf.getCellCount j) ∧
    (∀ w, w ≠ i / 32 → (sbf.incrementCell i draws).2.1.cells[w]? = sbf.cells[w]?) ∧
    (sbf.incrementCell i draws).2.1.cells.length = sbf.cells.length ∧
    (old < sbf.maxCount →
      (sbf.incrementCell i draws).2.1.getCellCount i = .returned (old + 1)) ∧
    (old = sbf.maxCount →
      (sbf.incrementCell i draws).2.1.getCellCount i
        = .returned (if draws.headD false = true then sbf.maxCount - 1 else sbf.maxCount)) := by
  obtain ⟨old1, n, hold1, hinc, hev, hret, hsame, hother, hwords⟩ :=
    StableBloomFilter_incrementCell_effect sbf i draws hin hmax1 hmax3
  rw [hold1, Outcome.returned.injEq] at hold
  subst hold
  refine ⟨hret, hother, hwords, (StableBloomFilter_incrementCell_frame sbf i draws).2.2.2, ?_, ?_⟩
  · intro h
    rw [hsame, hinc h]
  · intro h
    rw [hsame, hev (by omega), h]

theorem StableBloomFilter_incrementCell_only_target_witness :
    (StableBloomFilter.incrementCell ⟨4, 1, 3, [228]⟩ 3 [true]).1 = .returned () ∧
    (StableBloomFilter.incrementCell ⟨4, 1, 3, [228]⟩ 3 [true]).2.1.getCellCount 2
      = StableBloomFilter.getCellCount ⟨4, 1, 3, [228]⟩ 2 ∧
    (StableBloomFilter.incrementCell ⟨4, 1, 3, [228]⟩ 3 [true]).2.1.cells.length = 1 ∧
    (StableBloomFilter.incrementCell ⟨4, 1, 3, [228]⟩ 3 [true]).2.1.getCellCount 3
      = .returned 2 ∧
    (StableBloomFilter.incrementCell ⟨4, 1, 3, [228]⟩ 1 [true]).2.1.getCellCount 1
      = .returned 2 :=
  ⟨(StableBloomFilter_incrementCell_only_target ⟨4, 1, 3, [228]⟩ 3 [true] 3
      (by decide) (by decide) (by decide) rfl).1,
   (StableBloomFilter_incrementCell_only_target ⟨4, 1, 3, [228]⟩ 3 [true] 3
      (by decide) (by decide) (by decide) rfl).2.1 2 (by decide),
   (StableBloomFilter_incrementCell_only_target ⟨4, 1, 3, [228]⟩ 3 [true] 3
      (by decide) (by decide) (by decide) rfl).2.2.2.1,
   (StableBloomFilter_incrementCell_only_target ⟨4, 1, 3, [228]⟩ 3 [true] 3
      (by decide) (by decide) (by decide) rfl).2.2.2.2.2 rfl,
   (StableBloomFilter_incrementCell_only_target ⟨4, 1, 3, [228]⟩ 1 [true] 1
      (by decide) (by decide) (by decide) rfl).2.2.2.2.1 (by decide)⟩

/-- C25 (the code breaks the claim): eviction never reaches another cell. In
the filter of 150 cells that `NewStableBloomFilter(1000, 0.01, _)` builds,
after `Add("cold")` once and `Add("hello")` three times the cell of `cold`,
cell 147, is at 1 and the cell of `hello`, cell 133, is saturated at 3. Each
further `Add("hello")` whose draw evicts moves only cell 133, between 2 and 3:
the saturated cell does not keep its value, the array after the first such
`Add` is the array after two `Add("hello")`, and cell 147 stays at 1, so that
`Test("cold")` stays true. -/
theorem StableBloomFilter_eviction_hits_saturated_cell :
    ((NewStableBloomFilter 150 0).applyOps
      [.add "cold" [], .add "hello" [], .add "hello" [], .add "hello" []]).2.cellFor "hello" 0
      = .returned 133 ∧
    ((NewStableBloomFilter 150 0).applyOps
      [.add "cold" [], .add "hello" [], .add "hello" [], .add "hello" []]).2.cellFor "cold" 0
      = .returned 147 ∧
    ((NewStableBloomFilter 150 0).applyOps
      [.add "cold" [], .add "hello" [], .add "hello" [], .add "hello" []]).2.getCellCount 133
      = .returned 3 ∧
    ((NewStableBloomFilter 150 0).applyOps
      [.add "cold" [], .add "hello" [], .add "hello" [], .add "hello" []]).2.getCellCount 147
      = .returned 1 ∧
    ((NewStableBloomFilter 150 0).applyOps
      [.add "cold" [], .add "hello" [], .add "hello" [], .add "hello" [],
        .add "hello" [true]]).2.getCellCount 133 = .returned 2 ∧
    ((NewStableBloomFilter 150 0).applyOps
      [.add "cold" [], .add "hello" [], .add "hello" [], .add "hello" [],
        .add "hello" [true]]).2.cells
      = ((NewStableBloomFilter 150 0).applyOps
          [.add "cold" [], .add "hello" [], .add "hello" []]).2.cells ∧
    ((NewStableBloomFilter 150 0).applyOps
      [.add "cold" [], .add "hello" [], .add "hello" [], .add "hello" [],
        .add "hello" [true], .add "hello" [true], .add "hello" [true]]).2.getCellCount 133
      = .returned 2 ∧
    ((NewStableBloomFilter 150 0).applyOps
      [.add "cold" [], .add "hello" [], .add "hello" [], .add "hello" [],
        .add "hello" [true], .add "hello" [true], .add "hello" [true]]).2.getCellCount 147
      = .returned 1 ∧
    ((NewStableBloomFilter 150 0).applyOps
      [.add "cold" [], .add "hello" [], .add "hello" [], .add "hello" [],
        .add "hello" [true], .add "hello" [true], .add "hello" [true]]).2.Test "cold"
      = .returned true := by
  refine ⟨rfl, rfl, rfl, rfl, rfl, rfl, rfl, rfl, rfl⟩

/-- What `incrementCell` does on a cell inside the array whose counter equals
`maxCount` (1, 2 or 3; the constructor sets 3): it takes one draw; if the draw
evicts, the counter of that same cell goes to `maxCount - 1`, otherwise it
stays; the counter of every other cell is unchanged either way. -/
theorem StableBloomFilter_eviction_same_cell (sbf : StableBloomFilter) (i : Nat)
    (draws : List Bool) (hin : i / 32 < sbf.cells.length)
    (hmax1 : 1 ≤ sbf.maxCount) (hmax3 : sbf.maxCount ≤ 3)
    (hsat : sbf.getCellCount i = .returned sbf.maxCount) :
    (draws.headD false = true →
      (sbf.incrementCell i draws).2.1.getCellCount i = .returned (sbf.maxCount - 1)) ∧
    (draws.headD false = false →
      (sbf.incrementCell i draws).2.1.getCellCount i = .returned sbf.maxCount) ∧
    (∀ j, j ≠ i → (sbf.incrementCell i draws).2.1.getCellCount j = sbf.getCellCount j) ∧
    (sbf.incrementCell i draws).2.2 = draws.tail := by
  obtain ⟨old, n, hold, -, -, hinc, hev, heq⟩ :=
    StableBloomFilter_incrementCell_step sbf i draws hin hmax1 hmax3
  obtain ⟨old1, n1, hold1, -, hev1, -, hsame, hother, -⟩ :=
    StableBloomFilter_incrementCell_effect sbf i draws hin hmax1 hmax3
  rw [hsat, Outcome.returned.injEq] at hold hold1
  subst hold
  subst hold1
  refine ⟨?_, ?_, hother, ?_⟩
  · intro h
    rw [hsame, hev1 (le_refl _), if_pos h]
  · intro h
    rw [hsame, hev1 (le_refl _), if_neg (by rw [h]; exact Bool.false_ne_true)]
  · rw [heq]
    exact if_neg (lt_irrefl _)

theorem StableBloomFilter_eviction_same_cell_witness :
    (StableBloomFilter.incrementCell ⟨4, 1, 3, [228]⟩ 3 [true]).2.1.getCellCount 3
      = .returned 2 ∧
    (StableBloomFilter.incrementCell ⟨4, 1, 3, [228]⟩ 3 [false]).2.1.getCellCount 3
      = .returned 3 ∧
    (StableBloomFilter.incrementCell ⟨4, 1, 3, [228]⟩ 3 [true]).2.1.getCellCount 0
      = StableBloomFilter.getCellCount ⟨4, 1, 3, [228]⟩ 0 ∧
    (StableBloomFilter.incrementCell ⟨4, 1, 3, [228]⟩ 3 [true]).2.2 = [] :=
  ⟨(StableBloomFilter_eviction_same_cell ⟨4, 1, 3, [228]⟩ 3 [true]
      (by decide) (by decide) (by decide) rfl).1 rfl,
   (StableBloomFilter_eviction_same_cell ⟨4, 1, 3, [228]⟩ 3 [false]
      (by decide) (by decide) (by decide) rfl).2.1 rfl,
   (StableBloomFilter_eviction_same_cell ⟨4, 1, 3, [228]⟩ 3 [true]
      (by decide) (by decide) (by decide) rfl).2.2.1 0 (by decide),
   (StableBloomFilter_eviction_same_cell ⟨4, 1, 3, [228]⟩ 3 [true]
      (by decide) (by decide) (by decide) rfl).2.2.2⟩

end StableCells

end Fiberhouse

namespace Fiberhouse

section Manager

variable {ι ω : Type}

/-- Loading the entry that `update` wrote. -/
theorem GlobalManager_Load_update (gm : globalmanager.GlobalManager ι ω) (name : String) (e0 e : globalmanager.entry ι ω)
    (h : gm.Load name = some e0) : (gm.update name e).Load name = some e := by
  obtain ⟨l⟩ := gm
  simp only [globalmanager.GlobalManager.Load, globalmanager.GlobalManager.update] at h ⊢
  induction l with
  | nil => simp [List.lookup] at h
  | cons p rest ih =>
    obtain ⟨k, v⟩ := p
    by_cases hk : k = name
    · subst hk
      rw [List.map_cons, if_pos rfl, List.lookup_cons, beq_self_eq_true]
    · have hne : (name == k) = false := by
        simp only [beq_eq_false_iff_ne, ne_eq]
        exact fun h => hk h.symm
      rw [List.lookup_cons, hne] at h
      rw [List.map_cons, if_neg hk, List.lookup_cons, hne]
      exact ih h

/-- An entry that has not been initialized with success: it is as `Register`
made it, or its last initialization failed. Then `Get` runs the initializer;
when that returns an instance and a nil error, `Get` returns the instance and
the entry holds it. -/
theorem GlobalManager_Get_success (gm : globalmanager.GlobalManager ι ω) (name : String) (e : globalmanager.entry ι ω)
    (w w1 : ω) (inst : ι) (hload : gm.Load name = some e) (hmu : e.mu = false)
    (hst : (e.initialized = 0 ∧ e.once = false) ∨ e.initialized = -1)
    (hf : e.initializer w = (.returned (some inst, none), w1)) :
    gm.Get name w = (.returned (some inst, none),
      gm.update name { e with once := true, instance_ := some inst, initialized := 1 }, w1) := by
  rcases hst with ⟨h0, ho⟩ | hm
  · simp [globalmanager.GlobalManager.Get, hload, h0, ho, globalmanager.GlobalManager.onceBody, hf, globalmanager.atomicValueStore]
  · simp [globalmanager.GlobalManager.Get, hload, hm, hmu, globalmanager.GlobalManager.onceBody, hf, globalmanager.atomicValueStore]

/-- On such an entry, when the initializer fails (it returns an error, panics,
or returns nil with a nil error, which `atomic.Value` refuses), `Get` returns
a nil instance with the error `err` that names the cause, and the entry is
marked failed. -/
theorem GlobalManager_Get_failure (gm : globalmanager.GlobalManager ι ω) (name : String) (e : globalmanager.entry ι ω)
    (w : ω) (hload : gm.Load name = some e) (hinst : e.instance_ = none)
    (hmu : e.mu = false) (hst : (e.initialized = 0 ∧ e.once = false) ∨ e.initialized = -1)
    (cause : String)
    (hf : (∃ x err, (e.initializer w).1 = .returned (x, some err) ∧
            cause = "failed to initialize global object '" ++ name ++ "': " ++ err.Error) ∨
          ((e.initializer w).1 = .returned (none, none) ∧
            cause = "panic occurred while initializing global object '" ++ name
              ++ "': " ++ "sync/atomic: store of nil value into Value") ∨
          (∃ r, (e.initializer w).1 = .panicked r ∧
            cause = "panic occurred while initializing global object '" ++ name ++ "': " ++ r)) :
    gm.Get name w = (.returned (none, some (.errorf cause)),
      gm.update name { e with once := true, initialized := -1 }, (e.initializer w).2) := by
  rcases hi : e.initializer w with ⟨o, w1⟩
  rw [hi] at hf
  simp only at hf
  have hbody : globalmanager.GlobalManager.onceBody name { e with once := false, initialized := 0 } w
      = (some (.errorf cause), { e with once := true, initialized := -1 }, w1) := by
    rcases hf with ⟨x, err, ho, hc⟩ | ⟨ho, hc⟩ | ⟨r, ho, hc⟩
    · subst ho; subst hc
      simp [globalmanager.GlobalManager.onceBody, hi]
    · subst ho; subst hc
      simp [globalmanager.GlobalManager.onceBody, hi, globalmanager.atomicValueStore]
    · subst ho; subst hc
      simp [globalmanager.GlobalManager.onceBody, hi]
  rcases hst with ⟨h0, ho⟩ | hm
  · have he : ({ e with once := false, initialized := 0 } : globalmanager.entry ι ω) = e := by
      cases e
      simp only at h0 ho
      subst h0; subst ho
      rfl
    rw [he] at hbody
    simp [globalmanager.GlobalManager.Get, hload, h0, ho, hbody, hinst]
  · simp only [hinst, hmu] at hbody
    simp [globalmanager.GlobalManager.Get, hload, hm, hmu, hbody, hinst]

/-- Once an entry holds an instance, every `Get` returns it and changes
nothing: the initializer is not run. -/
theorem GlobalManager_Gets_initialized (name : String) (inst : ι) (n : Nat)
    (gm : globalmanager.GlobalManager ι ω) (w : ω) (e : globalmanager.entry ι ω) (hload : gm.Load name = some e)
    (h1 : e.initialized = 1) (hinst : e.instance_ = some inst) :
    gm.Gets name n w = (List.replicate n (.returned (some inst, none)), gm, w) := by
  have hget : gm.Get name w = (.returned (some inst, none), gm, w) := by
    simp [globalmanager.GlobalManager.Get, hload, h1, hinst]
  induction n with
  | zero => rfl
  | succ n ih =>
    simp only [globalmanager.GlobalManager.Gets, hget, ih, List.replicate_succ]

/-- While the initializer fails, each of `n` calls of `Get` runs it once and
returns a nil instance with an error. -/
theorem GlobalManager_Gets_failing (name : String) (f : globalmanager.InitializerFunc ι ω) (n : Nat) :
    ∀ (gm : globalmanager.GlobalManager ι (ω × Nat)) (e : globalmanager.entry ι (ω × Nat)) (w : ω) (k : Nat),
      gm.Load name = some e → e.initializer = counted f → e.instance_ = none → e.mu = false →
      ((e.initialized = 0 ∧ e.once = false) ∨ e.initialized = -1) →
      (∀ w', (∃ x err, (f w').1 = .returned (x, some err)) ∨
        (f w').1 = .returned (none, none) ∨ (∃ r, (f w').1 = .panicked r)) →
      (gm.Gets name n (w, k)).2.2.2 = k + n ∧
      ∀ r ∈ (gm.Gets name n (w, k)).1, ∃ err, r = .returned (none, some err) := by
  induction n with
  | zero =>
    intro gm e w k _ _ _ _ _ _
    simp [globalmanager.GlobalManager.Gets]
  | succ n ih =>
    intro gm e w k hload hinit hinst hmu hst hfail
    have hcause : ∃ cause,
        (∃ x err, (e.initializer (w, k)).1 = .returned (x, some err) ∧
            cause = "failed to initialize global object '" ++ name ++ "': " ++ err.Error) ∨
          ((e.initializer (w, k)).1 = .returned (none, none) ∧
            cause = "panic occurred while initializing global object '" ++ name
              ++ "': " ++ "sync/atomic: store of nil value into Value") ∨
          (∃ r, (e.initializer (w, k)).1 = .panicked r ∧
            cause = "panic occurred while initializing global object '" ++ name
              ++ "': " ++ r) := by
      rw [hinit]
      rcases hfail w with ⟨x, err, h⟩ | h | ⟨r, h⟩
      · exact ⟨_, Or.inl ⟨x, err, h, rfl⟩⟩
      · exact ⟨_, Or.inr (Or.inl ⟨h, rfl⟩)⟩
      · exact ⟨_, Or.inr (Or.inr ⟨r, h, rfl⟩)⟩
    obtain ⟨cause, hc⟩ := hcause
    have hget := GlobalManager_Get_failure gm name e (w, k) hload hinst hmu hst cause hc
    have hw : (e.initializer (w, k)).2 = ((f w).2, k + 1) := by rw [hinit]; rfl
    rw [hw] at hget
    obtain ⟨i1, i2⟩ := ih (gm.update name { e with once := true, initialized := -1 })
      { e with once := true, initialized := -1 } (f w).2 (k + 1)
      (GlobalManager_Load_update gm name e _ hload) hinit hinst hmu (Or.inr rfl) hfail
    simp only [globalmanager.GlobalManager.Gets, hget]
    refine ⟨by rw [i1]; omega, ?_⟩
    intro r hr
    rcases List.mem_cons.mp hr with h | h
    · exact ⟨_, h⟩
    · exact i2 r h

/-- C22, the claim as stated fails for an initializer that succeeds with a nil
instance: `nilInit` returns nil with a nil error, `atomic.Value` refuses to
store nil, and `Get` reports the panic as an error; three calls of `Get` run
the initializer three times. -/
theorem GlobalManager_Get_nil_instance_counterexample :
    (nilInit ()).1 = .returned (none, none) ∧
    ((globalmanager.GlobalManager.Register "svc" (some (counted nilInit)) globalmanager.NewGlobalManager).2.Get "svc"
        ((), 0)).1
      = .returned (none, some (.errorf ("panic occurred while initializing global object 'svc': "
          ++ "sync/atomic: store of nil value into Value"))) ∧
    ((globalmanager.GlobalManager.Register "svc" (some (counted nilInit)) globalmanager.NewGlobalManager).2.Gets "svc" 3
        ((), 0)).2.2 = ((), 3) := by
  refine ⟨rfl, rfl, rfl⟩

/-- C22, amended: on an entry that no `Get` has initialized with success (as
`Register` made it, or marked failed), with an initializer `f` that counts its
invocations: if `f` returns a non-nil instance and a nil error, any number of
`Get` calls return that instance with a nil error and `f` is invoked once; if
`f` returns an error or panics, `Get` returns a nil instance and an error whose
text holds the cause, `f` is invoked once, and the entry is marked failed, so
that the next `Get` invokes `f` again; while `f` keeps failing, `n` calls of
`Get` invoke it `n` times and each returns an error. -/
theorem GlobalManager_Get_lazy_init (gm : globalmanager.GlobalManager ι (ω × Nat)) (name : String)
    (e : globalmanager.entry ι (ω × Nat)) (f : globalmanager.InitializerFunc ι ω) (w : ω) (k n : Nat)
    (hload : gm.Load name = some e) (hinit : e.initializer = counted f)
    (hinst : e.instance_ = none) (hmu : e.mu = false)
    (hst : (e.initialized = 0 ∧ e.once = false) ∨ e.initialized = -1) :
    (∀ inst w1, f w = (.returned (some inst, none), w1) →
      (gm.Gets name (n + 1) (w, k)).1 = List.replicate (n + 1) (.returned (some inst, none)) ∧
      (gm.Gets name (n + 1) (w, k)).2.2 = (w1, k + 1)) ∧
    (∀ x err w1, f w = (.returned (x, some err), w1) →
      gm.Get name (w, k) =
        (.returned (none, some (.errorf
          ("failed to initialize global object '" ++ name ++ "': " ++ err.Error))),
          gm.update name { e with once := true, initialized := -1 }, (w1, k + 1))) ∧
    (∀ r w1, f w = (.panicked r, w1) →
      gm.Get name (w, k) =
        (.returned (none, some (.errorf
          ("panic occurred while initializing global object '" ++ name ++ "': " ++ r))),
          gm.update name { e with once := true, initialized := -1 }, (w1, k + 1))) ∧
    ((gm.update name { e with once := true, initialized := -1 }).Load name
      = some { e with once := true, initialized := -1 }) ∧
    ((∀ w', (∃ x err, (f w').1 = .returned (x, some err)) ∨ (∃ r, (f w').1 = .panicked r)) →
      (gm.Gets name n (w, k)).2.2.2 = k + n ∧
      ∀ r ∈ (gm.Gets name n (w, k)).1, ∃ err, r = .returned (none, some err)) := by
  refine ⟨?_, ?_, ?_, GlobalManager_Load_update gm name e _ hload, ?_⟩
  · intro inst w1 hf
    have hf2 : e.initializer (w, k) = (.returned (some inst, none), (w1, k + 1)) := by
      rw [hinit]
      simp [counted, hf]
    have hget := GlobalManager_Get_success gm name e (w, k) (w1, k + 1) inst hload hmu hst hf2
    have hrest := GlobalManager_Gets_initialized name inst n
      (gm.update name { e with once := true, instance_ := some inst, initialized := 1 })
      (w1, k + 1) { e with once := true, instance_ := some inst, initialized := 1 }
      (GlobalManager_Load_update gm name e _ hload) rfl rfl
    simp only [globalmanager.GlobalManager.Gets, hget, hrest, List.replicate_succ]
    exact ⟨trivial, trivial⟩
  · intro x err w1 hf
    have hget := GlobalManager_Get_failure gm name e (w, k) hload hinst hmu hst _
      (Or.inl ⟨x, err, by rw [hinit]; simp [counted, hf], rfl⟩)
    rw [hget, hinit]
    simp [counted, hf]
  · intro r w1 hf
    have hget := GlobalManager_Get_failure gm name e (w, k) hload hinst hmu hst _
      (Or.inr (Or.inr ⟨r, by rw [hinit]; simp [counted, hf], rfl⟩))
    rw [hget, hinit]
    simp [counted, hf]
  · intro hfail
    exact GlobalManager_Gets_failing name f n gm e w k hload hinit hinst hmu hst
      (fun w' => by
        rcases hfail w' with h | h
        · exact Or.inl h
        · exact Or.inr (Or.inr h))

theorem GlobalManager_Get_lazy_init_witness :
    (((globalmanager.GlobalManager.Register "once_obj" (some (counted objInit)) globalmanager.NewGlobalManager).2.Gets
        "once_obj" 40 ((), 0)).1 = List.replicate 40 (.returned (some 7, none)) ∧
      ((globalmanager.GlobalManager.Register "once_obj" (some (counted objInit)) globalmanager.NewGlobalManager).2.Gets
        "once_obj" 40 ((), 0)).2.2 = ((), 1)) ∧
    ((globalmanager.GlobalManager.Register "err_svc" (some (counted errInit)) globalmanager.NewGlobalManager).2.Get
        "err_svc" ((), 0)).1
      = .returned (none, some (.errorf
          ("failed to initialize global object '" ++ "err_svc" ++ "': " ++ "boom-error"))) ∧
    ((globalmanager.GlobalManager.Register "panic_svc" (some (counted panicInit)) globalmanager.NewGlobalManager).2.Get
        "panic_svc" ((), 0)).1
      = .returned (none, some (.errorf
          ("panic occurred while initializing global object '" ++ "panic_svc" ++ "': "
            ++ "panic-xyz"))) ∧
    ((globalmanager.GlobalManager.Register "err_svc" (some (counted errInit)) globalmanager.NewGlobalManager).2.Gets
        "err_svc" 2 ((), 0)).2.2.2 = 0 + 2 :=
  ⟨(GlobalManager_Get_lazy_init
      (globalmanager.GlobalManager.Register "once_obj" (some (counted objInit)) globalmanager.NewGlobalManager).2 "once_obj"
      { initializer := counted objInit, once := false, instance_ := none, initialized := 0,
        mu := false }
      objInit () 0 39 rfl rfl rfl rfl (Or.inl ⟨rfl, rfl⟩)).1 7 () rfl,
   congrArg Prod.fst ((GlobalManager_Get_lazy_init
      (globalmanager.GlobalManager.Register "err_svc" (some (counted errInit)) globalmanager.NewGlobalManager).2 "err_svc"
      { initializer := counted errInit, once := false, instance_ := none, initialized := 0,
        mu := false }
      errInit () 0 2 rfl rfl rfl rfl (Or.inl ⟨rfl, rfl⟩)).2.1 none (.errorf "boom-error") () rfl),
   congrArg Prod.fst ((GlobalManager_Get_lazy_init
      (globalmanager.GlobalManager.Register "panic_svc" (some (counted panicInit)) globalmanager.NewGlobalManager).2
      "panic_svc"
      { initializer := counted panicInit, once := false, instance_ := none, initialized := 0,
        mu := false }
      panicInit () 0 2 rfl rfl rfl rfl (Or.inl ⟨rfl, rfl⟩)).2.2.1 "panic-xyz" () rfl),
   ((GlobalManager_Get_lazy_init
      (globalmanager.GlobalManager.Register "err_svc" (some (counted errInit)) globalmanager.NewGlobalManager).2 "err_svc"
      { initializer := counted errInit, once := false, instance_ := none, initialized := 0,
        mu := false }
      errInit () 0 2 rfl rfl rfl rfl (Or.inl ⟨rfl, rfl⟩)).2.2.2.2
        (fun _ => Or.inl ⟨none, .errorf "boom-error", rfl⟩)).1⟩

/-- C23 (the code breaks the claim): `Release` of a registered name whose
instance has a `Close` that returns nil calls `entity.instance.Store(nil)`,
which panics in `atomic.Value` while `entity.mu` is locked, before the flag
and the `sync.Once` are reset. On a manager with `db` registered: `Get`
returns connection 0; `Release` panics; the name stays registered, the entry
still holds connection 0 with `initialized` 1 and its mutex locked; the next
`Get` returns connection 0 again and does not run the initializer. -/
theorem GlobalManager_Release_then_Get :
    ((globalmanager.GlobalManager.Register "db" (some connInit) globalmanager.NewGlobalManager).2.Get "db" 0).1
      = .returned (some 0, none) ∧
    (globalmanager.GlobalManager.Release connClosable "db"
      ((globalmanager.GlobalManager.Register "db" (some connInit) globalmanager.NewGlobalManager).2.Get "db" 0).2.1 1).1
      = .panicked "sync/atomic: store of nil value into Value" ∧
    (globalmanager.GlobalManager.Release connClosable "db"
      ((globalmanager.GlobalManager.Register "db" (some connInit) globalmanager.NewGlobalManager).2.Get "db" 0).2.1
        1).2.1.IsRegistered "db" = true ∧
    ((globalmanager.GlobalManager.Release connClosable "db"
      ((globalmanager.GlobalManager.Register "db" (some connInit) globalmanager.NewGlobalManager).2.Get "db" 0).2.1
        1).2.1.Load "db").map (fun e => (e.instance_, e.initialized, e.once, e.mu))
      = some (some 0, 1, true, true) ∧
    ((globalmanager.GlobalManager.Release connClosable "db"
      ((globalmanager.GlobalManager.Register "db" (some connInit) globalmanager.NewGlobalManager).2.Get "db" 0).2.1
        1).2.1.Get "db" 1).1 = .returned (some 0, none) ∧
    ((globalmanager.GlobalManager.Release connClosable "db"
      ((globalmanager.GlobalManager.Register "db" (some connInit) globalmanager.NewGlobalManager).2.Get "db" 0).2.1
        1).2.1.Get "db" 1).2.2 = 1 := by
  refine ⟨rfl, rfl, rfl, rfl, rfl, rfl⟩

end Manager

section Exceptions

/-- C24 (the code breaks the claim): `Throw` indexes the exception map with
`k`, the key under which the map is registered in the global manager, not
with its argument `key` as `Get` does. With the map of the example
application registered, `Get("InputParamError")` returns the exception
registered under that key (400001), while `Throw("InputParamError")` panics
with the exception of the unknown error (500000); so does `Throw` for every
key and every data argument. -/
theorem Throw_ignores_key (key : String) (d : List (Option exception.AnyData)) :
    (exception.Get some "InputParamError" exceptionManager ()).1
      = .ok { Code := 400001, Msg := "Invalid request parameters", Data := none } ∧
    (exception.Throw some "InputParamError" [] exceptionManager ()).1
      = .exception
          { Code := 500000,
            Msg := "Don't worry, something went wrong, please try again later.",
            Data := none } ∧
    (exception.Throw some key d exceptionManager ()).1
      = .exception (exception.New exception.UnknownErrCode exception.UnknownErrMsg []) := by
  refine ⟨rfl, rfl, ?_⟩
  have hl : (exception.loadExceptions some exceptionManager ()).1 = .ok exampleExceptions := rfl
  have hk : exampleExceptions.lookup (exception.RegisterKeyPrefix ++ "exceptions") = none := rfl
  rcases hload : exception.loadExceptions some exceptionManager () with ⟨o, gm1, w1⟩
  rw [hload] at hl
  simp only at hl
  subst hl
  simp only [exception.Throw, hload, hk]

end Exceptions

end Fiberhouse

namespace Fiberhouse

section OptionClone

variable {R : Type}

/-- The option that `OptionPoolGet` hands out, for a pool that holds objects:
it is an object, it is not an option outside the pool, and the objects that
were there are as they were. -/
theorem OptionHeap_OptionPoolGet_spec (h : OptionHeap R) (ctx : Option IContext)
    (pick : Option Nat) (c : Nat) (hc : c < h.options.length) (hfree : c ∉ h.free)
    (hpool : ∀ a ∈ h.free, a < h.options.length) :
    (h.OptionPoolGet ctx pick).1 ≠ c ∧
    (h.OptionPoolGet ctx pick).1 < (h.OptionPoolGet ctx pick).2.options.length ∧
    (h.OptionPoolGet ctx pick).2.options[c]? = h.options[c]? ∧
    (∀ (p : Nat) (t : TTLConfig), h.ttls[p]? = some t → (h.OptionPoolGet ctx pick).2.ttls[p]? = some t) ∧
    (∃ captured, (h.OptionPoolGet ctx pick).2.New = some captured) := by
  have hnew : (OptionHeap.NewCacheOption (h.New.getD ctx)
        { h with New := some (h.New.getD ctx) }).1 ≠ c ∧
      (OptionHeap.NewCacheOption (h.New.getD ctx) { h with New := some (h.New.getD ctx) }).1
        < (OptionHeap.NewCacheOption (h.New.getD ctx)
            { h with New := some (h.New.getD ctx) }).2.options.length ∧
      (OptionHeap.NewCacheOption (h.New.getD ctx)
        { h with New := some (h.New.getD ctx) }).2.options[c]? = h.options[c]? ∧
      (∀ (p : Nat) (t : TTLConfig), h.ttls[p]? = some t → (OptionHeap.NewCacheOption (h.New.getD ctx)
        { h with New := some (h.New.getD ctx) }).2.ttls[p]? = some t) ∧
      (∃ captured, (OptionHeap.NewCacheOption (h.New.getD ctx)
        { h with New := some (h.New.getD ctx) }).2.New = some captured) := by
    simp only [OptionHeap.NewCacheOption]
    refine ⟨by omega, by simp, List.getElem?_append_left hc, ?_, ⟨_, rfl⟩⟩
    intro p t hp
    have hlt : p < h.ttls.length := by
      by_contra hge
      rw [List.getElem?_eq_none (by omega)] at hp
      cases hp
    rw [List.getElem?_append_left hlt]
    exact hp
  rcases pick with _ | a
  · exact hnew
  · by_cases ha : a ∈ h.free
    · have e : h.OptionPoolGet ctx (some a)
          = (a, { h with New := some (h.New.getD ctx), free := h.free.erase a }) := by
        simp only [OptionHeap.OptionPoolGet, ha, if_true]
      rw [e]
      refine ⟨fun h' => hfree (h' ▸ ha), hpool a ha, rfl, ?_, ⟨_, rfl⟩⟩
      intro p t hp
      exact hp
    · have e : h.OptionPoolGet ctx (some a)
          = OptionHeap.NewCacheOption (h.New.getD ctx) { h with New := some (h.New.getD ctx) } := by
        simp only [OptionHeap.OptionPoolGet, ha, if_false]
      rw [e]
      exact hnew

/-- Reading a list of configurations after two were appended. -/
theorem ttls_append_two (l : List TTLConfig) (a b : TTLConfig) :
    (l ++ [a] ++ [b])[l.length]? = some a ∧ (l ++ [a] ++ [b])[l.length + 1]? = some b ∧
    ∀ (p : Nat) (t : TTLConfig), l[p]? = some t → (l ++ [a] ++ [b])[p]? = some t := by
  refine ⟨?_, ?_, ?_⟩
  · rw [List.getElem?_append_left (by simp), List.getElem?_append_right (le_refl _),
      Nat.sub_self]
    rfl
  · have hlen : (l ++ [a]).length = l.length + 1 := by simp
    rw [List.getElem?_append_right (by omega), hlen, Nat.sub_self]
    rfl
  intro p t hp
  have hlt : p < l.length := by
    by_contra hge
    rw [List.getElem?_eq_none (by omega)] at hp
    cases hp
  rw [List.append_assoc, List.getElem?_append_left hlt]
  exact hp

/-- The assignments of `Clone` to an object other than `c`, when both TTL
configurations of `c` are objects: the clone gets the fields of `c` and two
new configurations with the values of those of `c`. -/
theorem OptionHeap_cloneInto_eq (c0 coNew0 : OptionObject R) (c n : Nat) (ctx : List Context)
    (h1 : OptionHeap R) (pl pr : Nat) (tl tr : TTLConfig)
    (hn : h1.options[n]? = some coNew0) (hne : n ≠ c)
    (hlp : c0.localTTLConfig = some pl) (hrp : c0.remoteTTLConfig = some pr)
    (htl : h1.ttls[pl]? = some tl) (htr : h1.ttls[pr]? = some tr) :
    ∃ obj : OptionObject R,
      OptionHeap.cloneInto c0 c n ctx h1 =
        (.returned n,
          { h1 with ttls := h1.ttls ++ [tl] ++ [tr], options := h1.options.set n obj }) ∧
      obj.ctx = ctx.headD coNew0.ctx ∧
      (obj.enable = c0.enable ∧ obj.cacheLevel = c0.cacheLevel ∧
        obj.syncStrategy = c0.syncStrategy ∧ obj.singleFlight = c0.singleFlight ∧
        obj.bloomFilter = c0.bloomFilter ∧ obj.circuitBreaker = c0.circuitBreaker ∧
        obj.cacheKey = c0.cacheKey ∧ obj.jsonWrapper = c0.jsonWrapper ∧
        obj.defaultInstanceKey = c0.defaultInstanceKey) ∧
      obj.localTTLConfig = some h1.ttls.length ∧
      obj.remoteTTLConfig = some (h1.ttls.length + 1) := by
  have htr2 : (h1.ttls ++ [tl])[pr]? = some tr := by
    have hlt : pr < h1.ttls.length := by
      by_contra hge
      rw [List.getElem?_eq_none (by omega)] at htr
      cases htr
    rw [List.getElem?_append_left hlt]
    exact htr
  refine ⟨{ coNew0 with
      ctx := ctx.headD coNew0.ctx,
      enable := c0.enable, cacheLevel := c0.cacheLevel,
      syncStrategy := c0.syncStrategy, singleFlight := c0.singleFlight,
      bloomFilter := c0.bloomFilter, circuitBreaker := c0.circuitBreaker,
      cacheKey := c0.cacheKey, jsonWrapper := c0.jsonWrapper,
      localTTLConfig := some h1.ttls.length,
      remoteTTLConfig := some (h1.ttls.length + 1),
      defaultInstanceKey := c0.defaultInstanceKey }, ?_, rfl,
    ⟨rfl, rfl, rfl, rfl, rfl, rfl, rfl, rfl, rfl⟩, rfl, rfl⟩
  rcases ctx with _ | ⟨x, rest⟩ <;>
    simp [OptionHeap.cloneInto, hn, hne, OptionHeap.copyTTL, hlp, hrp, htl, htr2]

/-- The object and the two configurations behind an option whose value has
both TTL configurations. -/
theorem OptionHeap_view_objects (h : OptionHeap R) (c : Nat) (cv : CacheOption R)
    (tl tr : TTLConfig) (hview : h.view c = some cv) (hl : cv.localTTLConfig = some tl)
    (hr : cv.remoteTTLConfig = some tr) :
    ∃ c0 pl pr, h.options[c]? = some c0 ∧ c0.localTTLConfig = some pl ∧
      c0.remoteTTLConfig = some pr ∧ h.ttls[pl]? = some tl ∧ h.ttls[pr]? = some tr ∧
      cv = { AppCtx := c0.AppCtx, enable := c0.enable, ctx := c0.ctx,
             cacheLevel := c0.cacheLevel, syncStrategy := c0.syncStrategy,
             singleFlight := c0.singleFlight, bloomFilter := c0.bloomFilter,
             circuitBreaker := c0.circuitBreaker, cacheKey := c0.cacheKey,
             jsonWrapper := c0.jsonWrapper, localTTLConfig := some tl,
             remoteTTLConfig := some tr, defaultInstanceKey := c0.defaultInstanceKey } := by
  unfold OptionHeap.view at hview
  rcases hc : h.options[c]? with _ | c0
  · simp [hc] at hview
  · simp only [hc] at hview
    rcases hdl : OptionHeap.derefTTL h.ttls c0.localTTLConfig with _ | l
    · simp [hdl] at hview
    · rcases hdr : OptionHeap.derefTTL h.ttls c0.remoteTTLConfig with _ | r
      · simp [hdl, hdr] at hview
      · simp only [hdl, hdr, Option.some.injEq] at hview
        subst hview
        simp only at hl hr
        subst hl
        subst hr
        rcases hlp : c0.localTTLConfig with _ | pl
        · simp [hlp, OptionHeap.derefTTL] at hdl
        · rcases hrp : c0.remoteTTLConfig with _ | pr
          · simp [hrp, OptionHeap.derefTTL] at hdr
          · simp only [hlp, OptionHeap.derefTTL, Option.map_eq_some', Option.some.injEq,
              exists_eq_right] at hdl
            simp only [hrp, OptionHeap.derefTTL, Option.map_eq_some', Option.some.injEq,
              exists_eq_right] at hdr
            exact ⟨c0, pl, pr, rfl, hlp, hrp, hdl, hdr, rfl⟩

/-- The value at `n` is not affected by `Reset` or `Release` of another option
`c` whose configurations are other objects than those of `n`. -/
theorem OptionHeap_Reset_frame (h : OptionHeap R) (c n : Nat) (c0 oN : OptionObject R)
    (pl pr a1 a2 : Nat) (hc : h.options[c]? = some c0) (hn : h.options[n]? = some oN)
    (hne : n ≠ c) (hlp : c0.localTTLConfig = some pl) (hrp : c0.remoteTTLConfig = some pr)
    (hl : oN.localTTLConfig = some a1) (hr : oN.remoteTTLConfig = some a2)
    (h1 : a1 ≠ pl) (h2 : a1 ≠ pr) (h3 : a2 ≠ pl) (h4 : a2 ≠ pr) :
    (h.Reset c).1 = .returned () ∧ (h.Reset c).2.view n = h.view n ∧
    (h.Release c).2.view n = h.view n := by
  have hcn : c ≠ n := fun e => hne e.symm
  have e : h.Reset c = (.returned (),
      { h with
        ttls := (h.ttls.set pl { BaseTTL := 0, RandomRange := 0, UseRandom := false }).set pr
          { BaseTTL := 0, RandomRange := 0, UseRandom := false },
        options := h.options.set c
          { c0 with
            ctx := none, bloomFilter := false, circuitBreaker := false, singleFlight := false,
            localTTLConfig := some pl, remoteTTLConfig := some pr, defaultInstanceKey := "",
            cacheKey := "", jsonWrapper := none, syncStrategy := WriteRemoteOnly,
            cacheLevel := 0, enable := true } }) := by
    simp [OptionHeap.Reset, hc, hlp, hrp, OptionHeap.resetTTL]
  have hv : (h.Reset c).2.view n = h.view n := by
    rw [e]
    simp only [OptionHeap.view, List.getElem?_set_ne hcn, hn, hl, hr, OptionHeap.derefTTL,
      List.getElem?_set_ne (Ne.symm h1), List.getElem?_set_ne (Ne.symm h2),
      List.getElem?_set_ne (Ne.symm h3), List.getElem?_set_ne (Ne.symm h4)]
  refine ⟨by rw [e], hv, ?_⟩
  rw [← hv]
  simp only [OptionHeap.Release, OptionHeap.OptionPoolPut, e]
  rcases h.New with _ | x
  · rfl
  · rfl

/-- C26: for an option `c` in memory that is not in the pool and whose two
TTL configurations are objects (as they are in every option that
`NewCacheOption` or `OptionPoolGet` made), whatever object the pool hands out:
`Clone` returns another object `n`, whose enable flag, level, strategy, three
protection flags, cache key, serializer, default instance key and two TTL
configurations equal those of `c`, and whose context is the one passed when
one is passed; `c` itself is as before. A following `Reset` or `Release` of
`c` returns and leaves every field of the clone as it is. -/
theorem Clone_copies_without_sharing (h : OptionHeap R) (c : Nat) (cv : CacheOption R)
    (tl tr : TTLConfig) (ctx : List Context) (pick : Option Nat)
    (hview : h.view c = some cv) (hl : cv.localTTLConfig = some tl)
    (hr : cv.remoteTTLConfig = some tr) (hfree : c ∉ h.free)
    (hpool : ∀ a ∈ h.free, a < h.options.length) :
    ∃ n clone,
      (h.Clone c ctx pick).1 = .returned n ∧ n ≠ c ∧
      (h.Clone c ctx pick).2.view n = some clone ∧
      (h.Clone c ctx pick).2.view c = some cv ∧
      (clone.enable = cv.enable ∧ clone.cacheLevel = cv.cacheLevel ∧
        clone.syncStrategy = cv.syncStrategy ∧ clone.singleFlight = cv.singleFlight ∧
        clone.bloomFilter = cv.bloomFilter ∧ clone.circuitBreaker = cv.circuitBreaker ∧
        clone.cacheKey = cv.cacheKey ∧ clone.jsonWrapper = cv.jsonWrapper ∧
        clone.defaultInstanceKey = cv.defaultInstanceKey ∧
        clone.localTTLConfig = cv.localTTLConfig ∧
        clone.remoteTTLConfig = cv.remoteTTLConfig) ∧
      (∀ x rest, ctx = x :: rest → clone.ctx = x) ∧
      ((h.Clone c ctx pick).2.Reset c).1 = .returned () ∧
      ((h.Clone c ctx pick).2.Reset c).2.view n = some clone ∧
      ((h.Clone c ctx pick).2.Release c).2.view n = some clone := by
  obtain ⟨c0, pl, pr, hc, hlp, hrp, htl, htr, hcv⟩ :=
    OptionHeap_view_objects h c cv tl tr hview hl hr
  have hclt : c < h.options.length := by
    by_contra hge
    rw [List.getElem?_eq_none (by omega)] at hc
    cases hc
  obtain ⟨g1, g2, g3, g4, -⟩ := OptionHeap_OptionPoolGet_spec h c0.AppCtx pick c hclt hfree hpool
  have hClone : h.Clone c ctx pick
      = OptionHeap.cloneInto c0 c (h.OptionPoolGet c0.AppCtx pick).1 ctx
          (h.OptionPoolGet c0.AppCtx pick).2 := by
    simp only [OptionHeap.Clone, hc]
  generalize (h.OptionPoolGet c0.AppCtx pick).1 = n at g1 g2 g3 g4 hClone
  generalize (h.OptionPoolGet c0.AppCtx pick).2 = h1 at g2 g3 g4 hClone
  have hn : h1.options[n]? = some (h1.options[n]) := List.getElem?_eq_getElem g2
  have htl1 := g4 pl tl htl
  have htr1 := g4 pr tr htr
  have hpl : pl < h1.ttls.length := by
    by_contra hge
    rw [List.getElem?_eq_none (by omega)] at htl1
    cases htl1
  have hpr : pr < h1.ttls.length := by
    by_contra hge
    rw [List.getElem?_eq_none (by omega)] at htr1
    cases htr1
  obtain ⟨obj, heq, hctx, ⟨e1, e2, e3, e4, e5, e6, e7, e8, e9⟩, hol, hor⟩ :=
    OptionHeap_cloneInto_eq c0 (h1.options[n]) c n ctx h1 pl pr tl tr hn g1 hlp hrp htl1 htr1
  rw [hClone, heq]
  obtain ⟨t1, t2, t3⟩ := ttls_append_two h1.ttls tl tr
  have hc1 : (h1.options.set n obj)[c]? = some c0 := by
    rw [List.getElem?_set_ne g1, g3, hc]
  have hn1 : (h1.options.set n obj)[n]? = some obj := List.getElem?_set_self g2
  have hviewn : OptionHeap.view
      { h1 with ttls := h1.ttls ++ [tl] ++ [tr], options := h1.options.set n obj } n
      = some { AppCtx := obj.AppCtx, enable := obj.enable, ctx := obj.ctx,
               cacheLevel := obj.cacheLevel, syncStrategy := obj.syncStrategy,
               singleFlight := obj.singleFlight, bloomFilter := obj.bloomFilter,
               circuitBreaker := obj.circuitBreaker, cacheKey := obj.cacheKey,
               jsonWrapper := obj.jsonWrapper, localTTLConfig := some tl,
               remoteTTLConfig := some tr, defaultInstanceKey := obj.defaultInstanceKey } := by
    simp only [OptionHeap.view, hn1, hol, hor, OptionHeap.derefTTL, t1, t2, Option.map_some']
  have hrf := OptionHeap_Reset_frame
    { h1 with ttls := h1.ttls ++ [tl] ++ [tr], options := h1.options.set n obj }
    c n c0 obj pl pr h1.ttls.length (h1.ttls.length + 1) hc1 hn1 g1
    hlp hrp hol hor (by omega) (by omega) (by omega) (by omega)
  refine ⟨n, _, rfl, g1, hviewn, ?_, ?_, ?_, hrf.1, ?_, ?_⟩
  · simp only [OptionHeap.view, hc1, hlp, hrp, OptionHeap.derefTTL, t3 pl tl htl1,
      t3 pr tr htr1, Option.map_some', hcv]
  · subst hcv
    exact ⟨e1, e2, e3, e4, e5, e6, e7, e8, e9, rfl, rfl⟩
  · intro x rest hx
    show obj.ctx = x
    rw [hctx, hx]
    rfl
  · rw [hrf.2.1]
    exact hviewn
  · rw [hrf.2.2]
    exact hviewn

theorem Clone_copies_without_sharing_witness :
    ∃ n clone,
      (demoHeap.Clone 0 [some 7] (some 1)).1 = .returned n ∧ n ≠ 0 ∧
      (demoHeap.Clone 0 [some 7] (some 1)).2.view n = some clone ∧
      clone.cacheKey = "k1" ∧ clone.syncStrategy = AsyncWriteRemoteOnly ∧
      clone.localTTLConfig = some { BaseTTL := 60, RandomRange := 5, UseRandom := true } ∧
      clone.ctx = some 7 ∧
      ((demoHeap.Clone 0 [some 7] (some 1)).2.Reset 0).2.view n = some clone ∧
      ((demoHeap.Clone 0 [some 7] (some 1)).2.Release 0).2.view n = some clone := by
  obtain ⟨n, clone, h1, h2, h3, -, ⟨-, -, e3, -, -, -, e7, -, -, e10, -⟩, h6, -, h8, h9⟩ :=
    Clone_copies_without_sharing demoHeap 0
      { AppCtx := none, enable := true, ctx := some 3, cacheLevel := Level2,
        syncStrategy := AsyncWriteRemoteOnly, singleFlight := true, bloomFilter := false,
        circuitBreaker := true, cacheKey := "k1", jsonWrapper := none,
        localTTLConfig := some { BaseTTL := 60, RandomRange := 5, UseRandom := true },
        remoteTTLConfig := some { BaseTTL := 120, RandomRange := 0, UseRandom := false },
        defaultInstanceKey := "redis2" }
      { BaseTTL := 60, RandomRange := 5, UseRandom := true }
      { BaseTTL := 120, RandomRange := 0, UseRandom := false }
      [some 7] (some 1) rfl rfl rfl (by decide) (by decide)
  exact ⟨n, clone, h1, h2, h3, e7, e3, e10, h6 (some 7) [] rfl, h8, h9⟩

end OptionClone

end Fiberhouse
